import Mathlib

/-!
# Windows clipboard plugin: a shallow embedding

The definitions follow `windows/clipboard_plugin.cpp` (class `ClipboardPluginImpl`); the
namespace `Runner` holds `HandlePasteImage` of `example/windows/runner/clipboard_plugin.cpp`,
the one handler in which the example runner's copy of the class differs.

* C++ `int` values are mathematical integers reduced by `wrap32` after every
  arithmetic operation; `/` is truncating division.
* `std::string` values and clipboard memory blocks are lists of byte values.
* A memory access outside its block has no defined result: the functions that
  walk raw pointers return `Option`, and `none` stands for such an access.
* Win32, GDI+ and the method channel are external.  The clipboard is a record of
  the formats the plugin touches; the outcome of every native call whose result
  the code inspects is a field of `Native`.
-/

namespace ClipboardPlugin

/-! ## Machine integers -/

/-- Reduction of an integer to the range of a 32-bit two's-complement `int`. -/
def wrap32 (z : Int) : Int := (z + 2147483648) % 4294967296 - 2147483648

/-- Product of two `int` values. -/
def imul (a b : Int) : Int := wrap32 (a * b)

/-- Sum of two `int` values. -/
def iadd (a b : Int) : Int := wrap32 (a + b)

/-- Difference of two `int` values. -/
def isub (a b : Int) : Int := wrap32 (a - b)

/-- Quotient of two `int` values, rounding toward zero. -/
def idiv (a b : Int) : Int := wrap32 (Int.tdiv a b)

/-- Library function `abs` on `int`. -/
def iabs (a : Int) : Int := wrap32 (if a < 0 then -a else a)

/-- Conversion of an `int` to the unsigned 32-bit `DWORD`. -/
def toDWORD (z : Int) : Nat := (z % 4294967296).toNat

/-- Row size of a DIB: the expression `((width * bitsPerPixel + 31) / 32) * 4`
of `HandlePasteImage`, and with `bitsPerPixel = 32` of `SetClipboardImage`. -/
def rowSize (width bitsPerPixel : Int) : Int :=
  imul (idiv (iadd (imul width bitsPerPixel) 31) 32) 4

/-! ## Bytes, strings and raw memory -/

/-- Byte values of an ASCII string literal. -/
def ascii (s : String) : List Nat := s.data.map Char.toNat

/-- NUL-terminated view of a character sequence: the cells before the first zero.
This is what `c_str()` consumers, `strcpy_s`, `wcscpy_s`, `std::string(const char*)` and
the `-1` length of the code-page conversions read. -/
def cstr (s : List Nat) : List Nat := s.takeWhile (fun c => c != 0)

/-- Read of one cell at a signed offset from the start of a block. -/
def peek (m : List Nat) (i : Int) : Option Nat :=
  if i < 0 then none else m[i.toNat]?

/-- Write of one cell at a signed offset from the start of a block. -/
def poke (m : List Nat) (i : Int) (v : Nat) : Option (List Nat) :=
  if 0 ≤ i ∧ i.toNat < m.length then some (m.set i.toNat v) else none

/-- Counting loop `for (int i = 0; i < n; i++) body`. -/
def forInt {σ : Type} (n : Int) (body : Int → σ → Option σ) (s : σ) : Option σ :=
  (List.range n.toNat).foldlM (fun (acc : σ) (i : Nat) => body (Int.ofNat i) acc) s

/-- Library function `memcpy(dst + dOff, src + sOff, count)`, one byte at a time; a negative
`int` count converts to a size beyond every block. -/
def memcpy (dst : List Nat) (dOff : Int) (src : List Nat) (sOff : Int) (count : Int) :
    Option (List Nat) :=
  if count < 0 then none
  else forInt count (fun i d => do
    let v ← peek src (sOff + i)
    poke d (dOff + i) v) dst

/-- String copy `strcpy_s` / `wcscpy_s` into a fresh block: the source up to and including
its terminator, the rest of the block untouched. -/
def strcpyInto (block src : List Nat) : List Nat :=
  cstr src ++ [0] ++ block.drop ((cstr src).length + 1)

/-! ## Method-channel values -/

/-- Element of an `EncodableList`. -/
inductive Elem where
  | int32 (v : Int)
  | int64 (v : Int)
  | other
  deriving DecidableEq, Repr

/-- Key of an `EncodableMap`: a string, or a value of another type. -/
inductive Key where
  | str (s : String)
  | other (tag : Nat)
  deriving DecidableEq, Repr

/-- The `EncodableValue` alternatives the handlers distinguish. -/
inductive Val where
  | str (s : List Nat)
  | list (l : List Elem)
  | map (m : List (Key × Val))
  | other

/-- An `EncodableMap` as its list of entries. -/
abbrev EncodableMap := List (Key × Val)

/-- Lookup `m->find(EncodableValue(k))` of a string key. -/
def find (m : EncodableMap) (k : String) : Option Val :=
  (m.find? (fun e => e.1 == Key.str k)).map (fun e => e.2)

/-- What a handler passes to `MethodResult`: `Success` with the value shapes the handlers
build, or `Error` with its code and message. -/
inductive Reply where
  | successBool (b : Bool)
  | successText (text : List Nat)
  | successRich (text html : List Nat) (timestamp : Int)
  | successImage (imageBytes : Option (List Nat))
  | successString (s : String)
  | successInt (n : Int)
  | error (code message : String)
  deriving DecidableEq, Repr

/-! ## The system clipboard and the native calls -/

/-- Clipboard formats the plugin asks for: `CF_UNICODETEXT`, `CF_DIB` and the registered
`"HTML Format"`; the example runner's `HandlePasteImage` also asks for `CF_BITMAP` and
`CF_HDROP`. -/
inductive Fmt where
  | unicodeText
  | dib
  | html
  | bitmap
  | hdrop
  deriving DecidableEq, Repr

/-- A clipboard API call, as recorded in the order the handlers make them. `readBlock` is
not an API call: it is a read of the memory block of a format through the pointer
`GlobalLock` returned for it, recorded where a handler makes such a read after it has
unlocked the block and closed the clipboard. Reads made while the block is locked belong to
the step that follows `GetClipboardData` and are not recorded. -/
inductive Call where
  | openClipboard (ok : Bool)
  | emptyClipboard
  | closeClipboard
  | isClipboardFormatAvailable (f : Fmt)
  | getClipboardData (f : Fmt)
  | setClipboardData (f : Fmt) (ok : Bool)
  | readBlock (f : Fmt)
  deriving DecidableEq, Repr

/-- A `CF_DIB` memory block: the `BITMAPINFOHEADER` fields the code sets or reads, and the
bytes that follow the header. -/
structure Dib where
  biSize : Int
  biWidth : Int
  biHeight : Int
  biPlanes : Int
  biBitCount : Int
  biCompression : Int
  bits : List Nat
  deriving DecidableEq, Repr

/-- A GDI+ bitmap as `LockBits` with `PixelFormat32bppARGB` exposes it: `GetWidth`,
`GetHeight`, `BitmapData::Stride` and the bytes at `BitmapData::Scan0`. -/
structure Bitmap where
  width : Int
  height : Int
  stride : Int
  scan0 : List Nat
  deriving DecidableEq, Repr

/-- The system clipboard: the memory block stored under each format (16-bit units for
`CF_UNICODETEXT`, bytes for `"HTML Format"`, the bitmap behind the `CF_BITMAP` handle, the
file paths of `CF_HDROP` as `DragQueryFile` returns them, in 16-bit units without the
terminator), whether this process holds it open, and the calls made so far. -/
structure Clipboard where
  text : Option (List Nat) := none
  dib : Option Dib := none
  html : Option (List Nat) := none
  bitmap : Option Bitmap := none
  hdrop : Option (List (List Nat)) := none
  isOpen : Bool := false
  calls : List Call := []
  deriving DecidableEq, Repr

/-- Data handed to `SetClipboardData`. -/
inductive Data where
  | text (units : List Nat)
  | dib (d : Dib)
  | html (bytes : List Nat)

/-- Outcomes of the native calls made during one handler invocation. A `Bool` field is
whether the call at that site succeeds; the functions are the external conversions. -/
structure Native where
  /-- Result of `OpenClipboard(nullptr)` -/
  openClipboard : Bool
  /-- Result of `RegisterClipboardFormatA("HTML Format")`; zero is failure -/
  registerHtml : Nat
  /-- Conversion `MultiByteToWideChar(CP_UTF8, ...)`: the 16-bit units for a NUL-terminated input,
  terminator excluded -/
  multiByteToWideChar : List Nat → List Nat
  /-- Conversion `WideCharToMultiByte(CP_UTF8, ...)`: the bytes for a NUL-terminated input,
  terminator excluded -/
  wideCharToMultiByte : List Nat → List Nat
  /-- Prior contents of a newly allocated block of the given number of cells -/
  heap : Nat → List Nat
  /-- Result of `GlobalAlloc` for the text block -/
  allocText : Bool
  /-- Result of `GlobalAlloc` for the HTML block -/
  allocHtml : Bool
  /-- Result of `SetClipboardData(CF_UNICODETEXT, ...)` -/
  setText : Bool
  /-- Result of `SetClipboardData(cf_html, ...)` -/
  setHtml : Bool
  /-- Result of `SetClipboardData(CF_DIB, ...) != NULL` -/
  setDib : Bool
  /-- Result of `GetClipboardData(CF_UNICODETEXT)` returns a handle -/
  getText : Bool
  /-- Result of `GetClipboardData(cf_html)` returns a handle -/
  getHtml : Bool
  /-- Result of `GetClipboardData(CF_DIB)` returns a handle -/
  getDib : Bool
  /-- Result of `GetTickCount64()` as `int64_t` -/
  tickCount : Int
  /-- Result of `GlobalAlloc` for the PNG bytes -/
  allocPng : Bool
  /-- Result of `GlobalLock` of the PNG block -/
  lockPng : Bool
  /-- Result of `CreateStreamOnHGlobal(hMem, ...) == S_OK` -/
  createStream : Bool
  /-- Result of `Bitmap::FromStream` with status `Ok` -/
  fromStream : List Nat → Option Bitmap
  /-- Result of `GlobalAlloc` for the DIB -/
  allocDib : Bool
  /-- Result of `GlobalLock` of the DIB (copy) or of the clipboard block (paste) -/
  lockDib : Bool
  /-- Result of `LockBits(...) == Ok` -/
  lockBits : Bool
  /-- Result of `new Bitmap(width, height, PixelFormat32bppARGB)` with status `Ok` -/
  newBitmap : Int → Int → Option Bitmap
  /-- Result of `CreateStreamOnHGlobal(nullptr, ...) == S_OK` -/
  createOutStream : Bool
  /-- PNG encoder: `CLSIDFromString`, `Save`, `Stat` and `Read`; `none` when one fails -/
  savePng : Bitmap → Option (List Nat)
  /-- Result of `GlobalSize` for a text block with the given units -/
  globalSize : List Nat → Nat
  /-- Result of `GetClipboardData(CF_BITMAP)` returns a handle -/
  getBitmap : Bool
  /-- Result of `CreateCompatibleDC(hdcScreen)` for `hdcMem` -/
  createCompatibleDC : Bool
  /-- Result of `CreateCompatibleBitmap(hdcScreen, bm.bmWidth, bm.bmHeight)` -/
  createCompatibleBitmap : Bool
  /-- Result of `CreateCompatibleDC(hdcScreen)` for `hdcSource` -/
  createSourceDC : Bool
  /-- Contents of a new compatible bitmap of the given width and height -/
  compatibleBitmap : Int → Int → Bitmap
  /-- Result of `Bitmap::FromHBITMAP` on the copied bitmap, with status `Ok` -/
  fromHBITMAP : Bitmap → Option Bitmap
  /-- Result of `CreateCompatibleDC(nullptr)` before the DIB section is made -/
  createDibDC : Bool
  /-- Result of `CreateDIBSection(...)` with its bits -/
  createDIBSection : Bool
  /-- Result of `SetDIBits` and `Bitmap::FromHBITMAP` on the DIB section, with status `Ok` -/
  fromDIBSection : Dib → Option Bitmap
  /-- Result of the second `OpenClipboard(nullptr)`, made after the DIB attempt closed the
  clipboard -/
  reopenClipboard : Bool
  /-- Result of `GetClipboardData(CF_HDROP)` returns a handle -/
  getHdrop : Bool
  /-- Result of `Bitmap::FromFile` on a path, with status `Ok` -/
  fromFile : List Nat → Option Bitmap
  /-- Library function `towlower` -/
  towlower : Nat → Nat

/-- Append a call to the record. -/
def note (c : Call) (cb : Clipboard) : Clipboard :=
  { cb with calls := cb.calls ++ [c] }

/-- Win32 `OpenClipboard(nullptr)`. -/
def OpenClipboard (n : Native) (cb : Clipboard) : Clipboard :=
  note (.openClipboard n.openClipboard)
    (if n.openClipboard then { cb with isOpen := true } else cb)

/-- Win32 `EmptyClipboard()`: every format is removed. -/
def EmptyClipboard (cb : Clipboard) : Clipboard :=
  note .emptyClipboard
    { cb with text := none, dib := none, html := none, bitmap := none, hdrop := none }

/-- Win32 `CloseClipboard()`. -/
def CloseClipboard (cb : Clipboard) : Clipboard :=
  note .closeClipboard { cb with isOpen := false }

/-- Whether a format is on the clipboard. -/
def present (f : Fmt) (cb : Clipboard) : Bool :=
  match f with
  | .unicodeText => cb.text.isSome
  | .dib => cb.dib.isSome
  | .html => cb.html.isSome
  | .bitmap => cb.bitmap.isSome
  | .hdrop => cb.hdrop.isSome

/-- Win32 `IsClipboardFormatAvailable(f)`. -/
def IsClipboardFormatAvailable (f : Fmt) (cb : Clipboard) : Clipboard × Bool :=
  (note (.isClipboardFormatAvailable f) cb, present f cb)

/-- Format of a piece of data. -/
def Data.fmt : Data → Fmt
  | .text _ => .unicodeText
  | .dib _ => .dib
  | .html _ => .html

/-- Win32 `SetClipboardData`: on success the block replaces the entry of its format. -/
def SetClipboardData (ok : Bool) (d : Data) (cb : Clipboard) : Clipboard :=
  note (.setClipboardData d.fmt ok)
    (if ok then
      match d with
      | .text u => { cb with text := some u }
      | .dib b => { cb with dib := some b }
      | .html h => { cb with html := some h }
    else cb)

/-- Contents of a block of `size` cells returned by `GlobalAlloc(GMEM_MOVEABLE, ...)`. -/
def freshBlock (heap : Nat → List Nat) (size : Nat) : List Nat :=
  (heap size ++ List.replicate size 0).take size

/-! ## Copy handlers: text and HTML -/

/-- The block under `if (OpenClipboard(nullptr))` that puts a UTF-8 string on the clipboard
as `CF_UNICODETEXT` (the same lines in `HandleCopy`, `HandleCopyRichText` and
`HandleCopyMultiple`): convert `text.c_str()`, allocate, `wcscpy_s`, `SetClipboardData`. -/
def putUnicodeText (n : Native) (text : List Nat) (cb : Clipboard) : Clipboard :=
  let wstr := n.multiByteToWideChar (cstr text) ++ [0]
  if n.allocText then
    SetClipboardData n.setText (.text (strcpyInto (freshBlock n.heap wstr.length) wstr)) cb
  else cb

/-- The constant header written in front of every HTML fragment. -/
def htmlHeader : List Nat :=
  ascii "Version:0.9\r\nStartHTML:00000000\r\nEndHTML:00000000\r\nStartFragment:00000000\r\nEndFragment:00000000\r\n"

/-- The string `html_format` built in `HandleCopyRichText` and `HandleCopyMultiple`. -/
def htmlFormat (html : List Nat) : List Nat :=
  htmlHeader ++ ascii "<html><body><!--StartFragment-->" ++ html ++
    ascii "<!--EndFragment--></body></html>"

/-- The block that puts an HTML fragment on the clipboard under `"HTML Format"` (the same
lines in `HandleCopyRichText` and `HandleCopyMultiple`). -/
def putHtmlFormat (n : Native) (html : List Nat) (cb : Clipboard) : Clipboard :=
  if n.registerHtml != 0 then
    let html_format := htmlFormat html
    if n.allocHtml then
      SetClipboardData n.setHtml
        (.html (strcpyInto (freshBlock n.heap (html_format.length + 1)) html_format)) cb
    else cb
  else cb

/-- Method `copy`. -/
def HandleCopy (n : Native) (arguments : Option EncodableMap) (cb : Clipboard) :
    Clipboard × Reply :=
  match arguments with
  | none => (cb, .error "INVALID_ARGUMENT" "Arguments are required")
  | some args =>
    match find args "text" with
    | some (.str text) =>
      if text.isEmpty then (cb, .error "EMPTY_TEXT" "Text cannot be empty")
      else if n.openClipboard then
        let cb := EmptyClipboard (OpenClipboard n cb)
        let cb := putUnicodeText n text cb
        (CloseClipboard cb, .successBool true)
      else (OpenClipboard n cb, .error "COPY_ERROR" "Failed to open clipboard")
    | _ => (cb, .error "EMPTY_TEXT" "Text cannot be empty")

/-- The string read from an optional argument: empty unless the key holds a string. -/
def stringArg (args : EncodableMap) (k : String) : List Nat :=
  match find args k with
  | some (.str s) => s
  | _ => []

/-- Method `copyRichText`. -/
def HandleCopyRichText (n : Native) (arguments : Option EncodableMap) (cb : Clipboard) :
    Clipboard × Reply :=
  match arguments with
  | none => (cb, .error "INVALID_ARGUMENT" "Arguments are required")
  | some args =>
    let text := stringArg args "text"
    let html := stringArg args "html"
    if text.isEmpty && html.isEmpty then
      (cb, .error "EMPTY_CONTENT" "Either text or html must be provided")
    else if n.openClipboard then
      let cb := EmptyClipboard (OpenClipboard n cb)
      let cb := if !text.isEmpty then putUnicodeText n text cb else cb
      let cb := if !html.isEmpty then putHtmlFormat n html cb else cb
      (CloseClipboard cb, .successBool true)
    else (OpenClipboard n cb, .error "COPY_RICH_ERROR" "Failed to open clipboard")

/-! ## Copy handlers: images -/

/-- The byte vector built from an `EncodableList`: `static_cast<uint8_t>` of every 32-bit or
64-bit integer element, other elements skipped. -/
def toBytes (l : List Elem) : List Nat :=
  l.filterMap (fun e =>
    match e with
    | .int32 v => some (v % 256).toNat
    | .int64 v => some (v % 256).toNat
    | .other => none)

/-- Body of the inner loop of `SetClipboardImage` at column `x` of row `y`. -/
def copyPixel (pSource : List Nat) (stride rowSz y x : Int) (pBits : List Nat) :
    Option (List Nat) := do
  let b ← peek pSource (iadd (iadd (imul y stride) (imul x 4)) 0)
  let g ← peek pSource (iadd (iadd (imul y stride) (imul x 4)) 1)
  let r ← peek pSource (iadd (iadd (imul y stride) (imul x 4)) 2)
  let a ← peek pSource (iadd (iadd (imul y stride) (imul x 4)) 3)
  let pBits ← poke pBits (iadd (iadd (imul y rowSz) (imul x 4)) 0) b
  let pBits ← poke pBits (iadd (iadd (imul y rowSz) (imul x 4)) 1) g
  let pBits ← poke pBits (iadd (iadd (imul y rowSz) (imul x 4)) 2) r
  poke pBits (iadd (iadd (imul y rowSz) (imul x 4)) 3) a

/-- The copy loop of `SetClipboardImage`: rows `0 .. height`, columns `0 .. width`. -/
def copyLoop (pSource : List Nat) (stride rowSz width height : Int) (pBits : List Nat) :
    Option (List Nat) :=
  forInt height (fun y bits =>
    forInt width (fun x bits => copyPixel pSource stride rowSz y x bits) bits) pBits

/-- Helper `SetClipboardImage`: decode the PNG, build a 32-bit top-down DIB, hand it to the
clipboard. The result is `none` when the copy loop leaves its blocks. -/
def SetClipboardImage (n : Native) (png_bytes : List Nat) (cb : Clipboard) :
    Option (Clipboard × Bool) :=
  if png_bytes.isEmpty then some (cb, false)
  else if !n.allocPng then some (cb, false)
  else if !n.lockPng then some (cb, false)
  else if !n.createStream then some (cb, false)
  else
    match n.fromStream png_bytes with
    | none => some (cb, false)
    | some bmp =>
      let width := bmp.width
      let height := bmp.height
      let rowSz := rowSize width 32
      let imageSize := toDWORD (imul rowSz height)
      if !n.allocDib then some (cb, false)
      else if !n.lockDib then some (cb, false)
      else if n.lockBits then
        match copyLoop bmp.scan0 bmp.stride rowSz width height
            (freshBlock n.heap imageSize) with
        | none => none
        | some bits =>
          let hDib : Dib :=
            { biSize := 40, biWidth := width, biHeight := isub 0 height, biPlanes := 1,
              biBitCount := 32, biCompression := 0, bits := bits }
          some (SetClipboardData n.setDib (.dib hDib) cb, n.setDib)
      else some (cb, false)

/-- Method `copyImage`. -/
def HandleCopyImage (n : Native) (arguments : Option EncodableMap) (cb : Clipboard) :
    Option (Clipboard × Reply) :=
  match arguments with
  | none => some (cb, .error "INVALID_ARGUMENT" "Arguments are required")
  | some args =>
    match find args "imageBytes" with
    | some (.list image_bytes) =>
      if image_bytes.isEmpty then some (cb, .error "EMPTY_IMAGE" "Image bytes cannot be empty")
      else
        let bytes := toBytes image_bytes
        if bytes.isEmpty then some (cb, .error "EMPTY_IMAGE" "Image bytes cannot be empty")
        else if n.openClipboard then
          let cb := EmptyClipboard (OpenClipboard n cb)
          match SetClipboardImage n bytes cb with
          | none => none
          | some (cb, success) =>
            let cb := CloseClipboard cb
            if success then some (cb, .successBool true)
            else some (cb, .error "COPY_IMAGE_ERROR" "Failed to copy image to clipboard")
        else some (OpenClipboard n cb, .error "COPY_IMAGE_ERROR" "Failed to open clipboard")
    | _ => some (cb, .error "EMPTY_IMAGE" "Image bytes cannot be empty")

/-- Method `copyMultiple`. -/
def HandleCopyMultiple (n : Native) (arguments : Option EncodableMap) (cb : Clipboard) :
    Option (Clipboard × Reply) :=
  match arguments with
  | none => some (cb, .error "INVALID_ARGUMENT" "Arguments are required")
  | some args =>
    match find args "formats" with
    | some (.map formats) =>
      if formats.isEmpty then
        some (cb, .error "EMPTY_FORMATS" "At least one format must be provided")
      else if n.openClipboard then
        let cb := EmptyClipboard (OpenClipboard n cb)
        let afterImage : Option Clipboard :=
          match find formats "image/png" with
          | some (.list image_bytes) =>
            if !image_bytes.isEmpty then
              let bytes := toBytes image_bytes
              if !bytes.isEmpty then (SetClipboardImage n bytes cb).map (fun r => r.1)
              else some cb
            else some cb
          | _ => some cb
        match afterImage with
        | none => none
        | some cb =>
          let cb :=
            match find formats "text/plain" with
            | some (.str text) => if !text.isEmpty then putUnicodeText n text cb else cb
            | _ => cb
          let cb :=
            match find formats "text/html" with
            | some (.str html) => if !html.isEmpty then putHtmlFormat n html cb else cb
            | _ => cb
          some (CloseClipboard cb, .successBool true)
      else some (OpenClipboard n cb, .error "COPY_MULTIPLE_ERROR" "Failed to open clipboard")
    | _ => some (cb, .error "EMPTY_FORMATS" "At least one format must be provided")

/-- The lines of `HandleCopyMultiple` under `// Handle image first`. -/
def bundleImage (n : Native) (formats : EncodableMap) (cb : Clipboard) : Option Clipboard :=
  match find formats "image/png" with
  | some (.list image_bytes) =>
    if !image_bytes.isEmpty then
      let bytes := toBytes image_bytes
      if !bytes.isEmpty then (SetClipboardImage n bytes cb).map (fun r => r.1)
      else some cb
    else some cb
  | _ => some cb

/-- The lines of `HandleCopyMultiple` under `// Handle text`. -/
def bundleText (n : Native) (formats : EncodableMap) (cb : Clipboard) : Clipboard :=
  match find formats "text/plain" with
  | some (.str text) => if !text.isEmpty then putUnicodeText n text cb else cb
  | _ => cb

/-- The lines of `HandleCopyMultiple` under `// Handle HTML`. -/
def bundleHtml (n : Native) (formats : EncodableMap) (cb : Clipboard) : Clipboard :=
  match find formats "text/html" with
  | some (.str html) => if !html.isEmpty then putHtmlFormat n html cb else cb
  | _ => cb

/-! ## Paste handlers: text and HTML -/

/-- Win32 `GetClipboardData(CF_UNICODETEXT)`: the text block, or no handle. -/
def GetClipboardText (ok : Bool) (cb : Clipboard) : Clipboard × Option (List Nat) :=
  (note (.getClipboardData .unicodeText) cb, if ok then cb.text else none)

/-- Win32 `GetClipboardData(cf_html)`: the HTML block, or no handle. -/
def GetClipboardHtml (ok : Bool) (cb : Clipboard) : Clipboard × Option (List Nat) :=
  (note (.getClipboardData .html) cb, if ok then cb.html else none)

/-- Win32 `GetClipboardData(CF_DIB)`: the DIB block, or no handle. -/
def GetClipboardDib (ok : Bool) (cb : Clipboard) : Clipboard × Option Dib :=
  (note (.getClipboardData .dib) cb, if ok then cb.dib else none)

/-- The UTF-8 string made from a locked text block: `WideCharToMultiByte` with length `-1`
into `str`, then `std::string(&str[0])`. -/
def readUnicodeText (n : Native) (pMem : List Nat) : List Nat :=
  cstr (n.wideCharToMultiByte (cstr pMem) ++ [0])

/-- Method `paste`. -/
def HandlePaste (n : Native) (cb : Clipboard) : Clipboard × Reply :=
  if n.openClipboard then
    let cb := OpenClipboard n cb
    let (cb, available) := IsClipboardFormatAvailable .unicodeText cb
    if available then
      let (cb, hMem) := GetClipboardText n.getText cb
      match hMem with
      | some pMem => (CloseClipboard cb, .successText (readUnicodeText n pMem))
      | none => (CloseClipboard cb, .successText [])
    else (CloseClipboard cb, .successText [])
  else (OpenClipboard n cb, .error "PASTE_ERROR" "Failed to open clipboard")

/-- Method `pasteRichText`. -/
def HandlePasteRichText (n : Native) (cb : Clipboard) : Clipboard × Reply :=
  if n.openClipboard then
    let cb := OpenClipboard n cb
    let (cb, hasText) := IsClipboardFormatAvailable .unicodeText cb
    let (cb, text) :=
      if hasText then
        let (cb, hMem) := GetClipboardText n.getText cb
        match hMem with
        | some pMem => (cb, readUnicodeText n pMem)
        | none => (cb, [])
      else (cb, [])
    let (cb, html) :=
      if n.registerHtml != 0 then
        let (cb, hasHtml) := IsClipboardFormatAvailable .html cb
        if hasHtml then
          let (cb, hMem) := GetClipboardHtml n.getHtml cb
          match hMem with
          | some pMem => (cb, cstr pMem)
          | none => (cb, [])
        else (cb, [])
      else (cb, [])
    (CloseClipboard cb, .successRich text html n.tickCount)
  else (OpenClipboard n cb, .error "PASTE_RICH_ERROR" "Failed to open clipboard")

/-! ## Queries -/

/-- The string chosen in `HandleGetContentType` from the three availability flags. -/
def contentType (has_text has_html has_image : Bool) : String :=
  if has_image && (has_text || has_html) then "mixed"
  else if has_image then "image"
  else if has_text && has_html then "mixed"
  else if has_html then "html"
  else if has_text then "text"
  else "empty"

/-- Method `getContentType` (the same text in the example runner's copy of the plugin). -/
def HandleGetContentType (n : Native) (cb : Clipboard) : Clipboard × Reply :=
  if n.openClipboard then
    let cb := OpenClipboard n cb
    let (cb, has_text) := IsClipboardFormatAvailable .unicodeText cb
    let (cb, has_html) :=
      if n.registerHtml != 0 then IsClipboardFormatAvailable .html cb else (cb, false)
    let (cb, has_image) := IsClipboardFormatAvailable .dib cb
    (CloseClipboard cb, .successString (contentType has_text has_html has_image))
  else (OpenClipboard n cb, .successString "unknown")

/-- Method `hasData`. -/
def HandleHasData (n : Native) (cb : Clipboard) : Clipboard × Reply :=
  if n.openClipboard then
    let cb := OpenClipboard n cb
    let (cb, has_text) := IsClipboardFormatAvailable .unicodeText cb
    let (cb, has_data) :=
      if has_text then (cb, true)
      else
        let (cb, has_image) := IsClipboardFormatAvailable .dib cb
        if has_image then (cb, true)
        else if n.registerHtml != 0 then IsClipboardFormatAvailable .html cb
        else (cb, false)
    (CloseClipboard cb, .successBool has_data)
  else (OpenClipboard n cb, .successBool false)

/-- Method `clear`. -/
def HandleClear (n : Native) (cb : Clipboard) : Clipboard × Reply :=
  if n.openClipboard then
    (CloseClipboard (EmptyClipboard (OpenClipboard n cb)), .successBool true)
  else (OpenClipboard n cb, .error "CLEAR_ERROR" "Failed to open clipboard")

/-- Method `getDataSize`. -/
def HandleGetDataSize (n : Native) (cb : Clipboard) : Clipboard × Reply :=
  if n.openClipboard then
    let cb := OpenClipboard n cb
    let (cb, available) := IsClipboardFormatAvailable .unicodeText cb
    let (cb, size) :=
      if available then
        let (cb, hMem) := GetClipboardText n.getText cb
        match hMem with
        | some pMem => (cb, wrap32 (n.globalSize pMem))
        | none => (cb, 0)
      else (cb, 0)
    (CloseClipboard cb, .successInt size)
  else (OpenClipboard n cb, .successInt 0)

/-! ## Paste handler: images -/

/-- State of the row loop of `HandlePasteImage`: the destination bytes at `Scan0`, the
offset of `pSource` from the first byte after the header, and whether the `else` branch
(a bit depth other than 32 and 24) has returned from the handler. -/
structure RowLoop where
  pDest : List Nat
  pSource : Int
  returned : Bool
  deriving DecidableEq, Repr

/-- Body of the 24-bit inner loop at column `x`: three bytes copied, alpha set to 255. -/
def expandPixel (block : List Nat) (pSource pDestRow x : Int) (pDest : List Nat) :
    Option (List Nat) := do
  let b ← peek block (pSource + iadd (imul x 3) 0)
  let pDest ← poke pDest (pDestRow + iadd (imul x 4) 0) b
  let g ← peek block (pSource + iadd (imul x 3) 1)
  let pDest ← poke pDest (pDestRow + iadd (imul x 4) 1) g
  let r ← peek block (pSource + iadd (imul x 3) 2)
  let pDest ← poke pDest (pDestRow + iadd (imul x 4) 2) r
  poke pDest (pDestRow + iadd (imul x 4) 3) 255

/-- Body of the row loop of `HandlePasteImage` at row `y`. -/
def pasteRow (block : List Nat) (bitsPerPixel width destStride sourceStep : Int) (y : Int)
    (s : RowLoop) : Option RowLoop :=
  if s.returned then some s
  else
    let pDestRow := imul y destStride
    if bitsPerPixel = 32 then do
      let d ← memcpy s.pDest pDestRow block s.pSource (imul width 4)
      some { pDest := d, pSource := s.pSource + sourceStep, returned := false }
    else if bitsPerPixel = 24 then do
      let d ← forInt width (fun x d => expandPixel block s.pSource pDestRow x d) s.pDest
      some { pDest := d, pSource := s.pSource + sourceStep, returned := false }
    else some { s with returned := true }

/-- Offset of `pBits` from the first byte after the header: the color table is skipped for
bit depths up to 8. -/
def pBitsOffset (bitsPerPixel : Int) : Int :=
  if bitsPerPixel ≤ 8 then wrap32 ((2 ^ bitsPerPixel.toNat % 18446744073709551616) * 4) else 0

/-- The pixel loop of `HandlePasteImage` over a locked DIB and the locked destination
bitmap: `pSource` starts at the first stored row (top-down) or the last (bottom-up). -/
def pasteLoop (dib : Dib) (destStride : Int) (pDest : List Nat) : Option RowLoop :=
  let width := dib.biWidth
  let height := iabs dib.biHeight
  let isTopDown := decide (dib.biHeight < 0)
  let bitsPerPixel := dib.biBitCount
  let rowSz := rowSize width bitsPerPixel
  let pBits := pBitsOffset bitsPerPixel
  let pSource := if isTopDown then pBits else pBits + imul rowSz (isub height 1)
  let sourceStep := if isTopDown then rowSz else isub 0 rowSz
  forInt height (pasteRow dib.bits bitsPerPixel width destStride sourceStep)
    { pDest := pDest, pSource := pSource, returned := false }

/-- Method `pasteImage`. The result is `none` when the pixel loop leaves its blocks. -/
def HandlePasteImage (n : Native) (cb : Clipboard) : Option (Clipboard × Reply) :=
  if !n.openClipboard then
    some (OpenClipboard n cb, .error "PASTE_IMAGE_ERROR" "Failed to open clipboard")
  else
    let cb := OpenClipboard n cb
    let (cb, available) := IsClipboardFormatAvailable .dib cb
    if !available then some (CloseClipboard cb, .successImage none)
    else
      let (cb, hMem) := GetClipboardDib n.getDib cb
      match hMem with
      | none => some (CloseClipboard cb, .successImage none)
      | some dib =>
        if !n.lockDib then some (CloseClipboard cb, .successImage none)
        else
          match n.newBitmap dib.biWidth (iabs dib.biHeight) with
          | none => some (CloseClipboard cb, .successImage none)
          | some bmp =>
            let looped : Option RowLoop :=
              if n.lockBits then pasteLoop dib bmp.stride bmp.scan0
              else some { pDest := bmp.scan0, pSource := 0, returned := false }
            match looped with
            | none => none
            | some s =>
              if s.returned then some (CloseClipboard cb, .successImage none)
              else
                let cb := CloseClipboard cb
                if !n.createOutStream then some (cb, .successImage none)
                else some (cb, .successImage (n.savePng { bmp with scan0 := s.pDest }))

/-! ## The example runner's paste handler for images

`example/windows/runner/clipboard_plugin.cpp` holds a second copy of the plugin class. Its
handlers have the text of the ones above except `HandlePasteImage`, which tries the bitmap
handle, the DIB and the file list in turn. -/

/-- Win32 `OpenClipboard(nullptr)` with the given outcome. -/
def openWith (ok : Bool) (cb : Clipboard) : Clipboard :=
  note (.openClipboard ok) (if ok then { cb with isOpen := true } else cb)

/-- Win32 `GetClipboardData(CF_BITMAP)`: the bitmap behind the handle, or no handle. -/
def GetClipboardBitmap (ok : Bool) (cb : Clipboard) : Clipboard × Option Bitmap :=
  (note (.getClipboardData .bitmap) cb, if ok then cb.bitmap else none)

/-- Win32 `GetClipboardData(CF_HDROP)`: the file paths, or no handle. -/
def GetClipboardHdrop (ok : Bool) (cb : Clipboard) : Clipboard × Option (List (List Nat)) :=
  (note (.getClipboardData .hdrop) cb, if ok then cb.hdrop else none)

/-- The string `path.substr(path.find_last_of(L".") + 1)`: the text after the last `.`, and
the whole path when it has no `.` (`npos + 1` is 0). -/
def extension (path : List Nat) : List Nat :=
  (path.reverse.takeWhile (fun c => c != 46)).reverse

/-- The extensions the file branch compares with. -/
def supportedExtensions : List (List Nat) :=
  [ascii "jpg", ascii "jpeg", ascii "png", ascii "bmp", ascii "gif", ascii "tiff",
   ascii "tif", ascii "ico", ascii "webp"]

/-- The test on `ext` after the `towlower` loop: it is one of the supported extensions. -/
def isSupported (n : Native) (path : List Nat) : Bool :=
  supportedExtensions.contains ((extension path).map n.towlower)

namespace Runner

/-- Method 1 of `HandlePasteImage`: the `CF_BITMAP` handle, copied and wrapped. -/
def method1 (n : Native) (cb : Clipboard) : Clipboard × Option Bitmap :=
  let (cb, available) := IsClipboardFormatAvailable .bitmap cb
  if available then
    let (cb, hBitmap) := GetClipboardBitmap n.getBitmap cb
    match hBitmap with
    | some bm =>
      if n.createCompatibleDC then
        if n.createCompatibleBitmap then
          let hBitmapCopy :=
            if n.createSourceDC then bm else n.compatibleBitmap bm.width bm.height
          (cb, n.fromHBITMAP hBitmapCopy)
        else (cb, none)
      else (cb, none)
    | none => (cb, none)
  else (cb, none)

/-- A read of a `BITMAPINFOHEADER` field through `pBih`, the pointer into the locked
`CF_DIB` block, made after `GlobalUnlock(hMem)` and `CloseClipboard()`. -/
def readHeader (cb : Clipboard) : Clipboard :=
  note (.readBlock .dib) cb

/-- Method 2 of `HandlePasteImage`, entered with `pBitmap` null: the `CF_DIB` block. The
third component is `clipboardOpened`; a header that passes the check has the clipboard
closed before the conversion. The block is copied to `dibData` before the close, and
`CreateDIBSection` and `SetDIBits` work on the copy, but once the DIB section exists the
code still reads through `pBih`: `pBih->biSize` and `pBih->biBitCount` for the offset of the
pixel data, both once more when the bit count is at most 8, and `pBih->biHeight` for the
number of scan lines. These reads follow the close and are recorded one by one; the values
are taken to be those of the block as it was when locked. -/
def method2 (n : Native) (cb : Clipboard) : Clipboard × Option Bitmap × Bool :=
  let (cb, available) := IsClipboardFormatAvailable .dib cb
  if available then
    let (cb, hMem) := GetClipboardDib n.getDib cb
    match hMem with
    | some dib =>
      if n.lockDib then
        if 40 ≤ dib.biSize ∧ 0 < dib.biWidth ∧ dib.biHeight ≠ 0 then
          let cb := CloseClipboard cb
          if n.createDibDC then
            if n.createDIBSection then
              let cb := readHeader (readHeader cb)
              let cb := if dib.biBitCount ≤ 8 then readHeader (readHeader cb) else cb
              let cb := readHeader cb
              (cb, n.fromDIBSection dib, false)
            else (cb, none, false)
          else (cb, none, false)
        else (cb, none, true)
      else (cb, none, true)
    | none => (cb, none, true)
  else (cb, none, true)

/-- The loop over the file paths: the bitmap found, and the paths handed to
`Bitmap::FromFile` in order. The loop stops at the first path that leaves `pBitmap` set. -/
def fileLoop (n : Native) : List (List Nat) → Option Bitmap × List (List Nat)
  | [] => (none, [])
  | path :: rest =>
    if 0 < path.length then
      match n.fromFile path with
      | some bmp =>
        if isSupported n path then (some bmp, [path])
        else ((fileLoop n rest).1, path :: (fileLoop n rest).2)
      | none => ((fileLoop n rest).1, path :: (fileLoop n rest).2)
    else fileLoop n rest

/-- Method 3 of `HandlePasteImage`, entered with `pBitmap` null: reopen the clipboard if
the DIB attempt closed it, then the `CF_HDROP` file list. -/
def method3 (n : Native) (cb : Clipboard) (clipboardOpened : Bool) :
    Clipboard × Option Bitmap × Bool × List (List Nat) :=
  let (cb, clipboardOpened) :=
    if !clipboardOpened then (openWith n.reopenClipboard cb, n.reopenClipboard)
    else (cb, clipboardOpened)
  if clipboardOpened then
    let (cb, available) := IsClipboardFormatAvailable .hdrop cb
    if available then
      let (cb, hDrop) := GetClipboardHdrop n.getHdrop cb
      match hDrop with
      | some paths => (cb, (fileLoop n paths).1, clipboardOpened, (fileLoop n paths).2)
      | none => (cb, none, clipboardOpened, [])
    else (cb, none, clipboardOpened, [])
  else (cb, none, clipboardOpened, [])

/-- What the three methods leave behind: the clipboard, `pBitmap`, `clipboardOpened`, and
the paths handed to `Bitmap::FromFile`. -/
structure Acquired where
  cb : Clipboard
  pBitmap : Option Bitmap
  clipboardOpened : Bool
  decoded : List (List Nat)

/-- The three methods of `HandlePasteImage` in order, after the clipboard was opened. -/
def acquire (n : Native) (cb : Clipboard) : Acquired :=
  let (cb, pBitmap) := method1 n cb
  let (cb, pBitmap, clipboardOpened) :=
    match pBitmap with
    | some b => (cb, some b, true)
    | none => method2 n cb
  match pBitmap with
  | some b => { cb := cb, pBitmap := some b, clipboardOpened := clipboardOpened, decoded := [] }
  | none =>
    let (cb, pBitmap, clipboardOpened, decoded) := method3 n cb clipboardOpened
    { cb := cb, pBitmap := pBitmap, clipboardOpened := clipboardOpened, decoded := decoded }

/-- The end of `HandlePasteImage`, after the clipboard is closed: the reply made from
`pBitmap`. The bitmap is saved as PNG; `imageBytes` is set only when bytes were read. -/
def reply (n : Native) (pBitmap : Option Bitmap) : Reply :=
  match pBitmap with
  | none =>
    .error "PASTE_IMAGE_ERROR" "No image found in clipboard. Copy an image (not a file) or try pasting after copying image data from a browser/app."
  | some pBitmap =>
    if !n.createOutStream then .error "PASTE_IMAGE_ERROR" "Failed to create stream"
    else
      match n.savePng pBitmap with
      | some pngBytes =>
        if 0 < pngBytes.length then .successImage (some pngBytes)
        else .error "PASTE_IMAGE_ERROR" "Failed to convert image to PNG format"
      | none => .error "PASTE_IMAGE_ERROR" "Failed to convert image to PNG format"

/-- Method `pasteImage` of the example runner. -/
def HandlePasteImage (n : Native) (cb : Clipboard) : Clipboard × Reply :=
  if !n.openClipboard then
    (OpenClipboard n cb, .error "PASTE_IMAGE_ERROR" "Failed to open clipboard")
  else
    let a := acquire n (OpenClipboard n cb)
    let cb := if a.clipboardOpened then CloseClipboard a.cb else a.cb
    (cb, reply n a.pBitmap)

end Runner

/-! ## Call sequences and candidates in the words of the specification -/

/-- Whether the clipboard is held after a sequence of calls that starts with the clipboard
held or not: a successful open takes a clipboard that is not held, a close releases one that
is held, and every other call leaves it as it is. The result is `none` when the sequence
opens a clipboard it already holds or closes one it does not hold. -/
def heldAfter : Bool → List Call → Option Bool
  | held, [] => some held
  | held, .openClipboard ok :: cs =>
    if ok then (if held then none else heldAfter true cs) else heldAfter held cs
  | held, .closeClipboard :: cs => if held then heldAfter false cs else none
  | held, .emptyClipboard :: cs => heldAfter held cs
  | held, .isClipboardFormatAvailable _ :: cs => heldAfter held cs
  | held, .getClipboardData _ :: cs => heldAfter held cs
  | held, .setClipboardData _ _ :: cs => heldAfter held cs
  | held, .readBlock _ :: cs => heldAfter held cs

/-- A handler that went from `cb` to `cb2` released the clipboard exactly once for each
successful open: the calls it added never close a clipboard that is not held, never open
one that is held, and end with the clipboard closed. -/
def Released (cb cb2 : Clipboard) : Prop :=
  ∃ cs, cb2.calls = cb.calls ++ cs ∧ heldAfter false cs = some false ∧ cb2.isOpen = false

/-- A stretch of a handler from `cb` to `cb2` that starts with the clipboard held or not
(`h`) and ends with it held or not (`h2`). -/
def Steps (h : Bool) (cb : Clipboard) (h2 : Bool) (cb2 : Clipboard) : Prop :=
  ∃ cs, cb2.calls = cb.calls ++ cs ∧ heldAfter h cs = some h2 ∧
    (cb.isOpen = h → cb2.isOpen = h2)

/-- Scan of a sequence of calls for open/close brackets, starting with the clipboard held
or not: the result is whether the clipboard is held at the end and how many brackets were
closed. A failed open leaves things as they are. The result is `none` when a call other
than an open, or a read of a clipboard block, is made outside a bracket, or an open
succeeds inside one. -/
def txn : Bool → List Call → Option (Bool × Nat)
  | held, [] => some (held, 0)
  | held, .openClipboard ok :: cs =>
    if ok then (if held then none else txn true cs) else txn held cs
  | held, .closeClipboard :: cs =>
    if held then (txn false cs).map (fun p => (p.1, p.2 + 1)) else none
  | held, .emptyClipboard :: cs => if held then txn true cs else none
  | held, .isClipboardFormatAvailable _ :: cs => if held then txn true cs else none
  | held, .getClipboardData _ :: cs => if held then txn true cs else none
  | held, .setClipboardData _ _ :: cs => if held then txn true cs else none
  | held, .readBlock _ :: cs => if held then txn true cs else none

/-- A handler that went from `cb` to `cb2` made all its clipboard calls, and all its reads
of clipboard blocks, inside `k` open/close brackets and left the clipboard closed. -/
def Transacted (cb cb2 : Clipboard) (k : Nat) : Prop :=
  ∃ cs, cb2.calls = cb.calls ++ cs ∧ txn false cs = some (false, k)

/-- A stretch of a handler from `cb` to `cb2` that starts with the clipboard held or not
(`h`), ends with it held or not (`h2`), and closes `k` brackets on the way. -/
def TSteps (h : Bool) (cb : Clipboard) (h2 : Bool) (k : Nat) (cb2 : Clipboard) : Prop :=
  ∃ cs, cb2.calls = cb.calls ++ cs ∧ txn h cs = some (h2, k)

/-- The bitmap the handle candidate yields: the `CF_BITMAP` handle, copied with `BitBlt`
and wrapped, when every call on the way succeeds. -/
def handleCandidate (n : Native) (cb : Clipboard) : Option Bitmap :=
  match cb.bitmap with
  | some bm =>
    if n.getBitmap ∧ n.createCompatibleDC ∧ n.createCompatibleBitmap then
      n.fromHBITMAP (if n.createSourceDC then bm else n.compatibleBitmap bm.width bm.height)
    else none
  | none => none

/-- Whether the header of a DIB passes the check of the DIB candidate. -/
def validHeader (dib : Dib) : Bool :=
  decide (40 ≤ dib.biSize ∧ 0 < dib.biWidth ∧ dib.biHeight ≠ 0)

/-- The bitmap the DIB candidate yields: the `CF_DIB` block with a header that passes
the check, converted through a DIB section, when every call on the way succeeds. -/
def dibCandidate (n : Native) (cb : Clipboard) : Option Bitmap :=
  match cb.dib with
  | some dib =>
    if n.getDib ∧ n.lockDib ∧ validHeader dib = true ∧ n.createDibDC ∧ n.createDIBSection then
      n.fromDIBSection dib
    else none
  | none => none

/-- The bitmap one file path yields: the decoded file, when the path is not empty, the
file decodes and the extension is a supported one. -/
def pathCandidate (n : Native) (path : List Nat) : Option Bitmap :=
  if 0 < path.length ∧ isSupported n path = true then n.fromFile path else none

/-- Whether the DIB attempt closes the clipboard: a DIB is on the clipboard, its handle
locks, and its header passes the check. -/
def dibCloses (n : Native) (cb : Clipboard) : Bool :=
  match cb.dib with
  | some dib => n.getDib && n.lockDib && validHeader dib
  | none => false

/-- Whether the DIB attempt gets as far as a DIB section: it closes the clipboard, and
`CreateCompatibleDC` and `CreateDIBSection` succeed. -/
def sectionMade (n : Native) (cb : Clipboard) : Bool :=
  dibCloses n cb && n.createDibDC && n.createDIBSection

/-- The bitmap the file list yields: the first path in list order that yields one,
when the clipboard is still held after the DIB attempt or opens again. -/
def fileCandidate (n : Native) (cb : Clipboard) : Option Bitmap :=
  match cb.hdrop with
  | some paths =>
    if (dibCloses n cb = false ∨ n.reopenClipboard = true) ∧ n.getHdrop = true then
      paths.findSome? (pathCandidate n)
    else none
  | none => none

/-- The first candidate in the order handle, DIB, file list that yields a bitmap. -/
def firstCandidate (n : Native) (cb : Clipboard) : Option Bitmap :=
  match handleCandidate n cb with
  | some b => some b
  | none =>
    match dibCandidate n cb with
    | some b => some b
    | none => fileCandidate n cb

/-- A decoded bitmap of width `w` and height `h` whose rows lie inside its locked bytes and
whose byte offsets, as the copy loop computes them, fit the 32-bit `int`. -/
def Bitmap.inRange (b : Bitmap) (w h : Nat) : Prop :=
  b.width = (w : Int) ∧ b.height = (h : Int) ∧ h < 2147483648 ∧
    ∃ sS : Nat, b.stride = (sS : Int) ∧ w * 4 ≤ sS ∧ h * sS ≤ b.scan0.length ∧
      h * sS < 2147483648 ∧ w * 32 + 31 < 2147483648

/-- The formats handed to `SetClipboardData` in a sequence of calls, in order. -/
def writes (cs : List Call) : List Fmt :=
  cs.filterMap (fun c =>
    match c with
    | .setClipboardData f _ => some f
    | _ => none)

/-- The clipboard `cb2` holds the same entries as `cb`. -/
def sameContents (cb cb2 : Clipboard) : Prop :=
  cb2.text = cb.text ∧ cb2.dib = cb.dib ∧ cb2.html = cb.html ∧ cb2.bitmap = cb.bitmap ∧
    cb2.hdrop = cb.hdrop

/-! ## Sample data and argument builders -/

/-- A run in which every native call succeeds: the conversions are the identity (the
UTF-8 and UTF-16 code units of ASCII text coincide), new blocks hold no prior data, every
file decodes, and `towlower` maps `A .. Z` to `a .. z`. -/
def nativeOk : Native :=
  { openClipboard := true, registerHtml := 49161,
    multiByteToWideChar := fun s => s, wideCharToMultiByte := fun s => s,
    heap := fun _ => [], allocText := true, allocHtml := true,
    setText := true, setHtml := true, setDib := true,
    getText := true, getHtml := true, getDib := true, tickCount := 86400000,
    allocPng := true, lockPng := true, createStream := true,
    fromStream := fun _ =>
      some { width := 2, height := 1, stride := 8, scan0 := [10, 20, 30, 255, 40, 50, 60, 128] },
    allocDib := true, lockDib := true, lockBits := true,
    newBitmap := fun w h =>
      some { width := w, height := h, stride := 4 * w,
             scan0 := List.replicate (4 * w * h).toNat 0 },
    createOutStream := true, savePng := fun b => some b.scan0,
    globalSize := fun u => 2 * u.length,
    getBitmap := true, createCompatibleDC := true, createCompatibleBitmap := true,
    createSourceDC := true,
    compatibleBitmap := fun w h =>
      { width := w, height := h, stride := 4 * w, scan0 := List.replicate (4 * w * h).toNat 0 },
    fromHBITMAP := fun b => some b,
    createDibDC := true, createDIBSection := true,
    fromDIBSection := fun d =>
      some { width := d.biWidth, height := iabs d.biHeight, stride := 4 * d.biWidth,
             scan0 := d.bits },
    reopenClipboard := true, getHdrop := true,
    fromFile := fun p => some { width := 1, height := 1, stride := 4, scan0 := p.take 4 },
    towlower := fun c => if 65 ≤ c ∧ c ≤ 90 then c + 32 else c }

/-- Arguments `{"text": t}` of method `copy`. -/
def copyArgs (t : List Nat) : Option EncodableMap := some [(Key.str "text", Val.str t)]

/-- Arguments `{"text": t, "html": h}` of method `copyRichText`. -/
def richArgs (t h : List Nat) : Option EncodableMap :=
  some [(Key.str "text", Val.str t), (Key.str "html", Val.str h)]

/-- Arguments `{"formats": fm}` of method `copyMultiple`. -/
def bundleArgs (fm : EncodableMap) : Option EncodableMap := some [(Key.str "formats", Val.map fm)]

/-- The wrapper text in the words of the specification, with the four offset fields
`D1 .. D4` left open. -/
def wrapperLayout (D1 D2 D3 D4 fragment : List Nat) : List Nat :=
  ascii "Version:0.9\r\nStartHTML:" ++ D1 ++ ascii "\r\nEndHTML:" ++ D2 ++
    ascii "\r\nStartFragment:" ++ D3 ++ ascii "\r\nEndFragment:" ++ D4 ++
    ascii "\r\n<html><body><!--StartFragment-->" ++ fragment ++
    ascii "<!--EndFragment--></body></html>"

/-- Whether every byte is an ASCII decimal digit. -/
def allDigits (D : List Nat) : Bool := D.all (fun c => decide (48 ≤ c ∧ c ≤ 57))

/-- A clipboard that holds the text `hi` and the HTML fragment `hi`. -/
def textAndHtml : Clipboard :=
  { text := some [104, 105, 0], html := some (htmlFormat (ascii "hi") ++ [0]) }

/-- Arguments `{"imageBytes": l}` of method `copyImage`. -/
def imageArgs (l : List Elem) : Option EncodableMap := some [(Key.str "imageBytes", Val.list l)]

/-- A grid of two rows of one BGRA pixel, each row padded to a stride of 8 bytes. -/
def sampleGrid : List Nat := [1, 2, 3, 4, 0, 0, 0, 0, 5, 6, 7, 8, 0, 0, 0, 0]

/-- Ten image rows of one BGRA pixel each. -/
def sampleRows : List (List Nat) :=
  [[0, 0, 0, 255], [1, 1, 1, 255], [2, 2, 2, 255], [3, 3, 3, 255], [4, 4, 4, 255],
   [5, 5, 5, 255], [6, 6, 6, 255], [7, 7, 7, 255], [8, 8, 8, 255], [9, 9, 9, 255]]

/-- A run like `nativeOk` in which `Bitmap::FromHBITMAP` yields no bitmap. -/
def nativeNoWrap : Native := { nativeOk with fromHBITMAP := fun _ => none }

/-- A clipboard that holds a bitmap handle of one pixel and a 32-bit DIB of one pixel. -/
def handleAndDib : Clipboard :=
  { bitmap := some { width := 1, height := 1, stride := 4, scan0 := [1, 2, 3, 4] },
    dib := some { biSize := 40, biWidth := 1, biHeight := 1, biPlanes := 1, biBitCount := 32,
                  biCompression := 0, bits := [9, 9, 9, 9] } }

/-- A clipboard that holds the file list `a.txt`, `A.PNG`. -/
def fileList : Clipboard := { hdrop := some [ascii "a.txt", ascii "A.PNG"] }

/-- A run like `nativeOk` in which `new Bitmap(width, height, ...)` fails unless both
dimensions are positive. -/
def nativeGdi : Native :=
  { nativeOk with
    newBitmap := fun w h => if 0 < w ∧ 0 < h then nativeOk.newBitmap w h else none }

/-- A clipboard that holds a DIB of one pixel with 1 bit per pixel: two color-table
entries, then one row of 4 bytes. -/
def paletteDib : Clipboard :=
  { dib := some { biSize := 40, biWidth := 1, biHeight := 1, biPlanes := 1, biBitCount := 1,
                  biCompression := 0, bits := [0, 0, 0, 0, 255, 255, 255, 0, 128, 0, 0, 0] } }

/-- A clipboard that holds a DIB whose header has height 0, and the file list `A.PNG`. -/
def zeroHeightDib : Clipboard :=
  { dib := some { biSize := 40, biWidth := 1, biHeight := 0, biPlanes := 1, biBitCount := 32,
                  biCompression := 0, bits := [] },
    hdrop := some [ascii "A.PNG"] }

/-- A bundle that lists its HTML before its text: `{"text/html": "h", "text/plain": "t"}`. -/
def htmlFirstBundle : EncodableMap :=
  [(Key.str "text/html", Val.str (ascii "h")), (Key.str "text/plain", Val.str (ascii "t"))]

/-- The bundle `{"image/png": [137, 80, 78, 71], "text/plain": "t", "text/html": "<i>h</i>"}`. -/
def fullBundle : EncodableMap :=
  [(Key.str "image/png", Val.list [.int32 137, .int32 80, .int32 78, .int32 71]),
   (Key.str "text/plain", Val.str (ascii "t")),
   (Key.str "text/html", Val.str (ascii "<i>h</i>"))]

/-- A run in which `OpenClipboard` fails. -/
def nativeBusy : Native := { nativeOk with openClipboard := false }

/-- A 24-bit top-down DIB of one column and two rows: each stored row is three color bytes
and one padding byte. -/
def rgbDib : Dib :=
  { biSize := 40, biWidth := 1, biHeight := -2, biPlanes := 1, biBitCount := 24,
    biCompression := 0, bits := [1, 2, 3, 99, 4, 5, 6, 99] }

/-- A 24-bit top-down DIB 89478485 pixels wide and two rows high. -/
def wideRgbDib : Dib :=
  { biSize := 40, biWidth := 89478485, biHeight := -2, biPlanes := 1, biBitCount := 24,
    biCompression := 0, bits := List.replicate 536870912 255 }

/-- A run like `nativeOk` in which the PNG decodes to a bitmap 67108864 pixels wide and two
rows high. -/
def nativeWide : Native :=
  { nativeOk with
    fromStream := fun _ =>
      some { width := 67108864, height := 2, stride := 268435456,
             scan0 := List.replicate 536870912 255 } }

/-- A run like `nativeOk` in which `CreateCompatibleDC(nullptr)` fails in the DIB attempt. -/
def nativeNoDC : Native := { nativeOk with createDibDC := false }

/-- A clipboard that holds a 32-bit DIB of one pixel and the file list `A.PNG`. -/
def dibAndFile : Clipboard :=
  { dib := some { biSize := 40, biWidth := 1, biHeight := 1, biPlanes := 1, biBitCount := 32,
                  biCompression := 0, bits := [9, 9, 9, 9] },
    hdrop := some [ascii "A.PNG"] }

/-! ## Theorems -/

set_option maxRecDepth 16384
set_option linter.unusedVariables false

/-! ### Machine integers and raw memory -/

theorem wrap32_eq (z : Int) (h1 : -2147483648 ≤ z) (h2 : z < 2147483648) : wrap32 z = z := by
  unfold wrap32; omega

theorem imul_nat (a b : Nat) (h : a * b < 2147483648) : imul (a : Int) (b : Int) = ((a * b : Nat) : Int) := by
  unfold imul
  rw [← Nat.cast_mul]
  exact wrap32_eq _ (by omega) (by omega)

theorem iadd_nat (a b : Nat) (h : a + b < 2147483648) : iadd (a : Int) (b : Int) = ((a + b : Nat) : Int) := by
  unfold iadd
  rw [← Nat.cast_add]
  exact wrap32_eq _ (by omega) (by omega)

theorem peek_nat (m : List Nat) (k : Nat) : peek m (k : Int) = m[k]? := by
  unfold peek
  simp

theorem poke_nat (m : List Nat) (k : Nat) (v : Nat) (h : k < m.length) :
    poke m (k : Int) v = some (m.set k v) := by
  unfold poke
  simp [h]

/-- Invariant rule for the counting loop: an invariant that holds at entry and is carried
by every iteration, each of which has a result, holds of the loop's result. -/
theorem forInt_inv {σ : Type} (P : Nat → σ → Prop) (n : Nat) (body : Int → σ → Option σ)
    (s0 : σ) (h0 : P 0 s0)
    (hstep : ∀ (i : Nat) (s : σ), i < n → P i s → ∃ s', body (i : Int) s = some s' ∧ P (i + 1) s') :
    ∃ s', forInt (n : Int) body s0 = some s' ∧ P n s' := by
  unfold forInt
  simp only [Int.toNat_ofNat]
  induction n with
  | zero => exact ⟨s0, by simp, h0⟩
  | succ m ih =>
    obtain ⟨s1, hs1, hP1⟩ := ih (fun i s hi hp => hstep i s (by omega) hp)
    obtain ⟨s2, hs2, hP2⟩ := hstep m s1 (by omega) hP1
    refine ⟨s2, ?_, hP2⟩
    rw [List.range_succ, List.foldlM_append, hs1]
    simp [hs2]

theorem memcpy_spec (dst src : List Nat) (dOff sOff count : Nat)
    (hs : sOff + count ≤ src.length) (hd : dOff + count ≤ dst.length) :
    ∃ d, memcpy dst (dOff : Int) src (sOff : Int) (count : Int) = some d ∧
      d.length = dst.length ∧
      ∀ k : Nat, d[k]? =
        if dOff ≤ k ∧ k < dOff + count then src[sOff + (k - dOff)]? else dst[k]? := by
  unfold memcpy
  rw [if_neg (by omega)]
  obtain ⟨d, hd1, hd2, hd3⟩ := forInt_inv
    (fun i d => d.length = dst.length ∧ ∀ k : Nat, d[k]? =
        if dOff ≤ k ∧ k < dOff + i then src[sOff + (k - dOff)]? else dst[k]?)
    count (fun i d => do
      let v ← peek src ((sOff : Int) + i)
      poke d ((dOff : Int) + i) v) dst
    ⟨rfl, fun k => by rw [if_neg (by omega)]⟩
    (by
      intro i d hi ⟨hl, hk⟩
      have e1 : ((sOff : Int) + (i : Int)) = ((sOff + i : Nat) : Int) := by push_cast; rfl
      have e2 : ((dOff : Int) + (i : Int)) = ((dOff + i : Nat) : Int) := by push_cast; rfl
      have hlt : sOff + i < src.length := by omega
      show ∃ s', (do
          let v ← peek src ((sOff : Int) + (i : Int))
          poke d ((dOff : Int) + (i : Int)) v) = some s' ∧ (s'.length = dst.length ∧
          ∀ k : Nat, s'[k]? =
            if dOff ≤ k ∧ k < dOff + (i + 1) then src[sOff + (k - dOff)]? else dst[k]?)
      rw [e1, e2, peek_nat, List.getElem?_eq_getElem hlt]
      simp only [Option.bind_eq_bind, Option.some_bind]
      rw [poke_nat _ _ _ (by omega)]
      refine ⟨_, rfl, by simp [hl], ?_⟩
      intro k
      rw [List.getElem?_set, hk k]
      by_cases hki : dOff + i = k
      · subst hki
        simp [List.getElem?_eq_getElem hlt]
        omega
      · rw [if_neg hki]
        by_cases hin : dOff ≤ k ∧ k < dOff + i
        · rw [if_pos hin, if_pos (by omega)]
        · rw [if_neg hin, if_neg (by omega)])
  exact ⟨d, hd1, hd2, hd3⟩

/-! ### The 32-bit row loop of `HandlePasteImage` -/

theorem mul_succ_le (y h d : Nat) (hy : y < h) : y * d + d ≤ h * d := by
  have := Nat.mul_le_mul_right d (Nat.succ_le_of_lt hy)
  rw [Nat.succ_mul] at this
  exact this

/-- One 32-bit row of the paste loop: the row is copied to destination row `y`. -/
theorem pasteRow32_step (bits : List Nat) (w dS y sOff : Nat) (step : Int) (s : RowLoop)
    (hret : s.returned = false) (hsrc : s.pSource = (sOff : Int))
    (hw : w * 4 < 2147483648) (hy : y * dS < 2147483648)
    (hs : sOff + w * 4 ≤ bits.length) (hd : y * dS + w * 4 ≤ s.pDest.length) :
    ∃ d, pasteRow bits 32 (w : Int) (dS : Int) step (Int.ofNat y) s =
        some { pDest := d, pSource := (sOff : Int) + step, returned := false } ∧
      d.length = s.pDest.length ∧
      ∀ k : Nat, d[k]? =
        if y * dS ≤ k ∧ k < y * dS + w * 4 then bits[sOff + (k - y * dS)]? else s.pDest[k]? := by
  unfold pasteRow
  simp only [hret, Bool.false_eq_true, if_false, if_true, Int.ofNat_eq_coe]
  have e4 : imul (w : Int) 4 = ((w * 4 : Nat) : Int) := imul_nat w 4 hw
  rw [imul_nat y dS hy, e4, hsrc]
  obtain ⟨d, h1, h2, h3⟩ := memcpy_spec s.pDest bits (y * dS) sOff (w * 4) hs hd
  refine ⟨d, ?_, h2, h3⟩
  rw [h1]
  rfl

/-- The 32-bit row loop: destination row `y` receives stored row `srcRow y`, every other
destination byte keeps its value. -/
theorem pasteRows32_spec (bits dst0 : List Nat) (w h dS : Nat) (start step : Int)
    (srcRow : Nat → Nat)
    (hsrc : ∀ y, y < h → start + (y : Int) * step = ((srcRow y * (w * 4) : Nat) : Int))
    (hrow : ∀ y, y < h → srcRow y < h)
    (hw4 : w * 4 < 2147483648) (hwd : w * 4 ≤ dS) (hrange : h * dS < 2147483648)
    (hbits : h * (w * 4) ≤ bits.length) (hdst : h * dS ≤ dst0.length) :
    ∃ s, forInt (h : Int) (pasteRow bits 32 (w : Int) (dS : Int) step)
        { pDest := dst0, pSource := start, returned := false } = some s ∧
      s.returned = false ∧ s.pDest.length = dst0.length ∧
      (∀ y i, y < h → i < w * 4 → s.pDest[y * dS + i]? = bits[srcRow y * (w * 4) + i]?) ∧
      (∀ k, (∀ y, y < h → ¬ (y * dS ≤ k ∧ k < y * dS + w * 4)) → s.pDest[k]? = dst0[k]?) := by
  obtain ⟨s, h1, h2, h3, h4, h5, h6⟩ := forInt_inv
    (fun n s => s.returned = false ∧ s.pSource = start + (n : Int) * step ∧
      s.pDest.length = dst0.length ∧
      (∀ y i, y < n → i < w * 4 → s.pDest[y * dS + i]? = bits[srcRow y * (w * 4) + i]?) ∧
      (∀ k, (∀ y, y < n → ¬ (y * dS ≤ k ∧ k < y * dS + w * 4)) → s.pDest[k]? = dst0[k]?))
    h (pasteRow bits 32 (w : Int) (dS : Int) step)
    { pDest := dst0, pSource := start, returned := false }
    ⟨rfl, by simp, rfl, fun y i hy _ => absurd hy (Nat.not_lt_zero y), fun k _ => rfl⟩
    (by
      intro y s hy ⟨q1, q2, q3, q4, q5⟩
      have hyd := mul_succ_le y h dS hy
      have hsr := mul_succ_le (srcRow y) h (w * 4) (hrow y hy)
      obtain ⟨d, e1, e2, e3⟩ := pasteRow32_step bits w dS y (srcRow y * (w * 4)) step s q1
        (by rw [q2, hsrc y hy]) hw4 (by omega) (by omega) (by omega)
      refine ⟨_, e1, rfl, ?_, by simpa [e2] using q3, ?_, ?_⟩
      · show ((srcRow y * (w * 4) : Nat) : Int) + step = start + ((y + 1 : Nat) : Int) * step
        rw [← hsrc y hy]; push_cast; ring
      · intro y' i hy' hi
        show d[y' * dS + i]? = _
        rw [e3]
        by_cases hyy : y' = y
        · subst hyy
          rw [if_pos (by omega)]
          congr 1; omega
        · have hlt : y' < y := by omega
          have := mul_succ_le y' y dS hlt
          rw [if_neg (by omega)]
          exact q4 y' i hlt hi
      · intro k hk
        show d[k]? = _
        rw [e3, if_neg (hk y (by omega))]
        exact q5 k (fun y' hy' => hk y' (by omega)))
  exact ⟨s, h1, h2, h4, h5, h6⟩


/-! ### Row sizes (C3, C4) -/

theorem rowSize_eq (w b : Int) (hw : 0 ≤ w) (hb : 0 ≤ b) (hr : w * b + 31 < 2147483648) :
    rowSize w b = (w * b + 31) / 32 * 4 := by
  have hwb : 0 ≤ w * b := Int.mul_nonneg hw hb
  unfold rowSize imul iadd idiv
  rw [wrap32_eq (w * b) (by omega) (by omega), wrap32_eq (w * b + 31) (by omega) (by omega),
    Int.tdiv_eq_ediv (by omega) (by decide)]
  rw [wrap32_eq ((w * b + 31) / 32) (by omega) (by omega)]
  exact wrap32_eq _ (by omega) (by omega)

theorem rowSize_32 (w : Int) (hw : 0 ≤ w) (hr : w * 32 + 31 < 2147483648) :
    rowSize w 32 = 4 * w := by
  rw [rowSize_eq w 32 hw (by decide) hr]; omega

theorem pBitsOffset_32 : pBitsOffset 32 = 0 := by
  unfold pBitsOffset
  rw [if_neg (by decide)]

theorem rowSize_32_nat (w : Nat) (hr : w * 32 + 31 < 2147483648) :
    rowSize (w : Int) 32 = ((w * 4 : Nat) : Int) := by
  rw [rowSize_32 (w : Int) (by omega) (by omega)]
  push_cast; ring

/-- C3 (amended): for every width whose product `w * 32 + 31` fits a 32-bit `int`, the row
stride computed for 32 bits per pixel is `((w * 32 + 31) / 32) * 4`, which is `4 * w`: 4
for width 1, 8 for width 2 and 12 for width 3. -/
theorem C3_row_stride_32 (w : Int) (hw : 0 ≤ w) (hr : w * 32 + 31 < 2147483648) :
    rowSize w 32 = (w * 32 + 31) / 32 * 4 ∧ rowSize w 32 = 4 * w ∧
    rowSize 1 32 = 4 ∧ rowSize 2 32 = 8 ∧ rowSize 3 32 = 12 :=
  ⟨rowSize_eq w 32 hw (by decide) hr, rowSize_32 w hw hr, by decide, by decide, by decide⟩

theorem C3_witness :
    (0 : Int) ≤ 640 ∧ (640 : Int) * 32 + 31 < 2147483648 ∧ rowSize 640 32 = 4 * 640 :=
  ⟨by decide, by decide, (C3_row_stride_32 640 (by decide) (by decide)).2.1⟩

/-- C3 fails as stated: at 32 bits per pixel the row stride of width 2 is 8, so the
strides of the widths 1, 2 and 3 are not all 4. -/
theorem C3_counterexample :
    rowSize 2 32 = 8 ∧ ¬ (rowSize 1 32 = 4 ∧ rowSize 2 32 = 4 ∧ rowSize 3 32 = 4) := by
  decide

theorem rowSize_mod4 (w b : Int) : rowSize w b % 4 = 0 := by
  unfold rowSize
  generalize idiv (iadd (imul w b) 31) 32 = q
  unfold imul wrap32
  omega

/-- C4: for every width `w ≥ 0` and bit depth in 1, 4, 8, 24, 32 whose product is inside
the 32-bit `int` range, the row stride computed by `HandlePasteImage` is a multiple of 4;
it is `((w * b + 31) / 32) * 4` when the sum `w * b + 31` is inside the range too. -/
theorem C4_row_alignment (w b : Int) (hw : 0 ≤ w)
    (hb : b = 1 ∨ b = 4 ∨ b = 8 ∨ b = 24 ∨ b = 32) (hr : w * b < 2147483648) :
    rowSize w b % 4 = 0 ∧
    (w * b + 31 < 2147483648 → rowSize w b = (w * b + 31) / 32 * 4) :=
  ⟨rowSize_mod4 w b, fun h => rowSize_eq w b hw (by omega) h⟩

theorem C4_witness :
    (0 : Int) ≤ 3 ∧ (3 : Int) * 24 < 2147483648 ∧ rowSize 3 24 % 4 = 0 ∧ rowSize 3 24 = 12 :=
  ⟨by decide, by decide, (C4_row_alignment 3 24 (by decide) (by decide) (by decide)).1,
    (C4_row_alignment 3 24 (by decide) (by decide) (by decide)).2 (by decide)⟩

/-! ### The paste loop in both row orders -/

theorem iabs_nat (h : Nat) (hh : h < 2147483648) : iabs (h : Int) = (h : Int) := by
  unfold iabs
  rw [if_neg (by omega)]
  exact wrap32_eq (h : Int) (by omega) (by omega)

theorem iabs_neg_nat (h : Nat) (hh : h < 2147483648) : iabs (-(h : Int)) = (h : Int) := by
  by_cases h0 : h = 0
  · subst h0; decide
  · unfold iabs
    rw [if_pos (by omega), Int.neg_neg]
    exact wrap32_eq (h : Int) (by omega) (by omega)

theorem isub_one_nat (h : Nat) (h1 : 1 ≤ h) (hh : h < 2147483648) :
    isub (h : Int) 1 = ((h - 1 : Nat) : Int) := by
  unfold isub
  rw [wrap32_eq ((h : Int) - 1) (by omega) (by omega)]
  omega

theorem isub_zero_nat (r : Nat) (hr : r < 2147483648) : isub 0 (r : Int) = -(r : Int) := by
  unfold isub
  rw [wrap32_eq (0 - (r : Int)) (by omega) (by omega)]
  omega

/-- The paste loop on a 32-bit top-down DIB: destination row `y` is stored row `y`. -/
theorem pasteLoop32_topDown (dib : Dib) (dst0 : List Nat) (w h dS : Nat)
    (hdw : dib.biWidth = (w : Int)) (hdh : dib.biHeight = -(h : Int))
    (hdb : dib.biBitCount = 32)
    (h1 : 1 ≤ h) (hh : h < 2147483648) (hr : w * 32 + 31 < 2147483648)
    (hwd : w * 4 ≤ dS) (hrange : h * dS < 2147483648)
    (hbits : h * (w * 4) ≤ dib.bits.length) (hdst : h * dS ≤ dst0.length) :
    ∃ s, pasteLoop dib (dS : Int) dst0 = some s ∧
      s.returned = false ∧ s.pDest.length = dst0.length ∧
      (∀ y i, y < h → i < w * 4 → s.pDest[y * dS + i]? = dib.bits[y * (w * 4) + i]?) ∧
      (∀ k, (∀ y, y < h → ¬ (y * dS ≤ k ∧ k < y * dS + w * 4)) → s.pDest[k]? = dst0[k]?) := by
  have hneg : decide (-(h : Int) < 0) = true := decide_eq_true (by omega)
  unfold pasteLoop
  simp only [hdw, hdh, hdb, iabs_neg_nat h hh, rowSize_32_nat w hr, pBitsOffset_32, hneg, if_true]
  have hsrc : ∀ y, y < h →
      (0 : Int) + (y : Int) * ((w * 4 : Nat) : Int) = (((fun y => y) y * (w * 4) : Nat) : Int) := by
    intro y _
    push_cast
    ring
  have hw4 : w * 4 < 2147483648 := by omega
  obtain ⟨s, k1, k2, k3, k4, k5⟩ := pasteRows32_spec dib.bits dst0 w h dS 0
    ((w * 4 : Nat) : Int) (fun y => y) hsrc (fun y hy => hy) hw4 hwd hrange hbits hdst
  exact ⟨s, k1, k2, k3, fun y i hy hi => k4 y i hy hi, k5⟩

/-- The paste loop on a 32-bit bottom-up DIB: destination row `y` is stored row
`h - 1 - y`. -/
theorem pasteLoop32_bottomUp (dib : Dib) (dst0 : List Nat) (w h dS : Nat)
    (hdw : dib.biWidth = (w : Int)) (hdh : dib.biHeight = (h : Int))
    (hdb : dib.biBitCount = 32)
    (h1 : 1 ≤ h) (hh : h < 2147483648) (hr : w * 32 + 31 < 2147483648)
    (hwd : w * 4 ≤ dS) (hrange : h * dS < 2147483648)
    (hbits : h * (w * 4) ≤ dib.bits.length) (hdst : h * dS ≤ dst0.length) :
    ∃ s, pasteLoop dib (dS : Int) dst0 = some s ∧
      s.returned = false ∧ s.pDest.length = dst0.length ∧
      (∀ y i, y < h → i < w * 4 →
        s.pDest[y * dS + i]? = dib.bits[(h - 1 - y) * (w * 4) + i]?) ∧
      (∀ k, (∀ y, y < h → ¬ (y * dS ≤ k ∧ k < y * dS + w * 4)) → s.pDest[k]? = dst0[k]?) := by
  have hlt1 : h - 1 < h := by omega
  have hle : (h - 1) * (w * 4) + w * 4 ≤ h * (w * 4) := mul_succ_le (h - 1) h (w * 4) hlt1
  have hle2 : h * (w * 4) ≤ h * dS := Nat.mul_le_mul_left h hwd
  have hlt : (w * 4) * (h - 1) < 2147483648 := by
    rw [Nat.mul_comm (w * 4) (h - 1)]
    omega
  have hw4 : w * 4 < 2147483648 := by omega
  have hpos : decide ((h : Int) < 0) = false := decide_eq_false (by omega)
  have hrow : ∀ y, y < h → (fun y => h - 1 - y) y < h := fun y hy => by
    show h - 1 - y < h
    omega
  have hsrc : ∀ y, y < h →
      ((((w * 4) * (h - 1) : Nat) : Int)) + (y : Int) * (-((w * 4 : Nat) : Int)) =
        (((fun y => h - 1 - y) y * (w * 4) : Nat) : Int) := by
    intro y hy
    have e : ((h - 1 - y : Nat) : Int) = ((h - 1 : Nat) : Int) - (y : Int) := by omega
    simp only [Nat.cast_mul, e]
    ring
  obtain ⟨s, k1, k2, k3, k4, k5⟩ := pasteRows32_spec dib.bits dst0 w h dS
    (((w * 4) * (h - 1) : Nat) : Int) (-((w * 4 : Nat) : Int)) (fun y => h - 1 - y)
    hsrc hrow hw4 hwd hrange hbits hdst
  refine ⟨s, ?_, k2, k3, fun y i hy hi => k4 y i hy hi, k5⟩
  rw [← k1]
  unfold pasteLoop
  simp only [hdw, hdh, hdb, iabs_nat h hh, rowSize_32_nat w hr, pBitsOffset_32,
    isub_one_nat h h1 hh, imul_nat (w * 4) (h - 1) hlt, isub_zero_nat (w * 4) hw4, hpos,
    Bool.false_eq_true, if_false, Int.zero_add]


/-! ### The copy loop of `SetClipboardImage` -/

theorem pixIndex (y s x c : Nat) (h : y * s + x * 4 + c < 2147483648) :
    iadd (iadd (imul (y : Int) (s : Int)) (imul (x : Int) 4)) (c : Int) =
      ((y * s + x * 4 + c : Nat) : Int) := by
  have e4 : imul (x : Int) 4 = ((x * 4 : Nat) : Int) := imul_nat x 4 (by omega)
  rw [imul_nat y s (by omega), e4, iadd_nat _ _ (by omega), iadd_nat _ _ h]

theorem getElem_set4 (m : List Nat) (i : Nat) (b g r a : Nat) (k : Nat)
    (hi : i + 3 < m.length) :
    ((((m.set i b).set (i + 1) g).set (i + 2) r).set (i + 3) a)[k]? =
      if i ≤ k ∧ k < i + 4 then [b, g, r, a][k - i]? else m[k]? := by
  simp only [List.getElem?_set, List.length_set]
  by_cases h3 : i + 3 = k
  · subst h3; simp [hi]
  · by_cases h2 : i + 2 = k
    · subst h2
      simp
      omega
    · by_cases h1 : i + 1 = k
      · subst h1; simp; omega
      · by_cases h0 : i = k
        · subst h0; simp; omega
        · simp only [h0, h1, h2, h3, if_false]
          rw [if_neg (by omega)]
theorem getElem_congr (m : List Nat) (a b : Nat) (h : a = b) : m[a]? = m[b]? := by
  rw [h]

theorem getElem_some_of_lt (m : List Nat) (i : Nat) (h : i < m.length) :
    ∃ v, m[i]? = some v := ⟨m[i], List.getElem?_eq_getElem h⟩

/-- One pixel of the copy loop: four bytes go from the source row to the DIB row. -/
theorem copyPixel_spec (src bits : List Nat) (sS R y x : Nat)
    (hs : y * sS + x * 4 + 3 < src.length) (hb : y * R + x * 4 + 3 < bits.length)
    (hsr : y * sS + x * 4 + 3 < 2147483648) (hbr : y * R + x * 4 + 3 < 2147483648) :
    ∃ d, copyPixel src (sS : Int) (R : Int) (Int.ofNat y) (Int.ofNat x) bits = some d ∧
      d.length = bits.length ∧
      ∀ k : Nat, d[k]? =
        if y * R + x * 4 ≤ k ∧ k < y * R + x * 4 + 4 then src[y * sS + x * 4 + (k - (y * R + x * 4))]?
        else bits[k]? := by
  have hs0 : y * sS + x * 4 + 0 < 2147483648 := by omega
  have hs1 : y * sS + x * 4 + 1 < 2147483648 := by omega
  have hs2 : y * sS + x * 4 + 2 < 2147483648 := by omega
  have hb0 : y * R + x * 4 + 0 < 2147483648 := by omega
  have hb1 : y * R + x * 4 + 1 < 2147483648 := by omega
  have hb2 : y * R + x * 4 + 2 < 2147483648 := by omega
  have l0 : y * R + x * 4 + 0 < bits.length := by omega
  have l1 : y * R + x * 4 + 1 < bits.length := by omega
  have l2 : y * R + x * 4 + 2 < bits.length := by omega
  obtain ⟨vb, hvb⟩ := getElem_some_of_lt src (y * sS + x * 4 + 0) (by omega)
  obtain ⟨vg, hvg⟩ := getElem_some_of_lt src (y * sS + x * 4 + 1) (by omega)
  obtain ⟨vr, hvr⟩ := getElem_some_of_lt src (y * sS + x * 4 + 2) (by omega)
  obtain ⟨va, hva⟩ := getElem_some_of_lt src (y * sS + x * 4 + 3) (by omega)
  have s0 := pixIndex y sS x 0 hs0
  have s1 := pixIndex y sS x 1 hs1
  have s2 := pixIndex y sS x 2 hs2
  have s3 := pixIndex y sS x 3 hsr
  have b0 := pixIndex y R x 0 hb0
  have b1 := pixIndex y R x 1 hb1
  have b2 := pixIndex y R x 2 hb2
  have b3 := pixIndex y R x 3 hbr
  simp only [Nat.cast_ofNat, Nat.cast_zero, Nat.cast_one] at s0 s1 s2 s3 b0 b1 b2 b3
  unfold copyPixel
  simp only [Int.ofNat_eq_coe, s0, s1, s2, s3, b0, b1, b2, b3, peek_nat, hvb, hvg, hvr, hva,
    Option.bind_eq_bind, Option.some_bind]
  clear s0 s1 s2 s3 b0 b1 b2 b3
  rw [poke_nat _ _ _ l0]
  simp only [Option.some_bind]
  rw [poke_nat _ _ _ (by simp only [List.length_set]; exact l1)]
  simp only [Option.some_bind]
  rw [poke_nat _ _ _ (by simp only [List.length_set]; exact l2)]
  simp only [Option.some_bind]
  rw [poke_nat _ _ _ (by simp only [List.length_set]; exact hb)]
  refine ⟨_, rfl, by simp only [List.length_set], ?_⟩
  intro k
  have key := getElem_set4 bits (y * R + x * 4) vb vg vr va k hb
  rw [Nat.add_zero] at hvb
  rw [Nat.add_zero, key]
  by_cases hin : y * R + x * 4 ≤ k ∧ k < y * R + x * 4 + 4
  · rw [if_pos hin, if_pos hin]
    obtain ⟨j, hj⟩ : ∃ j, k = y * R + x * 4 + j := ⟨k - (y * R + x * 4), by omega⟩
    subst hj
    have hj4 : j < 4 := by omega
    simp only [Nat.add_sub_cancel_left]
    interval_cases j
    · simp [hvb]
    · simp [hvg]
    · simp [hvr]
    · simp [hva]
  · rw [if_neg hin, if_neg hin]

/-- One row of the copy loop: the `w * 4` bytes of source row `y` go to DIB row `y`. -/
theorem copyRow_spec (src bits : List Nat) (sS R w y : Nat)
    (hs : y * sS + w * 4 ≤ src.length) (hb : y * R + w * 4 ≤ bits.length)
    (hsr : y * sS + w * 4 ≤ 2147483648) (hbr : y * R + w * 4 ≤ 2147483648) :
    ∃ d, forInt (w : Int) (fun x b => copyPixel src (sS : Int) (R : Int) (Int.ofNat y) x b) bits
        = some d ∧
      d.length = bits.length ∧
      ∀ k : Nat, d[k]? =
        if y * R ≤ k ∧ k < y * R + w * 4 then src[y * sS + (k - y * R)]? else bits[k]? := by
  obtain ⟨d, h1, h2, h3⟩ := forInt_inv
    (fun n d => d.length = bits.length ∧ ∀ k : Nat, d[k]? =
        if y * R ≤ k ∧ k < y * R + n * 4 then src[y * sS + (k - y * R)]? else bits[k]?)
    w (fun x b => copyPixel src (sS : Int) (R : Int) (Int.ofNat y) x b) bits
    ⟨rfl, fun k => by rw [if_neg (by omega)]⟩
    (by
      intro x b hx ⟨q1, q2⟩
      obtain ⟨d, e1, e2, e3⟩ := copyPixel_spec src b sS R y x (by omega) (by omega) (by omega)
        (by omega)
      refine ⟨d, e1, by rw [e2, q1], ?_⟩
      intro k
      rw [e3, q2]
      by_cases hin : y * R + x * 4 ≤ k ∧ k < y * R + x * 4 + 4
      · rw [if_pos hin, if_pos (by omega)]
        exact getElem_congr src _ _ (by omega)
      · rw [if_neg hin]
        by_cases hin2 : y * R ≤ k ∧ k < y * R + x * 4
        · rw [if_pos hin2, if_pos (by omega)]
        · rw [if_neg hin2, if_neg (by omega)])
  exact ⟨d, h1, h2, h3⟩

/-- The copy loop of `SetClipboardImage`: DIB row `y` receives the first `w * 4` bytes of
source row `y`; the block keeps its length. -/
theorem copyLoop_spec (src bits : List Nat) (sS R w h : Nat)
    (hwS : w * 4 ≤ sS) (hwR : w * 4 ≤ R)
    (hs : h * sS ≤ src.length) (hb : h * R ≤ bits.length)
    (hsr : h * sS ≤ 2147483648) (hbr : h * R ≤ 2147483648) :
    ∃ d, copyLoop src (sS : Int) (R : Int) (w : Int) (h : Int) bits = some d ∧
      d.length = bits.length ∧
      (∀ y i, y < h → i < w * 4 → d[y * R + i]? = src[y * sS + i]?) ∧
      (∀ k, (∀ y, y < h → ¬ (y * R ≤ k ∧ k < y * R + w * 4)) → d[k]? = bits[k]?) := by
  unfold copyLoop
  obtain ⟨d, h1, h2, h3, h4⟩ := forInt_inv
    (fun n d => d.length = bits.length ∧
      (∀ y i, y < n → i < w * 4 → d[y * R + i]? = src[y * sS + i]?) ∧
      (∀ k, (∀ y, y < n → ¬ (y * R ≤ k ∧ k < y * R + w * 4)) → d[k]? = bits[k]?))
    h (fun y b => forInt (w : Int) (fun x b => copyPixel src (sS : Int) (R : Int) y x b) b) bits
    ⟨rfl, fun y i hy _ => absurd hy (Nat.not_lt_zero y), fun k _ => rfl⟩
    (by
      intro y b hy ⟨q1, q2, q3⟩
      have hyS := mul_succ_le y h sS hy
      have hyR := mul_succ_le y h R hy
      obtain ⟨d, e1, e2, e3⟩ := copyRow_spec src b sS R w y (by omega) (by omega) (by omega)
        (by omega)
      refine ⟨d, e1, by rw [e2, q1], ?_, ?_⟩
      · intro y' i hy' hi
        rw [e3]
        by_cases hyy : y' = y
        · subst hyy
          rw [if_pos (by omega)]
          exact getElem_congr src _ _ (by omega)
        · have hlt : y' < y := by omega
          have := mul_succ_le y' y R hlt
          rw [if_neg (by omega)]
          exact q2 y' i hlt hi
      · intro k hk
        rw [e3, if_neg (hk y (by omega))]
        exact q3 k (fun y' hy' => hk y' (by omega)))
  exact ⟨d, h1, h2, h3, h4⟩


/-! ### Blocks and stored rows -/

theorem freshBlock_length (heap : Nat → List Nat) (n : Nat) : (freshBlock heap n).length = n := by
  unfold freshBlock
  simp

theorem toDWORD_nat (n : Nat) (h : n < 4294967296) : toDWORD (n : Int) = n := by
  unfold toDWORD
  omega

theorem flatten_length_uniform (rows : List (List Nat)) (n : Nat)
    (hrow : ∀ r ∈ rows, r.length = n) : rows.flatten.length = rows.length * n := by
  induction rows with
  | nil => simp
  | cons r rs ih =>
    simp only [List.flatten_cons, List.length_append, List.length_cons]
    rw [ih (fun r hr => hrow r (List.mem_cons_of_mem _ hr)), hrow r (List.mem_cons_self _ _),
      Nat.succ_mul]
    omega

theorem flatten_getElem (rows : List (List Nat)) (n : Nat)
    (hrow : ∀ r ∈ rows, r.length = n) (y i : Nat) (hi : i < n) :
    rows.flatten[y * n + i]? = (rows.getD y [])[i]? := by
  induction rows generalizing y with
  | nil => simp
  | cons r rs ih =>
    have hr : r.length = n := hrow r (List.mem_cons_self _ _)
    cases y with
    | zero =>
      simp only [List.flatten_cons, Nat.zero_mul, Nat.zero_add, List.getD_cons_zero]
      exact List.getElem?_append_left (by omega)
    | succ y =>
      simp only [List.flatten_cons, List.getD_cons_succ]
      have hle : r.length ≤ (y + 1) * n + i := by rw [Nat.succ_mul]; omega
      rw [List.getElem?_append_right hle, ← ih (fun r hr => hrow r (List.mem_cons_of_mem _ hr)) y]
      exact getElem_congr _ _ _ (by rw [Nat.succ_mul]; omega)

theorem getD_reverse (rows : List (List Nat)) (y : Nat) (hy : y < rows.length) :
    rows.reverse.getD (rows.length - 1 - y) [] = rows.getD y [] := by
  rw [List.getD_eq_getElem?_getD, List.getD_eq_getElem?_getD,
    List.getElem?_reverse (by omega)]
  congr 2
  omega

theorem le_mul_of_one_le (h d : Nat) (hd : 1 ≤ d) : h ≤ h * d :=
  Nat.le_mul_of_pos_right h hd

/-! ### Widths whose row size leaves the `int` range -/

/-- A counting loop has no result when one of its iterations has none, whatever state
reaches it. -/
theorem forInt_none_of_step {σ : Type} (n i : Nat) (hi : i < n) (body : Int → σ → Option σ)
    (s0 : σ) (hfail : ∀ s, body (Int.ofNat i) s = none) :
    forInt (n : Int) body s0 = none := by
  unfold forInt
  simp only [Int.toNat_ofNat]
  induction n with
  | zero => exact absurd hi (Nat.not_lt_zero i)
  | succ m ih =>
    rw [List.range_succ, List.foldlM_append]
    by_cases him : i = m
    · subst him
      cases List.foldlM (fun (acc : σ) (j : Nat) => body (Int.ofNat j) acc) s0 (List.range i) with
      | none => rfl
      | some s => simpa using hfail s
    · rw [ih (by omega)]
      rfl

theorem copyPixel_none_of_neg (src bits : List Nat) (S R y x : Int)
    (hneg : iadd (iadd (imul y R) (imul x 4)) 0 < 0) :
    copyPixel src S R y x bits = none := by
  have hp : ∀ v, poke bits (iadd (iadd (imul y R) (imul x 4)) 0) v = none := by
    intro v
    unfold poke
    rw [if_neg (by omega)]
  unfold copyPixel
  cases peek src (iadd (iadd (imul y S) (imul x 4)) 0) <;>
  cases peek src (iadd (iadd (imul y S) (imul x 4)) 1) <;>
  cases peek src (iadd (iadd (imul y S) (imul x 4)) 2) <;>
  cases peek src (iadd (iadd (imul y S) (imul x 4)) 3) <;>
  simp [hp]

/-- The copy loop on a grid 67108864 pixels wide and two rows high: the row size computed
from `width * 32` is negative, the second row is addressed before the block. -/
theorem copyLoop_wide_none (P bits : List Nat) (S : Int) :
    copyLoop P S (rowSize 67108864 32) 67108864 2 bits = none := by
  have hR : rowSize 67108864 32 = -268435452 := by decide
  rw [hR]
  unfold copyLoop
  apply forInt_none_of_step 2 1 (by decide)
  intro b
  apply forInt_none_of_step 67108864 0 (by decide)
  intro b2
  exact copyPixel_none_of_neg P b2 S (-268435452) (Int.ofNat 1) (Int.ofNat 0) (by decide)

theorem forInt_two {σ : Type} (body : Int → σ → Option σ) (s : σ) :
    forInt 2 body s = (body 0 s).bind (body 1) := by
  unfold forInt
  show List.foldlM (fun (acc : σ) (j : Nat) => body (Int.ofNat j) acc) s [0, 1] = _
  simp only [List.foldlM_cons, List.foldlM_nil]
  cases body (Int.ofNat 0) s with
  | none => rfl
  | some s1 =>
    show (body (Int.ofNat 1) s1 >>= pure) = body 1 s1
    simp

theorem memcpy_none_of_neg (dst src : List Nat) (dOff sOff : Int) (count : Nat)
    (hs : sOff < 0) (hc : 0 < count) :
    memcpy dst dOff src sOff (count : Int) = none := by
  unfold memcpy
  rw [if_neg (by omega)]
  apply forInt_none_of_step count 0 hc
  intro d
  have hp : peek src (sOff + Int.ofNat 0) = none := by
    unfold peek
    rw [if_pos (by simpa using hs)]
  rw [hp]
  rfl

/-- One 32-bit row read from a negative source offset has no result. -/
theorem pasteRow32_none_of_neg (bits : List Nat) (dS step y : Int) (s : RowLoop)
    (hret : s.returned = false) (hneg : s.pSource < 0) :
    pasteRow bits 32 67108864 dS step y s = none := by
  unfold pasteRow
  have hc : imul 67108864 4 = ((268435456 : Nat) : Int) := by decide
  simp only [hret, Bool.false_eq_true, if_false, if_true, hc]
  rw [memcpy_none_of_neg _ _ _ _ 268435456 hneg (by decide)]
  rfl

/-- One 32-bit row either has no result or moves `pSource` by the step. -/
theorem pasteRow32_pSource (bits : List Nat) (w dS step y : Int) (s s1 : RowLoop)
    (hret : s.returned = false) (h : pasteRow bits 32 w dS step y s = some s1) :
    s1.returned = false ∧ s1.pSource = s.pSource + step := by
  unfold pasteRow at h
  simp only [hret, Bool.false_eq_true, if_false, if_true] at h
  cases hm : memcpy s.pDest (imul y dS) bits s.pSource (imul w 4) with
  | none => rw [hm] at h; simp at h
  | some d =>
    rw [hm] at h
    simp only [Option.bind_eq_bind, Option.some_bind, Option.some.injEq] at h
    rw [← h]
    exact ⟨rfl, rfl⟩

/-- The paste loop on a 32-bit DIB 67108864 pixels wide and two rows high, in either row
order: the row size computed from `width * 32` is negative, and a row is read before the
start of the block. -/
theorem pasteLoop_wide_none (bits dst0 : List Nat) (dS : Int) :
    pasteLoop { biSize := 40, biWidth := 67108864, biHeight := -2, biPlanes := 1,
                biBitCount := 32, biCompression := 0, bits := bits } dS dst0 = none ∧
    pasteLoop { biSize := 40, biWidth := 67108864, biHeight := 2, biPlanes := 1,
                biBitCount := 32, biCompression := 0, bits := bits } dS dst0 = none := by
  have hR : rowSize 67108864 32 = -268435452 := by decide
  constructor
  · unfold pasteLoop
    have h1 : iabs (-2) = 2 := by decide
    have h2 : decide ((-2 : Int) < 0) = true := by decide
    simp only [h1, h2, hR, pBitsOffset_32, if_true]
    rw [forInt_two]
    cases h0 : pasteRow bits 32 67108864 dS (-268435452) 0
        { pDest := dst0, pSource := 0, returned := false } with
    | none => rfl
    | some s1 =>
      obtain ⟨hr1, hp1⟩ := pasteRow32_pSource bits 67108864 dS (-268435452) 0 _ s1 rfl h0
      exact pasteRow32_none_of_neg bits dS (-268435452) 1 s1 hr1 (by rw [hp1]; show (0 : Int) + -268435452 < 0; decide)
  · unfold pasteLoop
    have h1 : iabs 2 = 2 := by decide
    have h2 : decide ((2 : Int) < 0) = false := by decide
    have h3 : (0 : Int) + imul (-268435452) (isub 2 1) = -268435452 := by decide
    have h4 : isub 0 (-268435452) = 268435452 := by decide
    simp only [h1, h2, hR, pBitsOffset_32, Bool.false_eq_true, if_false, h3, h4]
    rw [forInt_two, pasteRow32_none_of_neg bits dS 268435452 0 _ rfl
      (by show (-268435452 : Int) < 0; decide)]
    rfl

/-! ### Image round trip and orientation (C1, C2) -/

/-- C1 (amended): building the DIB of a BGRA grid with the copy loop of `SetClipboardImage`
and decoding it with the pixel loop of `HandlePasteImage` gives back every byte of every
pixel, for every grid whose offsets fit the 32-bit `int` the loops compute them in. The
grid `P` has `h` rows of `sS` bytes, the destination bitmap rows of `dS` bytes. -/
theorem C1_image_round_trip (P dst0 : List Nat) (heap : Nat → List Nat) (w h sS dS : Nat)
    (hw : 1 ≤ w) (hh : 1 ≤ h) (hr : w * 32 + 31 < 2147483648)
    (hsS : w * 4 ≤ sS) (hP : h * sS ≤ P.length) (hPr : h * sS < 2147483648)
    (hdS : w * 4 ≤ dS) (hdst : h * dS ≤ dst0.length) (hdr : h * dS < 2147483648) :
    ∃ bits out,
      copyLoop P (sS : Int) (rowSize (w : Int) 32) (w : Int) (h : Int)
        (freshBlock heap (toDWORD (imul (rowSize (w : Int) 32) (h : Int)))) = some bits ∧
      pasteLoop { biSize := 40, biWidth := (w : Int), biHeight := isub 0 (h : Int),
                  biPlanes := 1, biBitCount := 32, biCompression := 0, bits := bits }
        (dS : Int) dst0 = some out ∧
      out.returned = false ∧
      ∀ x y c, x < w → y < h → c < 4 →
        ∃ v, P[y * sS + x * 4 + c]? = some v ∧ out.pDest[y * dS + x * 4 + c]? = some v := by
  have hhd : h ≤ h * dS := le_mul_of_one_le h dS (by omega)
  have hh31 : h < 2147483648 := by omega
  have hle : h * (w * 4) ≤ h * dS := Nat.mul_le_mul_left h hdS
  have hsz : w * 4 * h < 2147483648 := by rw [Nat.mul_comm (w * 4) h]; omega
  have hsz2 : w * 4 * h < 4294967296 := by omega
  have hlen : (freshBlock heap (w * 4 * h)).length = h * (w * 4) := by
    rw [freshBlock_length, Nat.mul_comm]
  obtain ⟨bits, c1, c2, c3, _⟩ := copyLoop_spec P (freshBlock heap (w * 4 * h)) sS (w * 4) w h
    hsS (Nat.le_refl _) hP (by omega) (by omega) (by omega)
  obtain ⟨out, p1, p2, _, p4, _⟩ := pasteLoop32_topDown
    { biSize := 40, biWidth := (w : Int), biHeight := isub 0 (h : Int),
      biPlanes := 1, biBitCount := 32, biCompression := 0, bits := bits }
    dst0 w h dS rfl (isub_zero_nat h hh31) rfl hh hh31 hr hdS hdr
    (by show h * (w * 4) ≤ bits.length; omega) hdst
  refine ⟨bits, out, ?_, p1, p2, ?_⟩
  · rw [rowSize_32_nat w hr, imul_nat (w * 4) h hsz, toDWORD_nat _ hsz2]
    exact c1
  · intro x y c hx hy hc
    have hys := mul_succ_le y h sS hy
    obtain ⟨v, hv⟩ := getElem_some_of_lt P (y * sS + x * 4 + c) (by omega)
    refine ⟨v, hv, ?_⟩
    have e1 := p4 y (x * 4 + c) hy (by omega)
    have e2 := c3 y (x * 4 + c) hy (by omega)
    rw [getElem_congr _ (y * dS + x * 4 + c) (y * dS + (x * 4 + c)) (by omega), e1]
    show bits[y * (w * 4) + (x * 4 + c)]? = some v
    rw [e2, ← hv]
    exact getElem_congr _ _ _ (by omega)

theorem C1_witness :
    ∃ bits out,
      copyLoop sampleGrid ((8 : Nat) : Int) (rowSize ((1 : Nat) : Int) 32) ((1 : Nat) : Int)
        ((2 : Nat) : Int)
        (freshBlock (fun _ => []) (toDWORD (imul (rowSize ((1 : Nat) : Int) 32) ((2 : Nat) : Int))))
        = some bits ∧
      pasteLoop { biSize := 40, biWidth := ((1 : Nat) : Int), biHeight := isub 0 ((2 : Nat) : Int),
                  biPlanes := 1, biBitCount := 32, biCompression := 0, bits := bits }
        ((4 : Nat) : Int) (List.replicate 8 0) = some out ∧
      out.returned = false ∧
      ∀ x y c, x < 1 → y < 2 → c < 4 →
        ∃ v, sampleGrid[y * 8 + x * 4 + c]? = some v ∧ out.pDest[y * 4 + x * 4 + c]? = some v :=
  C1_image_round_trip sampleGrid (List.replicate 8 0) (fun _ => []) 1 2 8 4
    (by decide) (by decide) (by decide) (by decide) (by decide) (by decide) (by decide)
    (by decide) (by decide)

/-- C1 fails as stated: for a grid 67108864 pixels wide and two rows high (rows of
268435456 bytes) `width * 32` leaves the `int` range, the row size comes out as -268435452
and the copy loop addresses its second row before the start of the block: no DIB is
built. -/
theorem C1_counterexample :
    rowSize 67108864 32 = -268435452 ∧
    copyLoop (List.replicate 536870912 255) 268435456 (rowSize 67108864 32) 67108864 2
      (freshBlock (fun _ => []) (toDWORD (imul (rowSize 67108864 32) 2))) = none :=
  ⟨by decide, copyLoop_wide_none _ _ _⟩

/-- C2 (amended): a 32-bit DIB with header height `-h` whose rows are stored top to bottom
and one with header height `+h` whose rows are stored bottom to top decode to the same
destination bytes, and decoded row `y` holds the bytes of image row `y` in their stored
order, for every image whose offsets fit the 32-bit `int` of the loop. -/
theorem C2_orientation (rows : List (List Nat)) (dst0 : List Nat) (w h dS : Nat)
    (hrows : rows.length = h) (hrow : ∀ r ∈ rows, r.length = w * 4)
    (hw : 1 ≤ w) (hh : 1 ≤ h) (hr : w * 32 + 31 < 2147483648)
    (hdS : w * 4 ≤ dS) (hdst : h * dS ≤ dst0.length) (hdr : h * dS < 2147483648) :
    ∃ s1 s2,
      pasteLoop { biSize := 40, biWidth := (w : Int), biHeight := -(h : Int), biPlanes := 1,
                  biBitCount := 32, biCompression := 0, bits := rows.flatten }
        (dS : Int) dst0 = some s1 ∧
      pasteLoop { biSize := 40, biWidth := (w : Int), biHeight := (h : Int), biPlanes := 1,
                  biBitCount := 32, biCompression := 0, bits := rows.reverse.flatten }
        (dS : Int) dst0 = some s2 ∧
      s1.returned = false ∧ s2.returned = false ∧
      s1.pDest = s2.pDest ∧
      ∀ y i, y < h → i < w * 4 → s2.pDest[y * dS + i]? = (rows.getD y [])[i]? := by
  have hhd : h ≤ h * dS := le_mul_of_one_le h dS (by omega)
  have hh31 : h < 2147483648 := by omega
  have hrow2 : ∀ r ∈ rows.reverse, r.length = w * 4 := fun r hr => hrow r (List.mem_reverse.mp hr)
  have hl1 : rows.flatten.length = h * (w * 4) := by
    rw [flatten_length_uniform rows (w * 4) hrow, hrows]
  have hl2 : rows.reverse.flatten.length = h * (w * 4) := by
    rw [flatten_length_uniform rows.reverse (w * 4) hrow2, List.length_reverse, hrows]
  obtain ⟨s1, a1, a2, a3, a4, a5⟩ := pasteLoop32_topDown
    { biSize := 40, biWidth := (w : Int), biHeight := -(h : Int), biPlanes := 1,
      biBitCount := 32, biCompression := 0, bits := rows.flatten }
    dst0 w h dS rfl rfl rfl hh hh31 hr hdS hdr (Nat.le_of_eq hl1.symm) hdst
  obtain ⟨s2, b1, b2, b3, b4, b5⟩ := pasteLoop32_bottomUp
    { biSize := 40, biWidth := (w : Int), biHeight := (h : Int), biPlanes := 1,
      biBitCount := 32, biCompression := 0, bits := rows.reverse.flatten }
    dst0 w h dS rfl rfl rfl hh hh31 hr hdS hdr (Nat.le_of_eq hl2.symm) hdst
  have top : ∀ y i, y < h → i < w * 4 → s1.pDest[y * dS + i]? = (rows.getD y [])[i]? := by
    intro y i hy hi
    rw [a4 y i hy hi]
    exact flatten_getElem rows (w * 4) hrow y i hi
  have bot : ∀ y i, y < h → i < w * 4 → s2.pDest[y * dS + i]? = (rows.getD y [])[i]? := by
    intro y i hy hi
    rw [b4 y i hy hi]
    show rows.reverse.flatten[(h - 1 - y) * (w * 4) + i]? = _
    rw [flatten_getElem rows.reverse (w * 4) hrow2 (h - 1 - y) i hi, ← hrows,
      getD_reverse rows y (by omega)]
  refine ⟨s1, s2, a1, b1, a2, b2, ?_, bot⟩
  apply List.ext_getElem?
  intro k
  by_cases hk : ∃ y, y < h ∧ y * dS ≤ k ∧ k < y * dS + w * 4
  · obtain ⟨y, hy, hk1, hk2⟩ := hk
    have e : k = y * dS + (k - y * dS) := by omega
    rw [e, top y (k - y * dS) hy (by omega), bot y (k - y * dS) hy (by omega)]
  · have hk2 : ∀ y, y < h → ¬ (y * dS ≤ k ∧ k < y * dS + w * 4) :=
      fun y hy hc => hk ⟨y, hy, hc.1, hc.2⟩
    rw [a5 k hk2, b5 k hk2]


theorem C2_witness :
    ∃ s1 s2,
      pasteLoop { biSize := 40, biWidth := ((1 : Nat) : Int), biHeight := -((10 : Nat) : Int),
                  biPlanes := 1, biBitCount := 32, biCompression := 0,
                  bits := sampleRows.flatten }
        ((4 : Nat) : Int) (List.replicate 40 0) = some s1 ∧
      pasteLoop { biSize := 40, biWidth := ((1 : Nat) : Int), biHeight := ((10 : Nat) : Int),
                  biPlanes := 1, biBitCount := 32, biCompression := 0,
                  bits := sampleRows.reverse.flatten }
        ((4 : Nat) : Int) (List.replicate 40 0) = some s2 ∧
      s1.returned = false ∧ s2.returned = false ∧
      s1.pDest = s2.pDest ∧
      ∀ y i, y < 10 → i < 1 * 4 → s2.pDest[y * 4 + i]? = (sampleRows.getD y [])[i]? :=
  C2_orientation sampleRows (List.replicate 40 0) 1 10 4 (by decide) (by decide) (by decide)
    (by decide) (by decide) (by decide) (by decide) (by decide)

/-- C2 fails as stated: for a 32-bit DIB 67108864 pixels wide and two rows high neither
the top-down nor the bottom-up decoding produces a pixel buffer; the row size is negative
and a row is read before the start of the block. -/
theorem C2_counterexample :
    pasteLoop { biSize := 40, biWidth := 67108864, biHeight := -2, biPlanes := 1,
                biBitCount := 32, biCompression := 0,
                bits := (List.replicate 2 (List.replicate 268435456 0)).flatten }
        268435456 (List.replicate 536870912 0) = none ∧
    pasteLoop { biSize := 40, biWidth := 67108864, biHeight := 2, biPlanes := 1,
                biBitCount := 32, biCompression := 0,
                bits := (List.replicate 2 (List.replicate 268435456 0)).reverse.flatten }
        268435456 (List.replicate 536870912 0) = none :=
  ⟨(pasteLoop_wide_none _ _ _).1, (pasteLoop_wide_none _ _ _).2⟩

/-! ### Text round trip (C8) -/

theorem cstr_of_not_mem (s : List Nat) (h : 0 ∉ s) : cstr s = s := by
  unfold cstr
  rw [List.takeWhile_eq_self_iff]
  intro x hx
  have : x ≠ 0 := fun e => h (e ▸ hx)
  simpa using this

theorem cstr_append_zero (s t : List Nat) (h : 0 ∉ s) : cstr (s ++ 0 :: t) = s := by
  unfold cstr
  rw [List.takeWhile_append_of_pos]
  · simp
  · intro x hx
    have : x ≠ 0 := fun e => h (e ▸ hx)
    simpa using this

theorem zero_not_mem_cstr (s : List Nat) : 0 ∉ cstr s := by
  unfold cstr
  intro h
  have := List.mem_takeWhile_imp h
  simp at this

theorem cstr_strcpyInto (block src : List Nat) : cstr (strcpyInto block src) = cstr src := by
  unfold strcpyInto
  rw [List.append_assoc]
  exact cstr_append_zero _ _ (zero_not_mem_cstr src)

theorem find_copyArgs (t : List Nat) : find [(Key.str "text", Val.str t)] "text" = some (Val.str t) := by
  simp [find]

theorem isEmpty_eq_false_of_ne (t : List Nat) (ht : t ≠ []) : t.isEmpty = false := by
  cases t with
  | nil => exact absurd rfl ht
  | cons a l => rfl

/-- The text entry after `HandleCopy` and what `HandlePaste` then returns: the text up to
its first NUL byte. -/
theorem paste_after_copy (n1 n2 : Native) (cb : Clipboard) (t : List Nat) (ht : t ≠ [])
    (ho1 : n1.openClipboard = true) (ha : n1.allocText = true) (hs : n1.setText = true)
    (ho2 : n2.openClipboard = true) (hg : n2.getText = true)
    (hnz : 0 ∉ n1.multiByteToWideChar (cstr t))
    (hinv : n2.wideCharToMultiByte (n1.multiByteToWideChar (cstr t)) = cstr t) :
    (HandlePaste n2 (HandleCopy n1 (copyArgs t) cb).1).2 = .successText (cstr t) := by
  have hread : readUnicodeText n2 (strcpyInto
      (freshBlock n1.heap (n1.multiByteToWideChar (cstr t) ++ [0]).length)
      (n1.multiByteToWideChar (cstr t) ++ [0])) = cstr t := by
    unfold readUnicodeText
    rw [cstr_strcpyInto, cstr_append_zero _ _ hnz, hinv]
    exact cstr_append_zero _ _ (zero_not_mem_cstr t)
  simp only [HandleCopy, copyArgs, find_copyArgs, isEmpty_eq_false_of_ne t ht, ho1, if_true,
    Bool.false_eq_true, if_false, putUnicodeText, ha, hs, HandlePaste, ho2, hg,
    IsClipboardFormatAvailable, present, GetClipboardText, CloseClipboard, SetClipboardData,
    EmptyClipboard, OpenClipboard, note, Option.isSome_some, hread]

/-- C8 (amended): for every non-empty text without a NUL byte and every prior clipboard,
`copy` followed by `paste` returns the text, the two code-page conversions being inverse on
it and the 16-bit form having no zero unit. -/
theorem C8_text_round_trip (n1 n2 : Native) (cb : Clipboard) (t : List Nat) (ht : t ≠ [])
    (h0 : 0 ∉ t)
    (ho1 : n1.openClipboard = true) (ha : n1.allocText = true) (hs : n1.setText = true)
    (ho2 : n2.openClipboard = true) (hg : n2.getText = true)
    (hnz : 0 ∉ n1.multiByteToWideChar t)
    (hinv : n2.wideCharToMultiByte (n1.multiByteToWideChar t) = t) :
    (HandlePaste n2 (HandleCopy n1 (copyArgs t) cb).1).2 = .successText t := by
  have e : cstr t = t := cstr_of_not_mem t h0
  have := paste_after_copy n1 n2 cb t ht ho1 ha hs ho2 hg (by rw [e]; exact hnz)
    (by rw [e]; exact hinv)
  rw [e] at this
  exact this

theorem C8_witness :
    ascii "hello" ≠ [] ∧ 0 ∉ ascii "hello" ∧
    (HandlePaste nativeOk (HandleCopy nativeOk (copyArgs (ascii "hello")) {}).1).2
      = .successText (ascii "hello") :=
  ⟨by decide, by decide,
    C8_text_round_trip nativeOk nativeOk {} (ascii "hello") (by decide) (by decide) rfl rfl rfl
      rfl rfl (by decide) rfl⟩

/-- C8 fails as stated: the text `a NUL b` is not empty, every native call succeeds and
the conversions are inverse to each other, yet `paste` returns `a`. -/
theorem C8_counterexample :
    (HandlePaste nativeOk (HandleCopy nativeOk (copyArgs [97, 0, 98]) {}).1).2
        = .successText [97] ∧
      (HandlePaste nativeOk (HandleCopy nativeOk (copyArgs [97, 0, 98]) {}).1).2
        ≠ .successText [97, 0, 98] := by
  decide

/-! ### The HTML Format block (C5, C6, C7) -/

theorem zero_not_mem_htmlFormat (f : List Nat) (h0 : 0 ∉ f) : 0 ∉ htmlFormat f := by
  unfold htmlFormat
  simp only [List.mem_append, not_or]
  exact ⟨⟨⟨by decide, by decide⟩, h0⟩, by decide⟩

/-- The block stored by the HTML lines of the copy handlers for a NUL-free fragment: the
string `html_format` and its terminator. -/
theorem putHtmlFormat_html (n : Native) (cb : Clipboard) (f : List Nat) (h0 : 0 ∉ f)
    (hr : n.registerHtml ≠ 0) (ha : n.allocHtml = true) (hs : n.setHtml = true) :
    (putHtmlFormat n f cb).html = some (htmlFormat f ++ [0]) := by
  have hb : strcpyInto (freshBlock n.heap ((htmlFormat f).length + 1)) (htmlFormat f)
      = htmlFormat f ++ [0] := by
    unfold strcpyInto
    rw [cstr_of_not_mem _ (zero_not_mem_htmlFormat f h0), List.drop_of_length_le
      (by rw [freshBlock_length]), List.append_nil]
  simp only [putHtmlFormat, bne_iff_ne, ne_eq, hr, not_false_eq_true, if_true, ha, hs,
    SetClipboardData, note, hb]

theorem find_richArgs_text (t h : List Nat) :
    find [(Key.str "text", Val.str t), (Key.str "html", Val.str h)] "text" = some (Val.str t) := by
  simp [find]

theorem find_richArgs_html (t h : List Nat) :
    find [(Key.str "text", Val.str t), (Key.str "html", Val.str h)] "html" = some (Val.str h) := by
  simp [find]

/-- The clipboard after `copyRichText` with an empty text and a NUL-free HTML string: no
text entry, and the whole `html_format` string as the HTML entry. -/
theorem copyRich_state (n : Native) (cb : Clipboard) (h : List Nat) (hne : h ≠ [])
    (h0 : 0 ∉ h) (ho : n.openClipboard = true) (hr : n.registerHtml ≠ 0)
    (ha : n.allocHtml = true) (hs : n.setHtml = true) :
    (HandleCopyRichText n (richArgs [] h) cb).1.text = none ∧
    (HandleCopyRichText n (richArgs [] h) cb).1.html = some (htmlFormat h ++ [0]) ∧
    (HandleCopyRichText n (richArgs [] h) cb).2 = .successBool true := by
  simp only [HandleCopyRichText, richArgs, stringArg, find_richArgs_text, find_richArgs_html,
    isEmpty_eq_false_of_ne h hne, List.isEmpty_nil, Bool.and_false, Bool.false_eq_true,
    if_false, ho, if_true, Bool.not_true, Bool.not_false, CloseClipboard, note,
    putHtmlFormat_html n _ h h0 hr ha hs, and_true, true_and]
  simp only [putHtmlFormat, bne_iff_ne, ne_eq, hr, not_false_eq_true, if_true, ha, hs,
    SetClipboardData, note, EmptyClipboard, OpenClipboard]

/-- What `pasteRichText` returns on a clipboard without text whose HTML entry is `B`: an
empty text and the whole NUL-terminated content of `B`. -/
theorem pasteRich_of_state (n : Native) (cb : Clipboard) (B : List Nat)
    (ht : cb.text = none) (hh : cb.html = some B)
    (ho : n.openClipboard = true) (hr : n.registerHtml ≠ 0) (hg : n.getHtml = true) :
    (HandlePasteRichText n cb).2 = .successRich [] (cstr B) n.tickCount := by
  simp only [HandlePasteRichText, ho, if_true, IsClipboardFormatAvailable, present, note,
    OpenClipboard, ht, hh, Option.isSome_none, Option.isSome_some, Bool.false_eq_true, if_false,
    bne_iff_ne, ne_eq, hr, not_false_eq_true, GetClipboardHtml, hg, CloseClipboard]

/-- C7 (amended): `copyRichText` with an empty text and a non-empty NUL-free HTML string,
followed by `pasteRichText`, returns an empty text and the HTML string still inside its
wrapper: header, `<html><body><!--StartFragment-->`, the string,
`<!--EndFragment--></body></html>`. -/
theorem C7_rich_round_trip (n1 n2 : Native) (cb : Clipboard) (h : List Nat) (hne : h ≠ [])
    (h0 : 0 ∉ h)
    (ho1 : n1.openClipboard = true) (hr1 : n1.registerHtml ≠ 0)
    (ha : n1.allocHtml = true) (hs : n1.setHtml = true)
    (ho2 : n2.openClipboard = true) (hr2 : n2.registerHtml ≠ 0) (hg : n2.getHtml = true) :
    (HandlePasteRichText n2 (HandleCopyRichText n1 (richArgs [] h) cb).1).2 =
      .successRich []
        (htmlHeader ++ ascii "<html><body><!--StartFragment-->" ++ h ++
          ascii "<!--EndFragment--></body></html>")
        n2.tickCount := by
  obtain ⟨e1, e2, _⟩ := copyRich_state n1 cb h hne h0 ho1 hr1 ha hs
  rw [pasteRich_of_state n2 _ _ e1 e2 ho2 hr2 hg,
    cstr_append_zero _ _ (zero_not_mem_htmlFormat h h0)]
  rfl

theorem C7_witness :
    ascii "<b>x</b>" ≠ [] ∧ 0 ∉ ascii "<b>x</b>" ∧
    (HandlePasteRichText nativeOk
        (HandleCopyRichText nativeOk (richArgs [] (ascii "<b>x</b>")) {}).1).2 =
      .successRich []
        (htmlHeader ++ ascii "<html><body><!--StartFragment-->" ++ ascii "<b>x</b>" ++
          ascii "<!--EndFragment--></body></html>")
        nativeOk.tickCount :=
  ⟨by decide, by decide,
    C7_rich_round_trip nativeOk nativeOk {} (ascii "<b>x</b>") (by decide) (by decide) rfl
      (by decide) rfl rfl rfl (by decide) rfl⟩

/-- C7 fails as stated: after `copyRichText` of the HTML string `hi`, `pasteRichText`
returns the wrapped text, not `hi`. -/
theorem C7_counterexample :
    (HandlePasteRichText nativeOk
        (HandleCopyRichText nativeOk (richArgs [] (ascii "hi")) {}).1).2 =
      .successRich []
        (ascii "Version:0.9\r\nStartHTML:00000000\r\nEndHTML:00000000\r\nStartFragment:00000000\r\nEndFragment:00000000\r\n<html><body><!--StartFragment-->hi<!--EndFragment--></body></html>")
        86400000 ∧
    ∀ ts, (HandlePasteRichText nativeOk
        (HandleCopyRichText nativeOk (richArgs [] (ascii "hi")) {}).1).2 ≠
      .successRich [] (ascii "hi") ts := by
  have e : (HandlePasteRichText nativeOk
        (HandleCopyRichText nativeOk (richArgs [] (ascii "hi")) {}).1).2 =
      .successRich []
        (ascii "Version:0.9\r\nStartHTML:00000000\r\nEndHTML:00000000\r\nStartFragment:00000000\r\nEndFragment:00000000\r\n<html><body><!--StartFragment-->hi<!--EndFragment--></body></html>")
        86400000 := by decide
  refine ⟨e, fun ts h => ?_⟩
  rw [e] at h
  injection h with _ h2 _
  revert h2
  decide

theorem find_bundleArgs (fm : EncodableMap) :
    find [(Key.str "formats", Val.map fm)] "formats" = some (Val.map fm) := by
  simp [find]

theorem CloseClipboard_html (cb : Clipboard) : (CloseClipboard cb).html = cb.html := rfl

/-- The HTML entry after `copyRichText` with a non-empty NUL-free HTML string. -/
theorem copyRich_html (n : Native) (cb : Clipboard) (t f : List Nat) (hne : f ≠ [])
    (h0 : 0 ∉ f) (ho : n.openClipboard = true) (hr : n.registerHtml ≠ 0)
    (ha : n.allocHtml = true) (hs : n.setHtml = true) :
    (HandleCopyRichText n (richArgs t f) cb).1.html = some (htmlFormat f ++ [0]) := by
  simp only [HandleCopyRichText, richArgs, stringArg, find_richArgs_text, find_richArgs_html,
    isEmpty_eq_false_of_ne f hne, Bool.and_false, Bool.false_eq_true,
    if_false, ho, if_true, Bool.not_false, CloseClipboard_html,
    putHtmlFormat_html n _ f h0 hr ha hs]

/-- The HTML entry after `copyMultiple` with a non-empty NUL-free string under
`"text/html"`, whatever else the bundle holds. -/
theorem copyMultiple_html (n : Native) (cb cb' : Clipboard) (r : Reply) (fm : EncodableMap)
    (f : List Nat) (hfm : find fm "text/html" = some (Val.str f)) (hne : f ≠ [])
    (h0 : 0 ∉ f) (ho : n.openClipboard = true) (hr : n.registerHtml ≠ 0)
    (ha : n.allocHtml = true) (hs : n.setHtml = true)
    (hrun : HandleCopyMultiple n (bundleArgs fm) cb = some (cb', r)) :
    cb'.html = some (htmlFormat f ++ [0]) := by
  have hfne : fm.isEmpty = false := by
    cases fm with
    | nil => simp [find] at hfm
    | cons a l => rfl
  simp only [HandleCopyMultiple, bundleArgs, find_bundleArgs, hfne, Bool.false_eq_true, if_false,
    ho, if_true, hfm, isEmpty_eq_false_of_ne f hne, Bool.not_false] at hrun
  split at hrun
  · exact absurd hrun (by simp)
  · simp only [Option.some.injEq, Prod.mk.injEq] at hrun
    rw [← hrun.1, CloseClipboard_html, putHtmlFormat_html n _ f h0 hr ha hs]

theorem htmlFormat_eq_layout (f : List Nat) :
    htmlFormat f =
      wrapperLayout (ascii "00000000") (ascii "00000000") (ascii "00000000") (ascii "00000000") f := by
  unfold htmlFormat wrapperLayout htmlHeader
  have e : ascii "Version:0.9\r\nStartHTML:00000000\r\nEndHTML:00000000\r\nStartFragment:00000000\r\nEndFragment:00000000\r\n" ++ ascii "<html><body><!--StartFragment-->" =
      ascii "Version:0.9\r\nStartHTML:" ++ ascii "00000000" ++ ascii "\r\nEndHTML:" ++
        ascii "00000000" ++ ascii "\r\nStartFragment:" ++ ascii "00000000" ++
        ascii "\r\nEndFragment:" ++ ascii "00000000" ++
        ascii "\r\n<html><body><!--StartFragment-->" := by decide
  rw [e]

/-- C6 (amended): the HTML Format block written by `copyRichText` and by `copyMultiple`
for a non-empty NUL-free fragment is the wrapper text with four fields of exactly 8 decimal
digits, followed by the terminating NUL. -/
theorem C6_html_layout (n : Native) (cb cb' : Clipboard) (r : Reply) (t f : List Nat)
    (fm : EncodableMap) (hne : f ≠ []) (h0 : 0 ∉ f)
    (ho : n.openClipboard = true) (hr : n.registerHtml ≠ 0)
    (ha : n.allocHtml = true) (hs : n.setHtml = true)
    (hfm : find fm "text/html" = some (Val.str f))
    (hrun : HandleCopyMultiple n (bundleArgs fm) cb = some (cb', r)) :
    ∃ D1 D2 D3 D4 : List Nat,
      (∀ D ∈ [D1, D2, D3, D4], D.length = 8 ∧ allDigits D = true) ∧
      (HandleCopyRichText n (richArgs t f) cb).1.html
        = some (wrapperLayout D1 D2 D3 D4 f ++ [0]) ∧
      cb'.html = some (wrapperLayout D1 D2 D3 D4 f ++ [0]) := by
  refine ⟨ascii "00000000", ascii "00000000", ascii "00000000", ascii "00000000", ?_, ?_, ?_⟩
  · intro D hD
    simp only [List.mem_cons, List.mem_singleton, List.not_mem_nil, or_false, or_self] at hD
    subst hD
    decide
  · rw [← htmlFormat_eq_layout]
    exact copyRich_html n cb t f hne h0 ho hr ha hs
  · rw [← htmlFormat_eq_layout]
    exact copyMultiple_html n cb cb' r fm f hfm hne h0 ho hr ha hs hrun

theorem C6_witness :
    ∃ (cb' : Clipboard) (D1 D2 D3 D4 : List Nat),
      HandleCopyMultiple nativeOk (bundleArgs [(Key.str "text/html", Val.str (ascii "hi"))]) {}
        = some (cb', .successBool true) ∧
      (∀ D ∈ [D1, D2, D3, D4], D.length = 8 ∧ allDigits D = true) ∧
      (HandleCopyRichText nativeOk (richArgs [] (ascii "hi")) {}).1.html
        = some (wrapperLayout D1 D2 D3 D4 (ascii "hi") ++ [0]) ∧
      cb'.html = some (wrapperLayout D1 D2 D3 D4 (ascii "hi") ++ [0]) := by
  cases hrun : HandleCopyMultiple nativeOk
      (bundleArgs [(Key.str "text/html", Val.str (ascii "hi"))]) {} with
  | none => exact absurd hrun (by decide)
  | some p =>
    have h2 : (HandleCopyMultiple nativeOk
        (bundleArgs [(Key.str "text/html", Val.str (ascii "hi"))]) {}).map (fun q => q.2)
          = some (.successBool true) := by decide
    rw [hrun] at h2
    simp only [Option.map_some', Option.some.injEq] at h2
    obtain ⟨D1, D2, D3, D4, hD, e1, e2⟩ := C6_html_layout nativeOk {} p.1 p.2 [] (ascii "hi")
      [(Key.str "text/html", Val.str (ascii "hi"))] (by decide) (by decide) rfl (by decide)
      rfl rfl (by simp [find]) hrun
    exact ⟨p.1, D1, D2, D3, D4, by rw [← h2], hD, e1, e2⟩

theorem wrapperLayout_length (D1 D2 D3 D4 f : List Nat) :
    (wrapperLayout D1 D2 D3 D4 f).length =
      129 + D1.length + D2.length + D3.length + D4.length + f.length := by
  unfold wrapperLayout
  simp only [List.length_append]
  have l1 : (ascii "Version:0.9\r\nStartHTML:").length = 23 := by decide
  have l2 : (ascii "\r\nEndHTML:").length = 10 := by decide
  have l3 : (ascii "\r\nStartFragment:").length = 16 := by decide
  have l4 : (ascii "\r\nEndFragment:").length = 14 := by decide
  have l5 : (ascii "\r\n<html><body><!--StartFragment-->").length = 34 := by decide
  have l6 : (ascii "<!--EndFragment--></body></html>").length = 32 := by decide
  rw [l1, l2, l3, l4, l5, l6]
  omega

/-- C6 fails as stated: for the fragment `hi` the block written by `copyRichText` is not
the wrapper text with four 10-digit fields, with or without the terminating NUL. -/
theorem C6_counterexample :
    ¬ ∃ D1 D2 D3 D4 : List Nat,
      (∀ D ∈ [D1, D2, D3, D4], D.length = 10) ∧
      ((HandleCopyRichText nativeOk (richArgs [] (ascii "hi")) {}).1.html
          = some (wrapperLayout D1 D2 D3 D4 (ascii "hi")) ∨
       (HandleCopyRichText nativeOk (richArgs [] (ascii "hi")) {}).1.html
          = some (wrapperLayout D1 D2 D3 D4 (ascii "hi") ++ [0])) := by
  rintro ⟨D1, D2, D3, D4, hD, hE⟩
  have h1 := (hD D1 (by simp))
  have h2 := (hD D2 (by simp))
  have h3 := (hD D3 (by simp))
  have h4 := (hD D4 (by simp))
  have hb : (HandleCopyRichText nativeOk (richArgs [] (ascii "hi")) {}).1.html
      = some (htmlFormat (ascii "hi") ++ [0]) :=
    copyRich_html nativeOk {} [] (ascii "hi") (by decide) (by decide) rfl (by decide) rfl rfl
  have hl : (htmlFormat (ascii "hi") ++ [0]).length = 164 := by decide
  rw [hb] at hE
  rcases hE with hE | hE
  · have := congrArg List.length (Option.some.inj hE)
    rw [hl, wrapperLayout_length, h1, h2, h3, h4] at this
    have l : (ascii "hi").length = 2 := by decide
    omega
  · have := congrArg List.length (Option.some.inj hE)
    rw [hl, List.length_append, wrapperLayout_length, h1, h2, h3, h4] at this
    have l : (ascii "hi").length = 2 := by decide
    simp only [List.length_singleton] at this
    omega

/-- C5 at the fragment `hi`: the block written by `copyRichText` and by `copyMultiple` is
the 163-byte string `html_format` and a NUL. Each of the four header fields reads
`00000000`, while `<html>` starts at byte 97, the fragment at byte 129,
`<!--EndFragment-->` at byte 131 and the text ends at byte 163. -/
theorem C5_offsets_at_hi :
    (HandleCopyRichText nativeOk (richArgs [] (ascii "hi")) {}).1.html
      = some (htmlFormat (ascii "hi") ++ [0]) ∧
    (HandleCopyMultiple nativeOk
        (bundleArgs [(Key.str "text/html", Val.str (ascii "hi"))]) {}).map (fun p => p.1.html)
      = some (some (htmlFormat (ascii "hi") ++ [0])) ∧
    ((htmlFormat (ascii "hi")).drop 13).take 18 = ascii "StartHTML:00000000" ∧
    ((htmlFormat (ascii "hi")).drop 33).take 16 = ascii "EndHTML:00000000" ∧
    ((htmlFormat (ascii "hi")).drop 51).take 22 = ascii "StartFragment:00000000" ∧
    ((htmlFormat (ascii "hi")).drop 75).take 20 = ascii "EndFragment:00000000" ∧
    ((htmlFormat (ascii "hi")).drop 97).take 6 = ascii "<html>" ∧
    ((htmlFormat (ascii "hi")).drop 109).take 20 = ascii "<!--StartFragment-->" ∧
    ((htmlFormat (ascii "hi")).drop 129).take 2 = ascii "hi" ∧
    ((htmlFormat (ascii "hi")).drop 131).take 18 = ascii "<!--EndFragment-->" ∧
    ((htmlFormat (ascii "hi")).drop 156) = ascii "</html>" ∧
    (htmlFormat (ascii "hi")).length = 163 := by
  decide

/-! ### Content type (C9, C10) -/

theorem getContentType_reply (n : Native) (cb : Clipboard) (ho : n.openClipboard = true) :
    (HandleGetContentType n cb).2 =
      .successString (contentType cb.text.isSome (n.registerHtml != 0 && cb.html.isSome)
        cb.dib.isSome) := by
  by_cases hr : n.registerHtml = 0
  · simp [HandleGetContentType, ho, hr, IsClipboardFormatAvailable, present, note,
      OpenClipboard, CloseClipboard]
  · have hb : (n.registerHtml != 0) = true := by simpa using hr
    simp [HandleGetContentType, ho, hb, IsClipboardFormatAvailable, present, note,
      OpenClipboard, CloseClipboard]

/-- C9: with the clipboard open, `getContentType` answers from the three availability
flags: `mixed` for an image with text or HTML, `mixed` for text and HTML without an image,
`image`, `html` or `text` when only that one is available, `empty` when none is. -/
theorem C9_content_type (n : Native) (cb : Clipboard) (ho : n.openClipboard = true)
    (t h i : Bool) (ht : t = cb.text.isSome)
    (hh : h = (n.registerHtml != 0 && cb.html.isSome)) (hi : i = cb.dib.isSome) :
    (i = true → (t = true ∨ h = true) →
      (HandleGetContentType n cb).2 = .successString "mixed") ∧
    (t = true → h = true → i = false →
      (HandleGetContentType n cb).2 = .successString "mixed") ∧
    (i = true → t = false → h = false →
      (HandleGetContentType n cb).2 = .successString "image") ∧
    (h = true → t = false → i = false →
      (HandleGetContentType n cb).2 = .successString "html") ∧
    (t = true → h = false → i = false →
      (HandleGetContentType n cb).2 = .successString "text") ∧
    (t = false → h = false → i = false →
      (HandleGetContentType n cb).2 = .successString "empty") := by
  rw [getContentType_reply n cb ho, ← ht, ← hh, ← hi]
  cases t <;> cases h <;> cases i <;> simp [contentType]

theorem C9_witness :
    nativeOk.openClipboard = true ∧
    (HandleGetContentType nativeOk textAndHtml).2 = .successString "mixed" :=
  ⟨rfl, (C9_content_type nativeOk textAndHtml rfl true true false rfl rfl rfl).2.1 rfl rfl rfl⟩


theorem SetClipboardImage_success (n : Native) (png : List Nat) (cb cb2 : Clipboard)
    (h : SetClipboardImage n png cb = some (cb2, true)) :
    ∃ d : Dib, cb2 = SetClipboardData true (.dib d) cb := by
  unfold SetClipboardImage at h
  split_ifs at h
  all_goals try (simp at h; done)
  all_goals split at h
  all_goals try (simp at h; done)
  all_goals dsimp only at h
  all_goals split at h
  all_goals try (simp at h; done)
  all_goals
    simp only [Option.some.injEq, Prod.mk.injEq] at h
    obtain ⟨h1, h2⟩ := h
    rw [h2] at h1
    exact ⟨_, h1.symm⟩

theorem find_imageArgs (l : List Elem) :
    find [(Key.str "imageBytes", Val.list l)] "imageBytes" = some (Val.list l) := by
  simp [find]

/-- C10: whatever the clipboard held before, when `copyImage` reports success the
clipboard holds a DIB and neither text nor HTML, and `getContentType` answers `image`. -/
theorem C10_copyImage_content_type (n1 n2 : Native) (arguments : Option EncodableMap)
    (cb cb' : Clipboard)
    (hcopy : HandleCopyImage n1 arguments cb = some (cb', .successBool true))
    (ho : n2.openClipboard = true) :
    cb'.text = none ∧ cb'.html = none ∧ cb'.dib.isSome = true ∧
    (HandleGetContentType n2 cb').2 = .successString "image" := by
  have hstate : cb'.text = none ∧ cb'.html = none ∧ cb'.dib.isSome = true := by
    unfold HandleCopyImage at hcopy
    split at hcopy
    · simp at hcopy
    · split at hcopy
      · dsimp only at hcopy
        split_ifs at hcopy
        all_goals try (simp at hcopy)
        split at hcopy
        · simp at hcopy
        · rename_i cb2 success hset
          split_ifs at hcopy with hs
          · simp only [Option.some.injEq, Prod.mk.injEq, and_true] at hcopy
            subst hs
            obtain ⟨d, hd⟩ := SetClipboardImage_success _ _ _ _ hset
            rw [← hcopy, hd]
            simp [CloseClipboard, SetClipboardData, EmptyClipboard, OpenClipboard, note]
          · simp at hcopy
      · simp at hcopy
  obtain ⟨h1, h2, h3⟩ := hstate
  refine ⟨h1, h2, h3, ?_⟩
  rw [getContentType_reply n2 cb' ho, h1, h2, h3]
  simp [contentType]

theorem C10_witness :
    ∃ cb' : Clipboard,
      HandleCopyImage nativeOk (imageArgs [.int32 137, .int32 80, .int64 78, .int32 71])
        textAndHtml = some (cb', .successBool true) ∧
      cb'.text = none ∧ cb'.html = none ∧ cb'.dib.isSome = true ∧
      (HandleGetContentType nativeOk cb').2 = .successString "image" := by
  cases hrun : HandleCopyImage nativeOk
      (imageArgs [.int32 137, .int32 80, .int64 78, .int32 71]) textAndHtml with
  | none => exact absurd hrun (by decide)
  | some p =>
    have h2 : (HandleCopyImage nativeOk
        (imageArgs [.int32 137, .int32 80, .int64 78, .int32 71]) textAndHtml).map
          (fun q => q.2) = some (.successBool true) := by decide
    rw [hrun] at h2
    simp only [Option.map_some', Option.some.injEq] at h2
    have hp : some p = some (p.1, Reply.successBool true) := by rw [← h2]
    exact ⟨p.1, hp, C10_copyImage_content_type nativeOk nativeOk _ textAndHtml p.1
      (hrun.trans hp) rfl⟩

/-! ### Empty payloads (C18) -/

theorem toBytes_nil_of_isEmpty (l : List Elem) (h : l.isEmpty = true) : toBytes l = [] := by
  cases l with
  | nil => rfl
  | cons a t => simp at h

/-- C18: an empty payload is answered with an error before the clipboard is opened. -/
theorem C18_fail_fast (n : Native) (cb : Clipboard) (aText aRich aBundle aImage : EncodableMap)
    (hText : ∀ t, find aText "text" = some (.str t) → t = [])
    (hRich : stringArg aRich "text" = [] ∧ stringArg aRich "html" = [])
    (hBundle : ∀ m, find aBundle "formats" = some (.map m) → m = [])
    (hImage : ∀ l, find aImage "imageBytes" = some (.list l) → toBytes l = []) :
    HandleCopy n (some aText) cb = (cb, .error "EMPTY_TEXT" "Text cannot be empty") ∧
    HandleCopyRichText n (some aRich) cb =
      (cb, .error "EMPTY_CONTENT" "Either text or html must be provided") ∧
    HandleCopyMultiple n (some aBundle) cb =
      some (cb, .error "EMPTY_FORMATS" "At least one format must be provided") ∧
    HandleCopyImage n (some aImage) cb =
      some (cb, .error "EMPTY_IMAGE" "Image bytes cannot be empty") ∧
    HandleCopy n none cb = (cb, .error "INVALID_ARGUMENT" "Arguments are required") ∧
    HandleCopyRichText n none cb = (cb, .error "INVALID_ARGUMENT" "Arguments are required") ∧
    HandleCopyMultiple n none cb = some (cb, .error "INVALID_ARGUMENT" "Arguments are required") ∧
    HandleCopyImage n none cb = some (cb, .error "INVALID_ARGUMENT" "Arguments are required") := by
  refine ⟨?_, ?_, ?_, ?_, rfl, rfl, rfl, rfl⟩
  · unfold HandleCopy
    dsimp only
    split
    · rename_i text ht
      rw [hText text ht]
      rfl
    · rfl
  · unfold HandleCopyRichText
    dsimp only
    rw [hRich.1, hRich.2]
    rfl
  · unfold HandleCopyMultiple
    dsimp only
    split
    · rename_i m hm
      rw [hBundle m hm]
      rfl
    · rfl
  · unfold HandleCopyImage
    dsimp only
    split
    · rename_i l hl
      have hb := hImage l hl
      by_cases he : l.isEmpty = true
      · rw [if_pos he]
      · rw [if_neg he]
        rw [hb]
        rfl
    · rfl

theorem C18_witness :
    HandleCopy nativeOk (some []) textAndHtml =
      (textAndHtml, .error "EMPTY_TEXT" "Text cannot be empty") ∧
    HandleCopyRichText nativeOk (richArgs [] []) textAndHtml =
      (textAndHtml, .error "EMPTY_CONTENT" "Either text or html must be provided") ∧
    HandleCopyMultiple nativeOk (bundleArgs []) textAndHtml =
      some (textAndHtml, .error "EMPTY_FORMATS" "At least one format must be provided") ∧
    HandleCopyImage nativeOk (imageArgs []) textAndHtml =
      some (textAndHtml, .error "EMPTY_IMAGE" "Image bytes cannot be empty") :=
  have h := C18_fail_fast nativeOk textAndHtml [] [(Key.str "text", Val.str []), (Key.str "html", Val.str [])]
    [(Key.str "formats", Val.map [])] [(Key.str "imageBytes", Val.list [])]
    (by simp [find]) (by simp [stringArg, find]) (by simp [find]) (by simp [find, toBytes])
  ⟨h.1, h.2.1, h.2.2.1, h.2.2.2.1⟩

/-! ### Call sequences: opening and closing (C20) -/

theorem heldAfter_append (a b : List Call) (h : Bool) :
    heldAfter h (a ++ b) = (heldAfter h a).bind (fun h2 => heldAfter h2 b) := by
  induction a generalizing h with
  | nil => simp [heldAfter]
  | cons c cs ih =>
    cases c with
    | openClipboard ok =>
      cases ok <;> cases h <;> simp [heldAfter, ih]
    | closeClipboard => cases h <;> simp [heldAfter, ih]
    | emptyClipboard => simp [heldAfter, ih]
    | isClipboardFormatAvailable f => simp [heldAfter, ih]
    | getClipboardData f => simp [heldAfter, ih]
    | setClipboardData f ok => simp [heldAfter, ih]
    | readBlock f => simp [heldAfter, ih]

theorem Steps_refl (h : Bool) (cb : Clipboard) : Steps h cb h cb :=
  ⟨[], by simp, rfl, fun e => e⟩

theorem Steps_trans {h1 h2 h3 : Bool} {c1 c2 c3 : Clipboard}
    (s1 : Steps h1 c1 h2 c2) (s2 : Steps h2 c2 h3 c3) : Steps h1 c1 h3 c3 := by
  obtain ⟨a, ea, ha, oa⟩ := s1
  obtain ⟨b, eb, hb, ob⟩ := s2
  refine ⟨a ++ b, by rw [eb, ea, List.append_assoc], ?_, fun e => ob (oa e)⟩
  rw [heldAfter_append, ha]
  exact hb

theorem Steps_putUnicodeText (n : Native) (text : List Nat) (cb : Clipboard) (h : Bool) :
    Steps h cb h (putUnicodeText n text cb) := by
  unfold Steps putUnicodeText
  cases ha : n.allocText <;> cases hs : n.setText <;>
    simp [SetClipboardData, note, heldAfter, Data.fmt]

theorem Steps_putHtmlFormat (n : Native) (html : List Nat) (cb : Clipboard) (h : Bool) :
    Steps h cb h (putHtmlFormat n html cb) := by
  unfold Steps putHtmlFormat
  by_cases hr : n.registerHtml = 0 <;> cases ha : n.allocHtml <;> cases hs : n.setHtml <;>
    simp [hr, SetClipboardData, note, heldAfter, Data.fmt]

theorem Steps_SetClipboardData (ok : Bool) (d : Data) (cb : Clipboard) (h : Bool) :
    Steps h cb h (SetClipboardData ok d cb) := by
  unfold Steps SetClipboardData
  cases ok <;> cases d <;> simp [note, heldAfter, Data.fmt]

theorem Steps_SetClipboardImage (n : Native) (png : List Nat) (cb cb2 : Clipboard) (ok h : Bool)
    (hset : SetClipboardImage n png cb = some (cb2, ok)) : Steps h cb h cb2 := by
  unfold SetClipboardImage at hset
  split_ifs at hset
  all_goals try (simp only [Option.some.injEq, Prod.mk.injEq] at hset; rw [← hset.1]; exact Steps_refl h cb)
  all_goals split at hset
  all_goals try (simp only [Option.some.injEq, Prod.mk.injEq] at hset; rw [← hset.1]; exact Steps_refl h cb)
  all_goals dsimp only at hset
  all_goals split at hset
  all_goals try (simp at hset; done)
  all_goals
    simp only [Option.some.injEq, Prod.mk.injEq] at hset
    rw [← hset.1]
    exact Steps_SetClipboardData _ _ _ _

theorem Released_bracket (n : Native) (cb cb2 : Clipboard) (ho : n.openClipboard = true)
    (s : Steps true (EmptyClipboard (OpenClipboard n cb)) true cb2) :
    Released cb (CloseClipboard cb2) := by
  obtain ⟨cs, e, hh, _⟩ := s
  refine ⟨[.openClipboard true, .emptyClipboard] ++ cs ++ [.closeClipboard], ?_, ?_, ?_⟩
  · simp [CloseClipboard, note, e, EmptyClipboard, OpenClipboard, ho]
  · rw [heldAfter_append, heldAfter_append]
    simp [heldAfter, hh]
  · simp [CloseClipboard, note]

theorem Released_openFailed (n : Native) (cb : Clipboard) (ho : n.openClipboard = false)
    (h0 : cb.isOpen = false) : Released cb (OpenClipboard n cb) := by
  unfold Released
  simp [OpenClipboard, ho, note, heldAfter, h0]

theorem Released_refl (cb : Clipboard) (h0 : cb.isOpen = false) : Released cb cb :=
  ⟨[], by simp, rfl, h0⟩

theorem released_copy (n : Native) (arguments : Option EncodableMap) (cb : Clipboard)
    (h0 : cb.isOpen = false) : Released cb (HandleCopy n arguments cb).1 := by
  unfold HandleCopy
  split
  · exact Released_refl cb h0
  · split
    · split_ifs with h1 h2
      · exact Released_refl cb h0
      · exact Released_bracket n cb _ h2 (Steps_putUnicodeText _ _ _ _)
      · exact Released_openFailed n cb (by simpa using h2) h0
    · exact Released_refl cb h0

theorem released_copyRichText (n : Native) (arguments : Option EncodableMap) (cb : Clipboard)
    (h0 : cb.isOpen = false) : Released cb (HandleCopyRichText n arguments cb).1 := by
  unfold HandleCopyRichText
  split
  · exact Released_refl cb h0
  · dsimp only
    split_ifs with h1 h2 h3 h4 h4
    all_goals first
      | exact Released_refl cb h0
      | exact Released_openFailed n cb (by simpa using h2) h0
      | exact Released_bracket n cb _ h2 (Steps_refl _ _)
      | exact Released_bracket n cb _ h2 (Steps_putUnicodeText _ _ _ _)
      | exact Released_bracket n cb _ h2 (Steps_putHtmlFormat _ _ _ _)
      | exact Released_bracket n cb _ h2
          (Steps_trans (Steps_putUnicodeText _ _ _ _) (Steps_putHtmlFormat _ _ _ _))

theorem released_copyImage (n : Native) (arguments : Option EncodableMap) (cb cb2 : Clipboard)
    (r : Reply) (h0 : cb.isOpen = false) (hrun : HandleCopyImage n arguments cb = some (cb2, r)) :
    Released cb cb2 := by
  unfold HandleCopyImage at hrun
  split at hrun
  · simp only [Option.some.injEq, Prod.mk.injEq] at hrun
    rw [← hrun.1]; exact Released_refl cb h0
  · split at hrun
    · dsimp only at hrun
      split_ifs at hrun with h1 h2 h3
      · simp only [Option.some.injEq, Prod.mk.injEq] at hrun
        rw [← hrun.1]; exact Released_refl cb h0
      · simp only [Option.some.injEq, Prod.mk.injEq] at hrun
        rw [← hrun.1]; exact Released_refl cb h0
      · split at hrun
        · simp at hrun
        · rename_i cb3 success hset
          have hcb : cb2 = CloseClipboard cb3 := by
            split_ifs at hrun
            all_goals
              simp only [Option.some.injEq, Prod.mk.injEq] at hrun
              exact hrun.1.symm
          rw [hcb]
          exact Released_bracket n cb _ h3 (Steps_SetClipboardImage _ _ _ _ _ _ hset)
      · simp only [Option.some.injEq, Prod.mk.injEq] at hrun
        rw [← hrun.1]; exact Released_openFailed n cb (by simpa using h3) h0
    · simp only [Option.some.injEq, Prod.mk.injEq] at hrun
      rw [← hrun.1]; exact Released_refl cb h0

theorem Steps_textStep (n : Native) (formats : EncodableMap) (cb : Clipboard) (h : Bool) :
    Steps h cb h
      (match find formats "text/plain" with
      | some (.str text) => if !text.isEmpty then putUnicodeText n text cb else cb
      | _ => cb) := by
  split
  · split_ifs
    · exact Steps_putUnicodeText _ _ _ _
    · exact Steps_refl _ _
  · exact Steps_refl _ _

theorem Steps_htmlStep (n : Native) (formats : EncodableMap) (cb : Clipboard) (h : Bool) :
    Steps h cb h
      (match find formats "text/html" with
      | some (.str html) => if !html.isEmpty then putHtmlFormat n html cb else cb
      | _ => cb) := by
  split
  · split_ifs
    · exact Steps_putHtmlFormat _ _ _ _
    · exact Steps_refl _ _
  · exact Steps_refl _ _

theorem released_copyMultiple (n : Native) (arguments : Option EncodableMap)
    (cb cb2 : Clipboard) (r : Reply) (h0 : cb.isOpen = false)
    (hrun : HandleCopyMultiple n arguments cb = some (cb2, r)) : Released cb cb2 := by
  unfold HandleCopyMultiple at hrun
  split at hrun
  · simp only [Option.some.injEq, Prod.mk.injEq] at hrun
    rw [← hrun.1]; exact Released_refl cb h0
  · split at hrun
    · rename_i formats hf
      split_ifs at hrun with h1 h2
      · simp only [Option.some.injEq, Prod.mk.injEq] at hrun
        rw [← hrun.1]; exact Released_refl cb h0
      · dsimp only at hrun
        split at hrun
        · simp at hrun
        · rename_i cb3 himg
          simp only [Option.some.injEq, Prod.mk.injEq] at hrun
          rw [← hrun.1]
          apply Released_bracket n cb _ h2
          have s1 : Steps true (EmptyClipboard (OpenClipboard n cb)) true cb3 := by
            split at himg
            · split_ifs at himg
              · simp only [Option.map_eq_some', Prod.exists, exists_and_right, exists_eq_right] at himg
                obtain ⟨ok, hset⟩ := himg
                exact Steps_SetClipboardImage _ _ _ _ _ _ hset
              · simp only [Option.some.injEq] at himg
                rw [← himg]; exact Steps_refl _ _
              · simp only [Option.some.injEq] at himg
                rw [← himg]; exact Steps_refl _ _
            · simp only [Option.some.injEq] at himg
              rw [← himg]; exact Steps_refl _ _
          exact Steps_trans s1 (Steps_trans (Steps_textStep n formats cb3 true)
            (Steps_htmlStep n formats _ true))
      · simp only [Option.some.injEq, Prod.mk.injEq] at hrun
        rw [← hrun.1]; exact Released_openFailed n cb (by simpa using h2) h0
    · simp only [Option.some.injEq, Prod.mk.injEq] at hrun
      rw [← hrun.1]; exact Released_refl cb h0

theorem released_paste (n : Native) (cb : Clipboard) (h0 : cb.isOpen = false) :
    Released cb (HandlePaste n cb).1 := by
  unfold Released HandlePaste
  cases ho : n.openClipboard <;> cases hg : n.getText <;> cases ht : cb.text <;>
    simp [h0, ho, hg, ht, OpenClipboard, CloseClipboard, IsClipboardFormatAvailable,
      GetClipboardText, present, note, heldAfter]

theorem released_getContentType (n : Native) (cb : Clipboard) (h0 : cb.isOpen = false) :
    Released cb (HandleGetContentType n cb).1 := by
  unfold Released HandleGetContentType
  cases ho : n.openClipboard <;> by_cases hr : n.registerHtml = 0 <;>
    simp [h0, ho, hr, OpenClipboard, CloseClipboard, IsClipboardFormatAvailable,
      present, note, heldAfter]

theorem released_pasteRichText (n : Native) (cb : Clipboard) (h0 : cb.isOpen = false) :
    Released cb (HandlePasteRichText n cb).1 := by
  unfold Released HandlePasteRichText
  cases ho : n.openClipboard <;> by_cases hr : n.registerHtml = 0 <;>
    cases hg : n.getText <;> cases ht : cb.text <;>
    cases hg2 : n.getHtml <;> cases ht2 : cb.html <;>
    simp [h0, ho, hr, hg, ht, hg2, ht2, OpenClipboard, CloseClipboard,
      IsClipboardFormatAvailable, GetClipboardText, GetClipboardHtml, present, note, heldAfter]

theorem released_hasData (n : Native) (cb : Clipboard) (h0 : cb.isOpen = false) :
    Released cb (HandleHasData n cb).1 := by
  unfold Released HandleHasData
  cases ho : n.openClipboard <;> by_cases hr : n.registerHtml = 0 <;>
    cases ht : cb.text <;> cases hd : cb.dib <;>
    simp [h0, ho, hr, ht, hd, OpenClipboard, CloseClipboard,
      IsClipboardFormatAvailable, present, note, heldAfter]

theorem released_clear (n : Native) (cb : Clipboard) (h0 : cb.isOpen = false) :
    Released cb (HandleClear n cb).1 := by
  unfold Released HandleClear
  cases ho : n.openClipboard <;>
    simp [h0, ho, OpenClipboard, CloseClipboard, EmptyClipboard, note, heldAfter]

theorem released_getDataSize (n : Native) (cb : Clipboard) (h0 : cb.isOpen = false) :
    Released cb (HandleGetDataSize n cb).1 := by
  unfold Released HandleGetDataSize
  cases ho : n.openClipboard <;> cases hg : n.getText <;> cases ht : cb.text <;>
    simp [h0, ho, hg, ht, OpenClipboard, CloseClipboard, IsClipboardFormatAvailable,
      GetClipboardText, present, note, heldAfter]

theorem released_pasteImage (n : Native) (cb cb2 : Clipboard) (r : Reply)
    (h0 : cb.isOpen = false) (hrun : HandlePasteImage n cb = some (cb2, r)) :
    Released cb cb2 := by
  unfold HandlePasteImage at hrun
  dsimp only at hrun
  cases ho : n.openClipboard
  all_goals simp only [ho, Bool.not_true, Bool.not_false, if_true, if_false, Bool.false_eq_true] at hrun
  · simp only [Option.some.injEq, Prod.mk.injEq] at hrun
    obtain ⟨rfl, -⟩ := hrun
    exact Released_openFailed n cb ho h0
  · repeat' split at hrun
    all_goals try (simp at hrun; done)
    all_goals
      simp only [Option.some.injEq, Prod.mk.injEq] at hrun
      obtain ⟨rfl, -⟩ := hrun
      unfold Released
      simp [OpenClipboard, CloseClipboard, IsClipboardFormatAvailable, GetClipboardDib, note,
        heldAfter, ho]

theorem Steps_method1 (n : Native) (cb : Clipboard) (h : Bool) :
    Steps h cb h (Runner.method1 n cb).1 := by
  unfold Steps Runner.method1
  cases hb : cb.bitmap <;> cases h1 : n.getBitmap <;> cases h2 : n.createCompatibleDC <;>
    cases h3 : n.createCompatibleBitmap <;>
    simp [hb, h1, h2, h3, IsClipboardFormatAvailable, GetClipboardBitmap, present, note,
      heldAfter]

theorem Steps_method2 (n : Native) (cb : Clipboard) :
    Steps true cb (Runner.method2 n cb).2.2 (Runner.method2 n cb).1 := by
  unfold Steps Runner.method2
  cases hd : cb.dib with
  | none => simp [hd, IsClipboardFormatAvailable, present, note, heldAfter]
  | some dib =>
    cases h1 : n.getDib <;> cases h2 : n.lockDib <;> cases h3 : n.createDibDC <;>
      cases h4 : n.createDIBSection <;>
      by_cases hv : 40 ≤ dib.biSize ∧ 0 < dib.biWidth ∧ dib.biHeight ≠ 0 <;>
      by_cases hb : dib.biBitCount ≤ 8 <;>
      simp [hd, h1, h2, h3, h4, hv, hb, IsClipboardFormatAvailable, GetClipboardDib, present,
        note, heldAfter, CloseClipboard, Runner.readHeader]

theorem Steps_method3 (n : Native) (cb : Clipboard) (opened : Bool) :
    Steps opened cb (Runner.method3 n cb opened).2.2.1 (Runner.method3 n cb opened).1 := by
  unfold Steps Runner.method3
  cases opened <;> cases h4 : n.reopenClipboard <;> cases hh : cb.hdrop <;>
    cases h3 : n.getHdrop <;>
    simp [hh, h3, h4, IsClipboardFormatAvailable, GetClipboardHdrop, present, note,
      heldAfter, openWith]

theorem Steps_acquire (n : Native) (cb : Clipboard) :
    Steps true cb (Runner.acquire n cb).clipboardOpened (Runner.acquire n cb).cb := by
  unfold Runner.acquire
  have s1 := Steps_method1 n cb true
  rcases hm1 : Runner.method1 n cb with ⟨cb1, p1⟩
  rw [hm1] at s1
  cases p1 with
  | some b => exact s1
  | none =>
    dsimp only at s1 ⊢
    have s2 := Steps_method2 n cb1
    rcases hm2 : Runner.method2 n cb1 with ⟨cb2, p2, opened⟩
    rw [hm2] at s2
    cases p2 with
    | some b => exact Steps_trans s1 s2
    | none =>
      dsimp only at s2 ⊢
      have s3 := Steps_method3 n cb2 opened
      rcases hm3 : Runner.method3 n cb2 opened with ⟨cb3, p3, o3, dec⟩
      rw [hm3] at s3
      exact Steps_trans s1 (Steps_trans s2 s3)

theorem Steps_open (n : Native) (cb : Clipboard) (ho : n.openClipboard = true) :
    Steps false cb true (OpenClipboard n cb) := by
  unfold Steps
  simp [OpenClipboard, ho, note, heldAfter]

theorem Steps_close (cb : Clipboard) : Steps true cb false (CloseClipboard cb) := by
  unfold Steps
  simp [CloseClipboard, note, heldAfter]

theorem Released_of_Steps (cb cb2 : Clipboard) (h0 : cb.isOpen = false)
    (s : Steps false cb false cb2) : Released cb cb2 := by
  obtain ⟨cs, e, hh, ho⟩ := s
  exact ⟨cs, e, hh, ho h0⟩

theorem runner_clipboard (n : Native) (cb : Clipboard) (ho : n.openClipboard = true) :
    (Runner.HandlePasteImage n cb).1 =
      if (Runner.acquire n (OpenClipboard n cb)).clipboardOpened then
        CloseClipboard (Runner.acquire n (OpenClipboard n cb)).cb
      else (Runner.acquire n (OpenClipboard n cb)).cb := by
  unfold Runner.HandlePasteImage
  simp only [ho, Bool.not_true, Bool.false_eq_true, if_false]

theorem released_runnerPasteImage (n : Native) (cb : Clipboard) (h0 : cb.isOpen = false) :
    Released cb (Runner.HandlePasteImage n cb).1 := by
  cases ho : n.openClipboard with
  | false =>
    have e : (Runner.HandlePasteImage n cb).1 = OpenClipboard n cb := by
      simp [Runner.HandlePasteImage, ho]
    rw [e]
    exact Released_openFailed n cb ho h0
  | true =>
    rw [runner_clipboard n cb ho]
    have s := Steps_trans (Steps_open n cb ho) (Steps_acquire n (OpenClipboard n cb))
    cases hop : (Runner.acquire n (OpenClipboard n cb)).clipboardOpened with
    | false =>
      rw [hop] at s
      simp only [Bool.false_eq_true, if_false]
      exact Released_of_Steps _ _ h0 s
    | true =>
      rw [hop] at s
      simp only [if_true]
      exact Released_of_Steps _ _ h0 (Steps_trans s (Steps_close _))

/-- C20: every handler, entered with the clipboard not held and whatever the native calls
inside it answer, adds a sequence of clipboard calls in which each successful open is
followed by exactly one close, no close is made on a clipboard that is not held, and the
clipboard is closed at the end. The handlers whose pixel loops can leave their blocks are
covered for every run that returns. -/
theorem C20_release_exactly_once (n : Native) (arguments : Option EncodableMap)
    (cb : Clipboard) (h0 : cb.isOpen = false) :
    Released cb (HandleCopy n arguments cb).1 ∧
    Released cb (HandleCopyRichText n arguments cb).1 ∧
    (∀ cb2 r, HandleCopyMultiple n arguments cb = some (cb2, r) → Released cb cb2) ∧
    (∀ cb2 r, HandleCopyImage n arguments cb = some (cb2, r) → Released cb cb2) ∧
    Released cb (HandlePaste n cb).1 ∧
    Released cb (HandlePasteRichText n cb).1 ∧
    (∀ cb2 r, HandlePasteImage n cb = some (cb2, r) → Released cb cb2) ∧
    Released cb (Runner.HandlePasteImage n cb).1 ∧
    Released cb (HandleGetContentType n cb).1 ∧
    Released cb (HandleHasData n cb).1 ∧
    Released cb (HandleClear n cb).1 ∧
    Released cb (HandleGetDataSize n cb).1 :=
  ⟨released_copy n arguments cb h0, released_copyRichText n arguments cb h0,
   fun cb2 r h => released_copyMultiple n arguments cb cb2 r h0 h,
   fun cb2 r h => released_copyImage n arguments cb cb2 r h0 h,
   released_paste n cb h0, released_pasteRichText n cb h0,
   fun cb2 r h => released_pasteImage n cb cb2 r h0 h,
   released_runnerPasteImage n cb h0, released_getContentType n cb h0,
   released_hasData n cb h0, released_clear n cb h0, released_getDataSize n cb h0⟩

theorem C20_witness :
    textAndHtml.isOpen = false ∧
    Released textAndHtml (HandleCopy nativeOk (copyArgs [104, 105]) textAndHtml).1 ∧
    Released textAndHtml
      (CloseClipboard (IsClipboardFormatAvailable .dib (OpenClipboard nativeOk textAndHtml)).1) ∧
    Released textAndHtml (Runner.HandlePasteImage nativeOk textAndHtml).1 :=
  have h := C20_release_exactly_once nativeOk (copyArgs [104, 105]) textAndHtml rfl
  ⟨rfl, h.1, h.2.2.2.2.2.2.1 _ (.successImage none) rfl, h.2.2.2.2.2.2.2.1⟩

/-! ### Paste without an image (C19) -/

/-- With the clipboard open, `HandlePasteImage` of the plugin answers every run that
returns with a success result; the map is empty on every early exit. -/
theorem pasteImage_reply_success (n : Native) (cb cb2 : Clipboard) (r : Reply)
    (ho : n.openClipboard = true) (hrun : HandlePasteImage n cb = some (cb2, r)) :
    ∃ o, r = .successImage o := by
  unfold HandlePasteImage at hrun
  dsimp only at hrun
  simp only [ho, Bool.not_true, Bool.false_eq_true, if_false] at hrun
  repeat' split at hrun
  all_goals try (simp at hrun; done)
  all_goals
    simp only [Option.some.injEq, Prod.mk.injEq] at hrun
    exact ⟨_, hrun.2.symm⟩

theorem runner_noImage (n : Native) (cb : Clipboard) (ho : n.openClipboard = true)
    (hb : cb.bitmap = none) (hd : cb.dib = none) (hh : cb.hdrop = none) :
    Runner.HandlePasteImage n cb =
      (CloseClipboard (IsClipboardFormatAvailable .hdrop (IsClipboardFormatAvailable .dib
        (IsClipboardFormatAvailable .bitmap (OpenClipboard n cb)).1).1).1,
       .error "PASTE_IMAGE_ERROR" "No image found in clipboard. Copy an image (not a file) or try pasting after copying image data from a browser/app.") := by
  simp [Runner.HandlePasteImage, Runner.acquire, Runner.method1, Runner.method2, Runner.method3,
    Runner.reply, ho, hb, hd, hh, IsClipboardFormatAvailable, present, OpenClipboard, note]

/-- C19 (amended): on a clipboard that opens and holds no bitmap handle, no DIB and no file
list, the example runner's `pasteImage` replies with the error `PASTE_IMAGE_ERROR` and the
message `No image found ...`, while the plugin's `pasteImage` replies with a success result
whose map is empty; both return, and both leave the clipboard closed. -/
theorem C19_paste_without_image (n : Native) (cb : Clipboard) (ho : n.openClipboard = true)
    (hb : cb.bitmap = none) (hd : cb.dib = none) (hh : cb.hdrop = none) :
    (Runner.HandlePasteImage n cb).2 =
      .error "PASTE_IMAGE_ERROR" "No image found in clipboard. Copy an image (not a file) or try pasting after copying image data from a browser/app." ∧
    (Runner.HandlePasteImage n cb).1.isOpen = false ∧
    ∃ cb2, HandlePasteImage n cb = some (cb2, .successImage none) ∧ cb2.isOpen = false := by
  refine ⟨?_, ?_, ?_⟩
  · rw [runner_noImage n cb ho hb hd hh]
  · rw [runner_noImage n cb ho hb hd hh]
    rfl
  · refine ⟨CloseClipboard (IsClipboardFormatAvailable .dib (OpenClipboard n cb)).1, ?_, rfl⟩
    simp [HandlePasteImage, ho, hd, IsClipboardFormatAvailable, present, OpenClipboard, note]

theorem C19_witness :
    (Runner.HandlePasteImage nativeOk textAndHtml).2 =
      .error "PASTE_IMAGE_ERROR" "No image found in clipboard. Copy an image (not a file) or try pasting after copying image data from a browser/app." ∧
    (Runner.HandlePasteImage nativeOk textAndHtml).1.isOpen = false ∧
    ∃ cb2, HandlePasteImage nativeOk textAndHtml = some (cb2, .successImage none) ∧
      cb2.isOpen = false :=
  C19_paste_without_image nativeOk textAndHtml rfl rfl rfl rfl

/-- The plugin's `pasteImage` on a clipboard without any image answers with a success
result, not with an error. -/
theorem C19_counterexample :
    textAndHtml.bitmap = none ∧ textAndHtml.dib = none ∧ textAndHtml.hdrop = none ∧
    (HandlePasteImage nativeOk textAndHtml).map (fun p => p.2) = some (.successImage none) := by
  decide

/-! ### The example runner: candidates in order (C12, C13, C14, C15) -/

theorem sameContents_refl (cb : Clipboard) : sameContents cb cb := ⟨rfl, rfl, rfl, rfl, rfl⟩

theorem sameContents_trans {a b c : Clipboard} (h1 : sameContents a b) (h2 : sameContents b c) :
    sameContents a c :=
  ⟨h2.1.trans h1.1, h2.2.1.trans h1.2.1, h2.2.2.1.trans h1.2.2.1,
   h2.2.2.2.1.trans h1.2.2.2.1, h2.2.2.2.2.trans h1.2.2.2.2⟩

theorem handleCandidate_congr (n : Native) (cb cb2 : Clipboard) (h : sameContents cb cb2) :
    handleCandidate n cb2 = handleCandidate n cb := by
  unfold handleCandidate; rw [h.2.2.2.1]

theorem dibCloses_congr (n : Native) (cb cb2 : Clipboard) (h : sameContents cb cb2) :
    dibCloses n cb2 = dibCloses n cb := by
  unfold dibCloses; rw [h.2.1]

theorem dibCandidate_congr (n : Native) (cb cb2 : Clipboard) (h : sameContents cb cb2) :
    dibCandidate n cb2 = dibCandidate n cb := by
  unfold dibCandidate; rw [h.2.1]

theorem fileCandidate_congr (n : Native) (cb cb2 : Clipboard) (h : sameContents cb cb2) :
    fileCandidate n cb2 = fileCandidate n cb := by
  unfold fileCandidate; rw [h.2.2.2.2, dibCloses_congr n cb cb2 h]

/-- Method 1 yields the handle candidate, leaves the entries alone, and makes no call other
than the two on `CF_BITMAP`. -/
theorem method1_spec (n : Native) (cb : Clipboard) :
    (Runner.method1 n cb).2 = handleCandidate n cb ∧
    sameContents cb (Runner.method1 n cb).1 ∧
    ∃ cs, (Runner.method1 n cb).1.calls = cb.calls ++ cs ∧
      ∀ c ∈ cs, c = .isClipboardFormatAvailable .bitmap ∨ c = .getClipboardData .bitmap := by
  unfold Runner.method1 handleCandidate sameContents
  cases hb : cb.bitmap <;> cases h1 : n.getBitmap <;> cases h2 : n.createCompatibleDC <;>
    cases h3 : n.createCompatibleBitmap <;>
    simp [hb, h1, h2, h3, IsClipboardFormatAvailable, GetClipboardBitmap, present, note]

/-- Method 2 yields the DIB candidate, leaves the entries alone, asks for `CF_DIB`, keeps
the clipboard open unless the header passed the check, and records nothing other than the
two calls on `CF_DIB`, the close and the reads of the header that follow it. -/
theorem method2_spec (n : Native) (cb : Clipboard) :
    (Runner.method2 n cb).2.1 = dibCandidate n cb ∧
    (Runner.method2 n cb).2.2 = !dibCloses n cb ∧
    sameContents cb (Runner.method2 n cb).1 ∧
    ∃ cs, (Runner.method2 n cb).1.calls = cb.calls ++ cs ∧
      Call.isClipboardFormatAvailable .dib ∈ cs ∧
      (Call.closeClipboard ∈ cs ↔ dibCloses n cb = true) ∧
      ∀ c ∈ cs, c = .isClipboardFormatAvailable .dib ∨ c = .getClipboardData .dib ∨
        c = .closeClipboard ∨ c = .readBlock .dib := by
  unfold Runner.method2 dibCandidate dibCloses sameContents validHeader
  cases hd : cb.dib with
  | none => simp [hd, IsClipboardFormatAvailable, present, note]
  | some dib =>
    cases h1 : n.getDib <;> cases h2 : n.lockDib <;> cases h3 : n.createDibDC <;>
      cases h4 : n.createDIBSection <;>
      by_cases hv : 40 ≤ dib.biSize ∧ 0 < dib.biWidth ∧ dib.biHeight ≠ 0 <;>
      by_cases hb : dib.biBitCount ≤ 8 <;>
      simp [hd, h1, h2, h3, h4, hv, hb, IsClipboardFormatAvailable, GetClipboardDib, present,
        note, CloseClipboard, Runner.readHeader]

/-- The file loop yields the first path candidate in list order. -/
theorem fileLoop_fst (n : Native) (paths : List (List Nat)) :
    (Runner.fileLoop n paths).1 = paths.findSome? (pathCandidate n) := by
  induction paths with
  | nil => rfl
  | cons p rest ih =>
    unfold Runner.fileLoop
    by_cases hp : 0 < p.length
    · cases hf : n.fromFile p with
      | none => simp [hp, hf, pathCandidate, ih, List.findSome?]
      | some b =>
        cases hs : isSupported n p <;> simp [hp, hf, hs, pathCandidate, ih, List.findSome?]
    · simp [hp, pathCandidate, ih, List.findSome?]

/-- The paths the file loop hands to `Bitmap::FromFile` when the paths before `p` yield
nothing: `p` is among them whenever it is not empty, whatever its extension. -/
theorem fileLoop_decodes (n : Native) (pre : List (List Nat)) (p : List Nat)
    (rest : List (List Nat)) (hpre : ∀ q ∈ pre, pathCandidate n q = none)
    (hp : 0 < p.length) : p ∈ (Runner.fileLoop n (pre ++ p :: rest)).2 := by
  induction pre with
  | nil =>
    simp only [List.nil_append]
    unfold Runner.fileLoop
    cases hf : n.fromFile p with
    | none => simp [hp]
    | some b => cases hs : isSupported n p <;> simp [hp, hs]
  | cons q qs ih =>
    have hq := hpre q (List.mem_cons_self q qs)
    have ih2 := ih (fun x hx => hpre x (List.mem_cons_of_mem q hx))
    simp only [List.cons_append]
    unfold Runner.fileLoop
    by_cases hql : 0 < q.length
    · cases hf : n.fromFile q with
      | none => simp [hql, ih2]
      | some b =>
        cases hs : isSupported n q with
        | false => simp [hql, ih2]
        | true => simp [pathCandidate, hql, hs, hf] at hq
    · simp [hql, ih2]

/-- Method 3 reads the file list when the clipboard is held or opens again. -/
theorem method3_spec (n : Native) (cb : Clipboard) (opened : Bool) :
    (Runner.method3 n cb opened).2.1 =
      (match cb.hdrop with
       | some paths =>
         if (opened = true ∨ n.reopenClipboard = true) ∧ n.getHdrop = true then
           (Runner.fileLoop n paths).1
         else none
       | none => none) ∧
    (Runner.method3 n cb opened).2.2.2 =
      (match cb.hdrop with
       | some paths =>
         if (opened = true ∨ n.reopenClipboard = true) ∧ n.getHdrop = true then
           (Runner.fileLoop n paths).2
         else []
       | none => []) ∧
    sameContents cb (Runner.method3 n cb opened).1 ∧
    ∃ cs, (Runner.method3 n cb opened).1.calls = cb.calls ++ cs ∧
      (Call.openClipboard n.reopenClipboard ∈ cs ↔ opened = false) ∧
      (Call.isClipboardFormatAvailable .hdrop ∈ cs ↔
        (opened = true ∨ n.reopenClipboard = true)) ∧
      ∀ c ∈ cs, c = .openClipboard n.reopenClipboard ∨
        c = .isClipboardFormatAvailable .hdrop ∨ c = .getClipboardData .hdrop := by
  unfold Runner.method3 sameContents
  cases opened <;> cases h4 : n.reopenClipboard <;> cases hh : cb.hdrop <;>
    cases h3 : n.getHdrop <;>
    simp [hh, h3, h4, IsClipboardFormatAvailable, GetClipboardHdrop, present, note, openWith]

/-- The three methods together: the bitmap is the first candidate, the entries are left
alone, and the calls show which candidates were tried. -/
theorem acquire_spec (n : Native) (cb : Clipboard) :
    (Runner.acquire n cb).pBitmap = firstCandidate n cb ∧
    sameContents cb (Runner.acquire n cb).cb ∧
    (∃ cs, (Runner.acquire n cb).cb.calls = cb.calls ++ cs ∧
      (Call.isClipboardFormatAvailable .dib ∈ cs ↔ handleCandidate n cb = none) ∧
      (Call.getClipboardData .dib ∈ cs → handleCandidate n cb = none) ∧
      ((Call.openClipboard n.reopenClipboard ∈ cs ∨
          Call.isClipboardFormatAvailable .hdrop ∈ cs) ↔
        (handleCandidate n cb = none ∧ dibCandidate n cb = none)) ∧
      (Call.isClipboardFormatAvailable .hdrop ∈ cs ↔
        (handleCandidate n cb = none ∧ dibCandidate n cb = none ∧
          (dibCloses n cb = false ∨ n.reopenClipboard = true)))) ∧
    (Runner.acquire n cb).decoded =
      (match handleCandidate n cb, dibCandidate n cb, cb.hdrop with
       | none, none, some paths =>
         if (dibCloses n cb = false ∨ n.reopenClipboard = true) ∧ n.getHdrop = true then
           (Runner.fileLoop n paths).2
         else []
       | _, _, _ => []) := by
  unfold Runner.acquire
  obtain ⟨a1, b1, c1, e1, f1⟩ := method1_spec n cb
  rcases hm1 : Runner.method1 n cb with ⟨cb1, p1⟩
  rw [hm1] at a1 b1 e1
  dsimp only at a1 b1 e1 ⊢
  have nd1 : Call.isClipboardFormatAvailable .dib ∉ c1 := fun h => by
    rcases f1 _ h with h | h <;> simp at h
  have ng1 : Call.getClipboardData .dib ∉ c1 := fun h => by
    rcases f1 _ h with h | h <;> simp at h
  have no1 : Call.openClipboard n.reopenClipboard ∉ c1 := fun h => by
    rcases f1 _ h with h | h <;> simp at h
  have nh1 : Call.isClipboardFormatAvailable .hdrop ∉ c1 := fun h => by
    rcases f1 _ h with h | h <;> simp at h
  cases p1 with
  | some b =>
    dsimp only
    have hc : handleCandidate n cb = some b := a1.symm
    refine ⟨by simp [firstCandidate, hc], b1, ⟨c1, e1, ?_, ?_, ?_, ?_⟩, by simp [hc]⟩
    · simp [hc, nd1]
    · intro h; exact absurd h ng1
    · simp [hc, no1, nh1]
    · simp [hc, nh1]
  | none =>
    have hc : handleCandidate n cb = none := a1.symm
    dsimp only
    obtain ⟨a2, o2, b2, c2, e2, d2, k2, f2⟩ := method2_spec n cb1
    rcases hm2 : Runner.method2 n cb1 with ⟨cb2, p2, opened⟩
    rw [hm2] at a2 o2 b2 e2
    dsimp only at a2 o2 b2 e2 ⊢
    rw [dibCandidate_congr n cb cb1 b1] at a2
    rw [dibCloses_congr n cb cb1 b1] at o2 k2
    have no2 : Call.openClipboard n.reopenClipboard ∉ c2 := fun h => by
      rcases f2 _ h with h | h | h | h <;> simp at h
    have nh2 : Call.isClipboardFormatAvailable .hdrop ∉ c2 := fun h => by
      rcases f2 _ h with h | h | h | h <;> simp at h
    have b12 := sameContents_trans b1 b2
    cases p2 with
    | some b =>
      dsimp only
      have hd : dibCandidate n cb = some b := a2.symm
      refine ⟨by simp [firstCandidate, hc, hd], b12,
        ⟨c1 ++ c2, by rw [e2, e1, List.append_assoc], ?_, ?_, ?_, ?_⟩, by simp [hc, hd]⟩
      · simp [hc, d2]
      · intro _; trivial
      · simp [hc, hd, no1, nh1, no2, nh2]
      · simp [hc, hd, nh1, nh2]
    | none =>
      have hd : dibCandidate n cb = none := a2.symm
      dsimp only
      obtain ⟨a3, g3, b3, c3, e3, r3, h3, f3⟩ := method3_spec n cb2 opened
      rcases hm3 : Runner.method3 n cb2 opened with ⟨cb3, p3, o3, dec⟩
      rw [hm3] at a3 g3 b3 e3
      dsimp only at a3 g3 b3 e3 ⊢
      have hop : (opened = true ∨ n.reopenClipboard = true) ↔
          (dibCloses n cb = false ∨ n.reopenClipboard = true) := by
        rw [o2]; simp
      rw [b12.2.2.2.2] at a3 g3
      refine ⟨?_, sameContents_trans b12 b3,
        ⟨c1 ++ c2 ++ c3, by rw [e3, e2, e1, List.append_assoc, List.append_assoc,
          List.append_assoc], ?_, ?_, ?_, ?_⟩, ?_⟩
      · rw [a3]
        simp only [firstCandidate, hc, hd, fileCandidate]
        cases hh : cb.hdrop with
        | none => rfl
        | some paths =>
          simp only [hop, fileLoop_fst]
      · simp [hc, d2]
      · intro _; exact hc
      · simp only [hc, hd, and_self, iff_true, List.mem_append, no1, no2, nh1, nh2, false_or]
        cases opened with
        | false => exact Or.inl (r3.mpr rfl)
        | true => exact Or.inr (h3.mpr (Or.inl rfl))
      · simp only [hc, hd, true_and, List.mem_append, nh1, nh2, false_or]
        rw [h3, hop]
      · rw [g3]
        simp only [hc, hd]
        cases hh : cb.hdrop with
        | none => rfl
        | some paths => simp only [hop]

theorem sameContents_open (n : Native) (cb : Clipboard) : sameContents cb (OpenClipboard n cb) := by
  unfold sameContents OpenClipboard note
  cases n.openClipboard <;> simp

/-- The example runner's `pasteImage` with the clipboard open: the reply is made from the
first candidate, and the calls after the open show which candidates were tried. -/
theorem runner_spec (n : Native) (cb : Clipboard) (ho : n.openClipboard = true) :
    (Runner.HandlePasteImage n cb).2 = Runner.reply n (firstCandidate n cb) ∧
    sameContents cb (Runner.HandlePasteImage n cb).1 ∧
    ∃ cs, (Runner.HandlePasteImage n cb).1.calls = cb.calls ++ Call.openClipboard true :: cs ∧
      (Call.isClipboardFormatAvailable .dib ∈ cs ↔ handleCandidate n cb = none) ∧
      (Call.getClipboardData .dib ∈ cs → handleCandidate n cb = none) ∧
      ((Call.openClipboard n.reopenClipboard ∈ cs ∨
          Call.isClipboardFormatAvailable .hdrop ∈ cs) ↔
        (handleCandidate n cb = none ∧ dibCandidate n cb = none)) ∧
      (Call.isClipboardFormatAvailable .hdrop ∈ cs ↔
        (handleCandidate n cb = none ∧ dibCandidate n cb = none ∧
          (dibCloses n cb = false ∨ n.reopenClipboard = true))) := by
  have so := sameContents_open n cb
  obtain ⟨a, b, ⟨cs, e, c1, c2, c3, c4⟩, _⟩ := acquire_spec n (OpenClipboard n cb)
  rw [handleCandidate_congr n cb _ so] at c1 c2 c3 c4
  rw [dibCandidate_congr n cb _ so] at c3 c4
  rw [dibCloses_congr n cb _ so] at c4
  have hfc : firstCandidate n (OpenClipboard n cb) = firstCandidate n cb := by
    unfold firstCandidate
    rw [handleCandidate_congr n cb _ so, dibCandidate_congr n cb _ so,
      fileCandidate_congr n cb _ so]
  rw [hfc] at a
  have eo : (OpenClipboard n cb).calls = cb.calls ++ [Call.openClipboard true] := by
    simp [OpenClipboard, ho, note]
  have hcb := runner_clipboard n cb ho
  refine ⟨?_, ?_, ?_⟩
  · unfold Runner.HandlePasteImage
    simp only [ho, Bool.not_true, Bool.false_eq_true, if_false]
    rw [a]
  · rw [hcb]
    split_ifs
    · exact sameContents_trans (sameContents_trans so b) ⟨rfl, rfl, rfl, rfl, rfl⟩
    · exact sameContents_trans so b
  · rw [hcb]
    split_ifs
    · refine ⟨cs ++ [Call.closeClipboard], ?_, ?_, ?_, ?_, ?_⟩
      · simp [CloseClipboard, note, e, eo]
      · simp [c1]
      · simpa using c2
      · simpa using c3
      · simpa using c4
    · exact ⟨cs, by simp [e, eo], c1, c2, c3, c4⟩

/-- C12 (amended): whenever the bitmap handle yields a valid bitmap, the example runner's
`pasteImage` makes its reply from that bitmap and neither asks whether `CF_DIB` is
available nor fetches it, whatever else the clipboard holds. -/
theorem C12_handle_preferred (n : Native) (cb : Clipboard) (b : Bitmap)
    (ho : n.openClipboard = true) (hh : handleCandidate n cb = some b) :
    (Runner.HandlePasteImage n cb).2 = Runner.reply n (some b) ∧
    ∃ cs, (Runner.HandlePasteImage n cb).1.calls = cb.calls ++ cs ∧
      Call.isClipboardFormatAvailable .dib ∉ cs ∧ Call.getClipboardData .dib ∉ cs := by
  obtain ⟨r, _, cs, e, c1, c2, _, _⟩ := runner_spec n cb ho
  refine ⟨?_, Call.openClipboard true :: cs, e, ?_, ?_⟩
  · rw [r]; simp [firstCandidate, hh]
  · intro h
    rcases List.mem_cons.mp h with h | h
    · exact Call.noConfusion h
    · have := c1.mp h
      rw [hh] at this
      exact Option.noConfusion this
  · intro h
    rcases List.mem_cons.mp h with h | h
    · exact Call.noConfusion h
    · have := c2 h
      rw [hh] at this
      exact Option.noConfusion this

theorem C12_witness :
    (Runner.HandlePasteImage nativeOk handleAndDib).2 =
      Runner.reply nativeOk (some { width := 1, height := 1, stride := 4, scan0 := [1, 2, 3, 4] }) ∧
    ∃ cs, (Runner.HandlePasteImage nativeOk handleAndDib).1.calls = handleAndDib.calls ++ cs ∧
      Call.isClipboardFormatAvailable .dib ∉ cs ∧ Call.getClipboardData .dib ∉ cs :=
  C12_handle_preferred nativeOk handleAndDib _ rfl rfl

/-- With a bitmap handle and a DIB both on the clipboard, a handle that cannot be wrapped
makes `pasteImage` fetch the DIB and reply with the image made from it. -/
theorem C12_counterexample :
    present .bitmap handleAndDib = true ∧ present .dib handleAndDib = true ∧
    Call.getClipboardData .dib ∈ (Runner.HandlePasteImage nativeNoWrap handleAndDib).1.calls ∧
    (Runner.HandlePasteImage nativeNoWrap handleAndDib).2 = .successImage (some [9, 9, 9, 9]) := by
  decide

/-- C13: with the clipboard open, the example runner's `pasteImage` makes its reply from the
first candidate in the order handle, DIB, file list that yields a valid bitmap (a file list
that cannot be read because the clipboard does not open again yields none). The DIB is
asked for exactly when the handle yields no bitmap; the file list is turned to (the
clipboard opened again, or `CF_HDROP` asked for) exactly when neither the handle nor the DIB
yields one; a bitmap from the handle, or from the DIB after a failed handle, is the one
replied with. -/
theorem C13_first_candidate_wins (n : Native) (cb : Clipboard) (ho : n.openClipboard = true) :
    (Runner.HandlePasteImage n cb).2 = Runner.reply n (firstCandidate n cb) ∧
    (∀ b, handleCandidate n cb = some b →
      (Runner.HandlePasteImage n cb).2 = Runner.reply n (some b)) ∧
    (∀ b, handleCandidate n cb = none → dibCandidate n cb = some b →
      (Runner.HandlePasteImage n cb).2 = Runner.reply n (some b)) ∧
    (handleCandidate n cb = none → dibCandidate n cb = none →
      (Runner.HandlePasteImage n cb).2 = Runner.reply n (fileCandidate n cb)) ∧
    ∃ cs, (Runner.HandlePasteImage n cb).1.calls = cb.calls ++ Call.openClipboard true :: cs ∧
      (Call.isClipboardFormatAvailable .dib ∈ cs ↔ handleCandidate n cb = none) ∧
      ((Call.openClipboard n.reopenClipboard ∈ cs ∨
          Call.isClipboardFormatAvailable .hdrop ∈ cs) ↔
        (handleCandidate n cb = none ∧ dibCandidate n cb = none)) ∧
      (Call.isClipboardFormatAvailable .hdrop ∈ cs ↔
        (handleCandidate n cb = none ∧ dibCandidate n cb = none ∧
          (dibCloses n cb = false ∨ n.reopenClipboard = true))) := by
  obtain ⟨r, _, cs, e, c1, _, c3, c4⟩ := runner_spec n cb ho
  refine ⟨r, ?_, ?_, ?_, cs, e, c1, c3, c4⟩
  · intro b hb; rw [r]; simp [firstCandidate, hb]
  · intro b hh hb; rw [r]; simp [firstCandidate, hh, hb]
  · intro hh hb; rw [r]; simp [firstCandidate, hh, hb]

theorem C13_witness :
    (Runner.HandlePasteImage nativeOk fileList).2 = .successImage (some [65, 46, 80, 78]) ∧
    (Runner.HandlePasteImage nativeNoWrap handleAndDib).2 = .successImage (some [9, 9, 9, 9]) ∧
    (Runner.HandlePasteImage nativeOk handleAndDib).2 = .successImage (some [1, 2, 3, 4]) :=
  ⟨(C13_first_candidate_wins nativeOk fileList rfl).1.trans (by decide),
   (C13_first_candidate_wins nativeNoWrap handleAndDib rfl).2.2.1
      { width := 1, height := 1, stride := 4, scan0 := [9, 9, 9, 9] } (by decide) (by decide),
   (C13_first_candidate_wins nativeOk handleAndDib rfl).2.1
      { width := 1, height := 1, stride := 4, scan0 := [1, 2, 3, 4] } (by decide)⟩

theorem extension_of_dot (pre ext : List Nat) (h : 46 ∉ ext) :
    extension (pre ++ 46 :: ext) = ext := by
  unfold extension
  rw [List.reverse_append, List.reverse_cons, List.append_assoc]
  rw [List.takeWhile_append_of_pos]
  · simp [List.takeWhile]
  · intro c hc
    have hc2 : c ∈ ext := List.mem_reverse.mp hc
    simp only [bne_iff_ne, ne_eq]
    intro h2
    exact h (h2 ▸ hc2)

theorem extension_of_no_dot (path : List Nat) (h : 46 ∉ path) : extension path = path := by
  unfold extension
  have : path.reverse.takeWhile (fun c => c != 46) = path.reverse := by
    rw [List.takeWhile_eq_self_iff]
    intro c hc
    have hc2 : c ∈ path := List.mem_reverse.mp hc
    simp only [bne_iff_ne, ne_eq]
    intro h2
    exact h (h2 ▸ hc2)
  rw [this, List.reverse_reverse]

theorem fileLoop_supplier (n : Native) (paths : List (List Nat)) (b : Bitmap)
    (h : (Runner.fileLoop n paths).1 = some b) :
    ∃ p ∈ paths, n.fromFile p = some b ∧ isSupported n p = true := by
  rw [fileLoop_fst] at h
  obtain ⟨p, hp, hc⟩ := List.exists_of_findSome?_eq_some h
  refine ⟨p, hp, ?_⟩
  unfold pathCandidate at hc
  split_ifs at hc with hq
  exact ⟨hc, hq.2⟩

theorem fileLoop_skip (n : Native) (p : List Nat) (rest : List (List Nat))
    (h : isSupported n p = false) :
    (Runner.fileLoop n (p :: rest)).1 = (Runner.fileLoop n rest).1 := by
  rw [fileLoop_fst, fileLoop_fst]
  simp [List.findSome?, pathCandidate, h]

/-- C14: a path of the file list supplies the image of the example runner's `pasteImage`
only if its extension, lowered with `towlower`, is one of jpg, jpeg, png, bmp, gif, tiff,
tif, ico, webp; a path with another extension is passed over whatever the codec makes of the
file; two paths whose lowered extensions agree are treated alike. The extension is the text
after the last `.` (for a path without `.` the code compares the whole path). -/
theorem C14_extension_filter (n : Native) :
    (∀ paths b, (Runner.fileLoop n paths).1 = some b →
      ∃ p ∈ paths, n.fromFile p = some b ∧
        (extension p).map n.towlower ∈
          [ascii "jpg", ascii "jpeg", ascii "png", ascii "bmp", ascii "gif", ascii "tiff",
           ascii "tif", ascii "ico", ascii "webp"]) ∧
    (∀ p rest, (extension p).map n.towlower ∉
          [ascii "jpg", ascii "jpeg", ascii "png", ascii "bmp", ascii "gif", ascii "tiff",
           ascii "tif", ascii "ico", ascii "webp"] →
      (Runner.fileLoop n (p :: rest)).1 = (Runner.fileLoop n rest).1) ∧
    (∀ p q, (extension p).map n.towlower = (extension q).map n.towlower →
      isSupported n p = isSupported n q) ∧
    (∀ pre ext, 46 ∉ ext → extension (pre ++ 46 :: ext) = ext) ∧
    (∀ path, 46 ∉ path → extension path = path) := by
  refine ⟨?_, ?_, ?_, extension_of_dot, extension_of_no_dot⟩
  · intro paths b h
    obtain ⟨p, hp, hf, hs⟩ := fileLoop_supplier n paths b h
    refine ⟨p, hp, hf, ?_⟩
    unfold isSupported supportedExtensions at hs
    simpa using hs
  · intro p rest h
    apply fileLoop_skip
    unfold isSupported supportedExtensions
    simpa using h
  · intro p q h
    unfold isSupported
    rw [h]

theorem C14_witness :
    (Runner.fileLoop nativeOk [ascii "a.txt", ascii "A.PNG"]).1 =
      (Runner.fileLoop nativeOk [ascii "A.PNG"]).1 ∧
    isSupported nativeOk (ascii "A.PNG") = isSupported nativeOk (ascii "a.png") ∧
    extension (ascii "a.txt") = ascii "txt" ∧
    ∃ p ∈ [ascii "a.txt", ascii "A.PNG"],
      nativeOk.fromFile p = some { width := 1, height := 1, stride := 4, scan0 := [65, 46, 80, 78] } ∧
      (extension p).map nativeOk.towlower ∈
        [ascii "jpg", ascii "jpeg", ascii "png", ascii "bmp", ascii "gif", ascii "tiff",
         ascii "tif", ascii "ico", ascii "webp"] :=
  ⟨(C14_extension_filter nativeOk).2.1 (ascii "a.txt") [ascii "A.PNG"] (by decide),
   (C14_extension_filter nativeOk).2.2.1 (ascii "A.PNG") (ascii "a.png") (by decide),
   (C14_extension_filter nativeOk).2.2.2.1 [97] (ascii "txt") (by decide),
   (C14_extension_filter nativeOk).1 [ascii "a.txt", ascii "A.PNG"] _ (by decide)⟩

/-- C15 (amended): the example runner's `pasteImage` hands every non-empty path it reaches
in the file list to the codec, whatever its extension, and tests the extension only
afterwards: a path with an unsupported extension, reached because no earlier path
supplied the image, is among the paths decoded, and the loop then goes on to the next
path. -/
theorem C15_decode_before_extension_check (n : Native) (cb : Clipboard)
    (pre : List (List Nat)) (p : List Nat) (rest : List (List Nat))
    (hh : handleCandidate n cb = none) (hd : dibCandidate n cb = none)
    (hopen : dibCloses n cb = false ∨ n.reopenClipboard = true) (hg : n.getHdrop = true)
    (hl : cb.hdrop = some (pre ++ p :: rest))
    (hpre : ∀ q ∈ pre, pathCandidate n q = none)
    (hp : 0 < p.length) (hext : isSupported n p = false) :
    p ∈ (Runner.acquire n cb).decoded ∧
    (Runner.acquire n cb).pBitmap = (Runner.fileLoop n rest).1 := by
  obtain ⟨a, _, _, d⟩ := acquire_spec n cb
  constructor
  · rw [d, hh, hd, hl]
    simp only [hopen, hg, and_self, if_true]
    exact fileLoop_decodes n pre p rest hpre hp
  · rw [a]
    simp only [firstCandidate, hh, hd, fileCandidate, hl, hopen, hg, and_self, if_true]
    rw [List.findSome?_append]
    have h1 : List.findSome? (pathCandidate n) pre = none := by
      rw [List.findSome?_eq_none_iff]
      exact hpre
    rw [h1, fileLoop_fst]
    simp [List.findSome?, pathCandidate, hext]

theorem C15_witness :
    ascii "a.txt" ∈ (Runner.acquire nativeOk fileList).decoded ∧
    (Runner.acquire nativeOk fileList).pBitmap = (Runner.fileLoop nativeOk [ascii "A.PNG"]).1 :=
  C15_decode_before_extension_check nativeOk fileList [] (ascii "a.txt") [ascii "A.PNG"]
    rfl rfl (Or.inl rfl) rfl rfl (by simp) (by decide) (by decide)

/-- The path `a.txt`, whose extension is not a supported one, is handed to the codec. -/
theorem C15_counterexample :
    isSupported nativeOk (ascii "a.txt") = false ∧
    fileList.hdrop = some [ascii "a.txt", ascii "A.PNG"] ∧
    ascii "a.txt" ∈ (Runner.acquire nativeOk (OpenClipboard nativeOk fileList)).decoded := by
  decide

/-! ### Bit depths and dimensions on paste (C16, C17) -/

/-- The pixel loop on a bit depth other than 32 and 24 with at least one row: the first
iteration takes the `else` branch, which returns from the handler. -/
theorem pasteLoop_otherDepth (dib : Dib) (destStride : Int) (pDest : List Nat) (h : Nat)
    (h32 : dib.biBitCount ≠ 32) (h24 : dib.biBitCount ≠ 24)
    (hh : iabs dib.biHeight = (h : Int)) (h1 : 1 ≤ h) :
    ∃ s, pasteLoop dib destStride pDest = some s ∧ s.returned = true := by
  unfold pasteLoop
  dsimp only
  rw [hh]
  obtain ⟨s, e, p⟩ := forInt_inv (fun k (s : RowLoop) => 1 ≤ k → s.returned = true) h
    (pasteRow dib.bits dib.biBitCount dib.biWidth destStride
      (if decide (dib.biHeight < 0) = true then rowSize dib.biWidth dib.biBitCount
       else isub 0 (rowSize dib.biWidth dib.biBitCount)))
    { pDest := pDest,
      pSource := if decide (dib.biHeight < 0) = true then pBitsOffset dib.biBitCount
        else pBitsOffset dib.biBitCount +
          imul (rowSize dib.biWidth dib.biBitCount) (isub (h : Int) 1),
      returned := false }
    (fun hk => absurd hk (by decide))
    (by
      intro i s _ _
      unfold pasteRow
      by_cases hr : s.returned = true
      · exact ⟨s, by simp [hr], fun _ => hr⟩
      · refine ⟨{ s with returned := true }, ?_, fun _ => rfl⟩
        simp [hr, h32, h24])
  exact ⟨s, e, p h1⟩

theorem pasteImage_otherDepth (n : Native) (cb : Clipboard) (dib : Dib) (h : Nat)
    (ho : n.openClipboard = true) (hd : cb.dib = some dib)
    (h32 : dib.biBitCount ≠ 32) (h24 : dib.biBitCount ≠ 24)
    (hh : iabs dib.biHeight = (h : Int)) (h1 : 1 ≤ h) :
    ∃ cb2 o, HandlePasteImage n cb = some (cb2, .successImage o) ∧
      (n.lockBits = true → o = none) := by
  unfold HandlePasteImage
  simp only [ho, Bool.not_true, Bool.false_eq_true, if_false, IsClipboardFormatAvailable,
    present, OpenClipboard, note, if_true, hd, Option.isSome_some, GetClipboardDib]
  cases hg : n.getDib
  · simp only [Bool.false_eq_true, if_false]
    exact ⟨_, none, rfl, fun _ => rfl⟩
  · simp only [if_true]
    cases hl : n.lockDib
    · simp only [Bool.not_false, if_true]
      exact ⟨_, none, rfl, fun _ => rfl⟩
    · simp only [Bool.not_true, Bool.false_eq_true, if_false]
      cases hnb : n.newBitmap dib.biWidth (iabs dib.biHeight) with
      | none => exact ⟨_, none, rfl, fun _ => rfl⟩
      | some bmp =>
        dsimp only
        cases hlb : n.lockBits
        · simp only [Bool.false_eq_true, if_false]
          cases hc : n.createOutStream
          · simp only [Bool.not_false, if_true]
            exact ⟨_, none, rfl, fun hx => rfl⟩
          · simp only [Bool.not_true, Bool.false_eq_true, if_false]
            exact ⟨_, _, rfl, fun hx => hx.elim⟩
        · simp only [if_true]
          obtain ⟨s, e, r⟩ := pasteLoop_otherDepth dib bmp.stride bmp.scan0 h h32 h24 hh h1
          rw [e]
          simp only [r, if_true]
          exact ⟨_, none, rfl, fun _ => rfl⟩

/-- C16 (amended): for a DIB with 1, 4 or 8 bits per pixel and at least one row, the
plugin's `pasteImage` returns a success result, and with the destination bitmap locked the
result is the empty map: no image and no error. The example runner's `pasteImage` makes no
test of the bit depth: a DIB that passes the header check and converts through the DIB
section supplies the image. -/
theorem C16_palette_depths (n : Native) (cb : Clipboard) (dib : Dib) (h : Nat)
    (ho : n.openClipboard = true) (hd : cb.dib = some dib)
    (hb : dib.biBitCount = 1 ∨ dib.biBitCount = 4 ∨ dib.biBitCount = 8)
    (hh : iabs dib.biHeight = (h : Int)) (h1 : 1 ≤ h) :
    (∃ cb2 o, HandlePasteImage n cb = some (cb2, .successImage o) ∧
      (n.lockBits = true → o = none)) ∧
    (∀ b, handleCandidate n cb = none → dibCandidate n cb = some b →
      (Runner.HandlePasteImage n cb).2 = Runner.reply n (some b)) := by
  have h32 : dib.biBitCount ≠ 32 := by rcases hb with e | e | e <;> rw [e] <;> decide
  have h24 : dib.biBitCount ≠ 24 := by rcases hb with e | e | e <;> rw [e] <;> decide
  refine ⟨pasteImage_otherDepth n cb dib h ho hd h32 h24 hh h1, ?_⟩
  intro b hh2 hd2
  rw [(runner_spec n cb ho).1]
  simp [firstCandidate, hh2, hd2]

theorem C16_witness :
    (∃ cb2 o, HandlePasteImage nativeOk paletteDib = some (cb2, .successImage o) ∧
      (nativeOk.lockBits = true → o = none)) ∧
    (∀ b, handleCandidate nativeOk paletteDib = none →
      dibCandidate nativeOk paletteDib = some b →
      (Runner.HandlePasteImage nativeOk paletteDib).2 = Runner.reply nativeOk (some b)) :=
  C16_palette_depths nativeOk paletteDib
    { biSize := 40, biWidth := 1, biHeight := 1, biPlanes := 1, biBitCount := 1,
      biCompression := 0, bits := [0, 0, 0, 0, 255, 255, 255, 0, 128, 0, 0, 0] } 1
    rfl rfl (Or.inl rfl) (by decide) (by decide)

/-- A DIB of one pixel with 1 bit per pixel: the plugin's `pasteImage` returns a success
result with an empty map, and the example runner's returns an image. -/
theorem C16_counterexample :
    (HandlePasteImage nativeOk paletteDib).map (fun p => p.2) = some (.successImage none) ∧
    (Runner.HandlePasteImage nativeOk paletteDib).2 =
      .successImage (some [0, 0, 0, 0, 255, 255, 255, 0, 128, 0, 0, 0]) := by
  decide

theorem pasteImage_zeroHeight (n : Native) (cb : Clipboard) (dib : Dib)
    (ho : n.openClipboard = true) (hd : cb.dib = some dib) (hz : dib.biHeight = 0) :
    ∃ cb2 o, HandlePasteImage n cb = some (cb2, .successImage o) := by
  have e : ∀ (s : Int) (d : List Nat), ∃ r, pasteLoop dib s d = some r ∧ r.returned = false := by
    intro s d
    unfold pasteLoop
    dsimp only
    rw [hz]
    exact ⟨_, rfl, rfl⟩
  unfold HandlePasteImage
  simp only [ho, Bool.not_true, Bool.false_eq_true, if_false, IsClipboardFormatAvailable,
    present, OpenClipboard, note, if_true, hd, Option.isSome_some, GetClipboardDib]
  cases hg : n.getDib
  · simp only [Bool.false_eq_true, if_false]
    exact ⟨_, none, rfl⟩
  · simp only [if_true]
    cases hl : n.lockDib
    · simp only [Bool.not_false, if_true]
      exact ⟨_, none, rfl⟩
    · simp only [Bool.not_true, Bool.false_eq_true, if_false]
      cases hnb : n.newBitmap dib.biWidth (iabs dib.biHeight) with
      | none => exact ⟨_, none, rfl⟩
      | some bmp =>
        dsimp only
        cases hlb : n.lockBits
        · simp only [Bool.false_eq_true, if_false]
          cases hc : n.createOutStream
          · simp only [Bool.not_false, if_true]
            exact ⟨_, none, rfl⟩
          · simp only [Bool.not_true, Bool.false_eq_true, if_false]
            exact ⟨_, _, rfl⟩
        · simp only [if_true]
          obtain ⟨s, e1, r⟩ := e bmp.stride bmp.scan0
          rw [e1]
          simp only [r, Bool.false_eq_true, if_false]
          cases hc : n.createOutStream
          · simp only [Bool.not_false, if_true]
            exact ⟨_, none, rfl⟩
          · simp only [Bool.not_true, Bool.false_eq_true, if_false]
            exact ⟨_, _, rfl⟩

/-- C17 (amended): a DIB whose header has height 0 or a width that is not positive is passed
over by the example runner's `pasteImage` without being converted and without the
clipboard being closed; the reply is then made from the handle or the file list, and is the
error `PASTE_IMAGE_ERROR` with `No image found ...` only when those yield nothing. The
plugin's `pasteImage` makes no check of the header: whenever it returns it returns a
success result, and for height 0 it does return. -/
theorem C17_dimension_check (n : Native) (cb : Clipboard) (dib : Dib)
    (ho : n.openClipboard = true) (hd : cb.dib = some dib)
    (hbad : dib.biHeight = 0 ∨ dib.biWidth ≤ 0) :
    dibCandidate n cb = none ∧ dibCloses n cb = false ∧
    (Runner.HandlePasteImage n cb).2 =
      Runner.reply n (match handleCandidate n cb with
        | some b => some b
        | none => fileCandidate n cb) ∧
    (handleCandidate n cb = none → fileCandidate n cb = none →
      (Runner.HandlePasteImage n cb).2 =
        .error "PASTE_IMAGE_ERROR" "No image found in clipboard. Copy an image (not a file) or try pasting after copying image data from a browser/app.") ∧
    (∀ cb2 r, HandlePasteImage n cb = some (cb2, r) → ∃ o, r = .successImage o) ∧
    (dib.biHeight = 0 → ∃ cb2 o, HandlePasteImage n cb = some (cb2, .successImage o)) := by
  have hv : validHeader dib = false := by
    unfold validHeader
    rcases hbad with e | e
    · simp [e]
    · have : ¬ (0 < dib.biWidth) := not_lt.mpr e
      simp [this]
  have hc : dibCandidate n cb = none := by simp [dibCandidate, hd, hv]
  have hr := (runner_spec n cb ho).1
  refine ⟨hc, by simp [dibCloses, hd, hv], ?_, ?_, ?_, ?_⟩
  · rw [hr]
    unfold firstCandidate
    cases handleCandidate n cb with
    | some b => rfl
    | none => simp only [hc]
  · intro h1 h2
    rw [hr]
    simp [firstCandidate, hc, h1, h2, Runner.reply]
  · intro cb2 r hrun
    exact pasteImage_reply_success n cb cb2 r ho hrun
  · intro hz
    exact pasteImage_zeroHeight n cb dib ho hd hz

theorem C17_witness :
    dibCandidate nativeGdi zeroHeightDib = none ∧ dibCloses nativeGdi zeroHeightDib = false ∧
    (Runner.HandlePasteImage nativeGdi zeroHeightDib).2 =
      Runner.reply nativeGdi (fileCandidate nativeGdi zeroHeightDib) ∧
    ∃ cb2 o, HandlePasteImage nativeGdi zeroHeightDib = some (cb2, .successImage o) :=
  have h := C17_dimension_check nativeGdi zeroHeightDib
    { biSize := 40, biWidth := 1, biHeight := 0, biPlanes := 1, biBitCount := 32,
      biCompression := 0, bits := [] } rfl rfl (Or.inl rfl)
  ⟨h.1, h.2.1, h.2.2.1, h.2.2.2.2.2 rfl⟩

/-- A DIB whose header has height 0, next to the file list `A.PNG`: the plugin's
`pasteImage` returns a success result with an empty map, and the example runner's returns
the image of the file. -/
theorem C17_counterexample :
    (HandlePasteImage nativeGdi zeroHeightDib).map (fun p => p.2) = some (.successImage none) ∧
    (Runner.HandlePasteImage nativeGdi zeroHeightDib).2 =
      .successImage (some [65, 46, 80, 78]) := by
  decide

/-! ### Bundles (C11, C22, C23, C30) -/

/-- The copy loop on a bitmap in range: it returns, the block has `w * 4 * h` bytes, and DIB
row `y` holds the first `w * 4` bytes of source row `y`. -/
theorem copyLoop_inRange (heap : Nat → List Nat) (bmp : Bitmap) (w h : Nat)
    (hwf : bmp.inRange w h) :
    ∃ (bits : List Nat) (sS : Nat), bmp.stride = (sS : Int) ∧
      copyLoop bmp.scan0 bmp.stride (rowSize bmp.width 32) bmp.width bmp.height
        (freshBlock heap (toDWORD (imul (rowSize bmp.width 32) bmp.height))) = some bits ∧
      bits.length = w * 4 * h ∧
      (∀ y i, y < h → i < w * 4 → bits[y * (w * 4) + i]? = bmp.scan0[y * sS + i]?) ∧
      isub 0 bmp.height = -(h : Int) := by
  obtain ⟨e1, e2, hh31, sS, e3, hsS, hP, hPr, hr⟩ := hwf
  have hle : h * (w * 4) ≤ h * sS := Nat.mul_le_mul_left h hsS
  have hsz : w * 4 * h < 2147483648 := by rw [Nat.mul_comm (w * 4) h]; omega
  have hsz2 : w * 4 * h < 4294967296 := by omega
  have hlen : (freshBlock heap (w * 4 * h)).length = h * (w * 4) := by
    rw [freshBlock_length, Nat.mul_comm]
  obtain ⟨bits, c1, c2, c3, _⟩ := copyLoop_spec bmp.scan0 (freshBlock heap (w * 4 * h)) sS
    (w * 4) w h hsS (Nat.le_refl _) hP (by omega) (by omega) (by omega)
  refine ⟨bits, sS, e3, ?_, ?_, c3, ?_⟩
  · rw [e1, e2, e3, rowSize_32_nat w hr, imul_nat (w * 4) h hsz, toDWORD_nat _ hsz2]
    exact c1
  · rw [c2, hlen, Nat.mul_comm]
  · rw [e2]
    exact isub_zero_nat h hh31

/-- Helper `SetClipboardImage` on a PNG that decodes to a bitmap in range, every native call
on the way succeeding: a 32-bit top-down DIB of `w * 4 * h` bytes is handed to
`SetClipboardData`. -/
theorem SetClipboardImage_built (n : Native) (png : List Nat) (cb : Clipboard) (bmp : Bitmap)
    (w h : Nat) (hne : png.isEmpty = false) (h1 : n.allocPng = true) (h2 : n.lockPng = true)
    (h3 : n.createStream = true) (h4 : n.allocDib = true) (h5 : n.lockDib = true)
    (h6 : n.lockBits = true) (hdec : n.fromStream png = some bmp) (hwf : bmp.inRange w h) :
    ∃ (bits : List Nat) (sS : Nat), bmp.stride = (sS : Int) ∧ bits.length = w * 4 * h ∧
      (∀ y i, y < h → i < w * 4 → bits[y * (w * 4) + i]? = bmp.scan0[y * sS + i]?) ∧
      SetClipboardImage n png cb =
        some (SetClipboardData n.setDib
          (.dib { biSize := 40, biWidth := (w : Int), biHeight := -(h : Int), biPlanes := 1,
                  biBitCount := 32, biCompression := 0, bits := bits }) cb, n.setDib) := by
  obtain ⟨bits, sS, e3, c1, c2, c3, c4⟩ := copyLoop_inRange n.heap bmp w h hwf
  refine ⟨bits, sS, e3, c2, c3, ?_⟩
  unfold SetClipboardImage
  simp only [hne, h1, h2, h3, h4, h5, h6, hdec, Bool.not_true, Bool.false_eq_true, if_false,
    if_true, c1, c4]
  rw [hwf.1]

/-- Helper `SetClipboardImage` returns whenever the decoder yields bitmaps in range. -/
theorem SetClipboardImage_returns (n : Native) (png : List Nat) (cb : Clipboard)
    (hwf : ∀ bmp, n.fromStream png = some bmp → ∃ w h, bmp.inRange w h) :
    ∃ cb2 ok, SetClipboardImage n png cb = some (cb2, ok) := by
  unfold SetClipboardImage
  split_ifs
  all_goals try exact ⟨_, _, rfl⟩
  all_goals split
  all_goals try exact ⟨_, _, rfl⟩
  all_goals dsimp only
  all_goals rename_i bmp hdec
  all_goals obtain ⟨w, h, hw⟩ := hwf bmp hdec
  all_goals obtain ⟨bits, sS, e3, c1, c2, c3, c4⟩ := copyLoop_inRange n.heap bmp w h hw
  all_goals rw [c1]
  all_goals exact ⟨_, _, rfl⟩

/-- Method `copyMultiple` on a non-empty format map with the clipboard open: the three
blocks in the order image, text, HTML between `EmptyClipboard` and `CloseClipboard`, and
the reply `true`. -/
theorem copyMultiple_open (n : Native) (args fm : EncodableMap) (cb : Clipboard)
    (hf : find args "formats" = some (.map fm))
    (hne : fm.isEmpty = false) (ho : n.openClipboard = true) :
    HandleCopyMultiple n (some args) cb =
      (bundleImage n fm (EmptyClipboard (OpenClipboard n cb))).map
        (fun c => (CloseClipboard (bundleHtml n fm (bundleText n fm c)), Reply.successBool true)) := by
  simp only [HandleCopyMultiple, hf, hne, Bool.false_eq_true, if_false, ho, if_true]
  have key : ∀ (g : Clipboard → Clipboard × Reply) (o : Option Clipboard),
      o.map g = (match o with | none => none | some c => some (g c)) := by
    intro g o; cases o <;> rfl
  rw [key]
  rfl

/-- The ways `copyMultiple` can go: an error before the clipboard is touched, a failed
open, or the three blocks. -/
theorem copyMultiple_cases (n : Native) (arguments : Option EncodableMap) (cb : Clipboard) :
    (∃ code msg, HandleCopyMultiple n arguments cb = some (cb, .error code msg)) ∨
    (n.openClipboard = false ∧ HandleCopyMultiple n arguments cb =
      some (OpenClipboard n cb, .error "COPY_MULTIPLE_ERROR" "Failed to open clipboard")) ∨
    (∃ args fm, arguments = some args ∧ find args "formats" = some (.map fm) ∧
      fm.isEmpty = false ∧ n.openClipboard = true) := by
  unfold HandleCopyMultiple
  split
  · exact Or.inl ⟨_, _, rfl⟩
  · split
    · rename_i args _ fm hf
      split_ifs with h1 h2
      · exact Or.inl ⟨_, _, rfl⟩
      · exact Or.inr (Or.inr ⟨args, fm, rfl, hf, by simpa using h1, h2⟩)
      · exact Or.inr (Or.inl ⟨by simpa using h2, rfl⟩)
    · exact Or.inl ⟨_, _, rfl⟩

/-- Helper `SetClipboardImage` either leaves the clipboard as it is or makes one
`SetClipboardData(CF_DIB, ...)` call, and reports that call's outcome. -/
theorem SetClipboardImage_cases (n : Native) (png : List Nat) (cb cb2 : Clipboard) (ok : Bool)
    (hset : SetClipboardImage n png cb = some (cb2, ok)) :
    (cb2 = cb ∧ ok = false) ∨
      ∃ d, cb2 = SetClipboardData n.setDib (.dib d) cb ∧ ok = n.setDib := by
  unfold SetClipboardImage at hset
  split_ifs at hset
  all_goals try (simp only [Option.some.injEq, Prod.mk.injEq] at hset; exact Or.inl ⟨hset.1.symm, hset.2.symm⟩)
  all_goals split at hset
  all_goals try (simp only [Option.some.injEq, Prod.mk.injEq] at hset; exact Or.inl ⟨hset.1.symm, hset.2.symm⟩)
  all_goals dsimp only at hset
  all_goals split at hset
  all_goals try (simp at hset; done)
  all_goals
    simp only [Option.some.injEq, Prod.mk.injEq] at hset
    exact Or.inr ⟨_, hset.1.symm, hset.2.symm⟩

theorem bundleImage_cases (n : Native) (fm : EncodableMap) (cb c : Clipboard)
    (h : bundleImage n fm cb = some c) :
    c = cb ∨ ∃ d, c = SetClipboardData n.setDib (.dib d) cb := by
  unfold bundleImage at h
  split at h
  · dsimp only at h
    split_ifs at h
    · simp only [Option.map_eq_some', Prod.exists, exists_and_right, exists_eq_right] at h
      obtain ⟨ok, hset⟩ := h
      rcases SetClipboardImage_cases n _ cb c ok hset with ⟨e, _⟩ | ⟨d, e, _⟩
      · exact Or.inl e
      · exact Or.inr ⟨d, e⟩
    · exact Or.inl (Option.some.inj h).symm
    · exact Or.inl (Option.some.inj h).symm
  · exact Or.inl (Option.some.inj h).symm

theorem bundleText_cases (n : Native) (fm : EncodableMap) (cb : Clipboard) :
    bundleText n fm cb = cb ∨ ∃ u, bundleText n fm cb = SetClipboardData n.setText (.text u) cb := by
  unfold bundleText
  split
  · split_ifs
    · unfold putUnicodeText
      dsimp only
      split_ifs
      · exact Or.inr ⟨_, rfl⟩
      · exact Or.inl rfl
    · exact Or.inl rfl
  · exact Or.inl rfl

theorem bundleHtml_cases (n : Native) (fm : EncodableMap) (cb : Clipboard) :
    bundleHtml n fm cb = cb ∨ ∃ u, bundleHtml n fm cb = SetClipboardData n.setHtml (.html u) cb := by
  unfold bundleHtml
  split
  · split_ifs
    · unfold putHtmlFormat
      dsimp only
      split_ifs
      · exact Or.inr ⟨_, rfl⟩
      · exact Or.inl rfl
      · exact Or.inl rfl
    · exact Or.inl rfl
  · exact Or.inl rfl

/-- The calls `copyMultiple` adds when it reaches its three blocks: open, empty, at most one
write for each of image, text and HTML in that order, close. -/
theorem copyMultiple_calls (n : Native) (args fm : EncodableMap) (cb cb2 : Clipboard) (r : Reply)
    (hf : find args "formats" = some (.map fm))
    (hne : fm.isEmpty = false) (ho : n.openClipboard = true)
    (hrun : HandleCopyMultiple n (some args) cb = some (cb2, r)) :
    ∃ ci ct ch, cb2.calls = cb.calls ++
        ([Call.openClipboard true, Call.emptyClipboard] ++ ci ++ ct ++ ch ++ [Call.closeClipboard]) ∧
      (ci = [] ∨ ci = [Call.setClipboardData .dib n.setDib]) ∧
      (ct = [] ∨ ct = [Call.setClipboardData .unicodeText n.setText]) ∧
      (ch = [] ∨ ch = [Call.setClipboardData .html n.setHtml]) ∧
      r = .successBool true := by
  rw [copyMultiple_open n args fm cb hf hne ho] at hrun
  simp only [Option.map_eq_some', Prod.mk.injEq] at hrun
  obtain ⟨c, hc, hcb, hr⟩ := hrun
  have e0 : (EmptyClipboard (OpenClipboard n cb)).calls =
      cb.calls ++ [Call.openClipboard true, Call.emptyClipboard] := by
    simp [EmptyClipboard, OpenClipboard, ho, note]
  have e1 : ∃ ci, c.calls = (EmptyClipboard (OpenClipboard n cb)).calls ++ ci ∧
      (ci = [] ∨ ci = [Call.setClipboardData .dib n.setDib]) := by
    rcases bundleImage_cases n fm _ c hc with e | ⟨d, e⟩
    · exact ⟨[], by rw [e]; simp, Or.inl rfl⟩
    · refine ⟨[Call.setClipboardData .dib n.setDib], ?_, Or.inr rfl⟩
      rw [e]; cases n.setDib <;> simp [SetClipboardData, note, Data.fmt]
  have e2 : ∃ ct, (bundleText n fm c).calls = c.calls ++ ct ∧
      (ct = [] ∨ ct = [Call.setClipboardData .unicodeText n.setText]) := by
    rcases bundleText_cases n fm c with e | ⟨d, e⟩
    · exact ⟨[], by rw [e]; simp, Or.inl rfl⟩
    · refine ⟨[Call.setClipboardData .unicodeText n.setText], ?_, Or.inr rfl⟩
      rw [e]; cases n.setText <;> simp [SetClipboardData, note, Data.fmt]
  have e3 : ∃ ch, (bundleHtml n fm (bundleText n fm c)).calls = (bundleText n fm c).calls ++ ch ∧
      (ch = [] ∨ ch = [Call.setClipboardData .html n.setHtml]) := by
    rcases bundleHtml_cases n fm (bundleText n fm c) with e | ⟨d, e⟩
    · exact ⟨[], by rw [e]; simp, Or.inl rfl⟩
    · refine ⟨[Call.setClipboardData .html n.setHtml], ?_, Or.inr rfl⟩
      rw [e]; cases n.setHtml <;> simp [SetClipboardData, note, Data.fmt]
  obtain ⟨ci, hi, di⟩ := e1
  obtain ⟨ct, ht, dt⟩ := e2
  obtain ⟨ch, hh, dh⟩ := e3
  refine ⟨ci, ct, ch, ?_, di, dt, dh, hr.symm⟩
  rw [← hcb]
  show (bundleHtml n fm (bundleText n fm c)).calls ++ [Call.closeClipboard] = _
  rw [hh, ht, hi, e0]
  simp only [List.append_assoc]

/-- C22: whatever the bundle holds, the formats `copyMultiple` hands to `SetClipboardData`
come in the order image, text, HTML: the formats written are a subsequence of
`[CF_DIB, CF_UNICODETEXT, HTML Format]`. -/
theorem C22_bundle_write_order (n : Native) (arguments : Option EncodableMap)
    (cb cb2 : Clipboard) (r : Reply)
    (hrun : HandleCopyMultiple n arguments cb = some (cb2, r)) :
    ∃ cs, cb2.calls = cb.calls ++ cs ∧
      (writes cs).Sublist [Fmt.dib, Fmt.unicodeText, Fmt.html] := by
  rcases copyMultiple_cases n arguments cb with ⟨code, msg, e⟩ | ⟨hof, e⟩ | ⟨args, fm, ea, hf, hne, ho⟩
  · rw [e] at hrun
    simp only [Option.some.injEq, Prod.mk.injEq] at hrun
    exact ⟨[], by rw [← hrun.1]; simp, by simp [writes]⟩
  · rw [e] at hrun
    simp only [Option.some.injEq, Prod.mk.injEq] at hrun
    refine ⟨[Call.openClipboard false], ?_, by simp [writes]⟩
    rw [← hrun.1]
    simp [OpenClipboard, note, hof]
  · subst ea
    obtain ⟨ci, ct, ch, e, di, dt, dh, _⟩ := copyMultiple_calls n args fm cb cb2 r hf hne ho hrun
    refine ⟨_, e, ?_⟩
    rcases di with rfl | rfl <;> rcases dt with rfl | rfl <;> rcases dh with rfl | rfl <;>
      simp [writes]

theorem C22_witness :
    ∃ cs, (CloseClipboard (bundleHtml nativeOk htmlFirstBundle (bundleText nativeOk
        htmlFirstBundle (EmptyClipboard (OpenClipboard nativeOk textAndHtml))))).calls =
        textAndHtml.calls ++ cs ∧
      (writes cs).Sublist [Fmt.dib, Fmt.unicodeText, Fmt.html] :=
  C22_bundle_write_order nativeOk (bundleArgs htmlFirstBundle) textAndHtml _ (.successBool true)
    (copyMultiple_open nativeOk _ htmlFirstBundle textAndHtml (find_bundleArgs _) rfl rfl)

theorem bundleImage_skip (n : Native) (fm : EncodableMap) (cb : Clipboard)
    (hi : ∀ l, find fm "image/png" = some (.list l) → toBytes l = []) :
    bundleImage n fm cb = some cb := by
  unfold bundleImage
  split
  · rename_i l hl
    dsimp only
    rw [hi l hl]
    simp
  · rfl

theorem bundleText_skip (n : Native) (fm : EncodableMap) (cb : Clipboard)
    (ht : ∀ t, find fm "text/plain" = some (.str t) → t = []) :
    bundleText n fm cb = cb := by
  unfold bundleText
  split
  · rename_i t hl
    rw [ht t hl]
    simp
  · rfl

theorem bundleHtml_skip (n : Native) (fm : EncodableMap) (cb : Clipboard)
    (hh : ∀ h, find fm "text/html" = some (.str h) → h = []) :
    bundleHtml n fm cb = cb := by
  unfold bundleHtml
  split
  · rename_i t hl
    rw [hh t hl]
    simp
  · rfl

/-- C30: a non-empty format map in which `image/png` holds no list with an integer element,
`text/plain` no non-empty string and `text/html` no non-empty string: with the clipboard
open, `copyMultiple` makes the calls open, empty, close and nothing else, leaves every
format of the clipboard empty, and replies `true`. -/
theorem C30_unusable_bundle_wipes (n : Native) (args fm : EncodableMap) (cb : Clipboard)
    (hf : find args "formats" = some (.map fm)) (hne : fm ≠ [])
    (ho : n.openClipboard = true)
    (hi : ∀ l, find fm "image/png" = some (.list l) → toBytes l = [])
    (ht : ∀ t, find fm "text/plain" = some (.str t) → t = [])
    (hh : ∀ h, find fm "text/html" = some (.str h) → h = []) :
    HandleCopyMultiple n (some args) cb =
      some (CloseClipboard (EmptyClipboard (OpenClipboard n cb)), .successBool true) ∧
    (CloseClipboard (EmptyClipboard (OpenClipboard n cb))).calls =
      cb.calls ++ [Call.openClipboard true, Call.emptyClipboard, Call.closeClipboard] ∧
    (CloseClipboard (EmptyClipboard (OpenClipboard n cb))).text = none ∧
    (CloseClipboard (EmptyClipboard (OpenClipboard n cb))).dib = none ∧
    (CloseClipboard (EmptyClipboard (OpenClipboard n cb))).html = none ∧
    (CloseClipboard (EmptyClipboard (OpenClipboard n cb))).bitmap = none ∧
    (CloseClipboard (EmptyClipboard (OpenClipboard n cb))).hdrop = none := by
  refine ⟨?_, ?_, rfl, rfl, rfl, rfl, rfl⟩
  · rw [copyMultiple_open n args fm cb hf (by cases fm with | nil => exact absurd rfl hne | cons a l => rfl) ho,
      bundleImage_skip n fm _ hi, Option.map_some', bundleText_skip n fm _ ht,
      bundleHtml_skip n fm _ hh]
  · simp [CloseClipboard, EmptyClipboard, OpenClipboard, ho, note]

theorem C30_witness :
    HandleCopyMultiple nativeOk (bundleArgs [(Key.str "image/png", Val.list [Elem.other]),
        (Key.str "text/plain", Val.str []), (Key.str "text/rtf", Val.other)]) textAndHtml =
      some (CloseClipboard (EmptyClipboard (OpenClipboard nativeOk textAndHtml)),
        .successBool true) ∧
    (CloseClipboard (EmptyClipboard (OpenClipboard nativeOk textAndHtml))).text = none ∧
    (CloseClipboard (EmptyClipboard (OpenClipboard nativeOk textAndHtml))).html = none :=
  have h := C30_unusable_bundle_wipes nativeOk _
    [(Key.str "image/png", Val.list [Elem.other]), (Key.str "text/plain", Val.str []),
     (Key.str "text/rtf", Val.other)] textAndHtml (find_bundleArgs _) (by simp) rfl
    (by simp [find, toBytes]) (by simp [find]) (by simp [find])
  ⟨h.1, h.2.2.1, h.2.2.2.2.1⟩

theorem hasData_reply (n : Native) (cb : Clipboard) (ho : n.openClipboard = true) :
    (HandleHasData n cb).2 =
      .successBool (cb.text.isSome || cb.dib.isSome || (n.registerHtml != 0 && cb.html.isSome)) := by
  unfold HandleHasData
  by_cases hr : n.registerHtml = 0 <;> cases ht : cb.text <;> cases hd : cb.dib <;>
    cases hh : cb.html <;>
    simp [ho, hr, ht, hd, hh, IsClipboardFormatAvailable, present, note, OpenClipboard,
      CloseClipboard]

theorem contentType_empty_iff (a b c : Bool) :
    contentType a b c = "empty" ↔ (a || c || b) = false := by
  cases a <;> cases b <;> cases c <;> simp [contentType]

/-- C27: with the clipboard open, `hasData` answers `true` exactly when `getContentType`
answers something other than `empty`; both answers are made from the availability of text,
of a DIB, and of HTML (counted only when the HTML format registers). -/
theorem C27_hasData_agrees (n : Native) (cb : Clipboard) (ho : n.openClipboard = true) :
    ∃ (b : Bool) (s : String), (HandleHasData n cb).2 = .successBool b ∧
      (HandleGetContentType n cb).2 = .successString s ∧ (b = true ↔ s ≠ "empty") ∧
      b = (cb.text.isSome || cb.dib.isSome || (n.registerHtml != 0 && cb.html.isSome)) ∧
      s = contentType cb.text.isSome (n.registerHtml != 0 && cb.html.isSome) cb.dib.isSome := by
  refine ⟨_, _, hasData_reply n cb ho, getContentType_reply n cb ho, ?_, rfl, rfl⟩
  rw [Ne, contentType_empty_iff]
  cases cb.text.isSome <;> cases cb.dib.isSome <;>
    cases (n.registerHtml != 0 && cb.html.isSome) <;> simp

theorem C27_witness :
    ∃ (b : Bool) (s : String), (HandleHasData nativeOk handleAndDib).2 = .successBool b ∧
      (HandleGetContentType nativeOk handleAndDib).2 = .successString s ∧
      (b = true ↔ s ≠ "empty") ∧
      b = (handleAndDib.text.isSome || handleAndDib.dib.isSome ||
        (nativeOk.registerHtml != 0 && handleAndDib.html.isSome)) ∧
      s = contentType handleAndDib.text.isSome
        (nativeOk.registerHtml != 0 && handleAndDib.html.isSome) handleAndDib.dib.isSome :=
  C27_hasData_agrees nativeOk handleAndDib rfl

theorem getDataSize_reply (n : Native) (cb : Clipboard) (ho : n.openClipboard = true) :
    (HandleGetDataSize n cb).2 =
      .successInt (match cb.text with
        | some u => if n.getText then wrap32 (n.globalSize u) else 0
        | none => 0) := by
  unfold HandleGetDataSize
  cases ht : cb.text <;> cases hg : n.getText <;>
    simp [ho, ht, hg, IsClipboardFormatAvailable, GetClipboardText, present, note,
      OpenClipboard, CloseClipboard]

/-- C28: `getDataSize` answers from the text entry alone: with the clipboard open the reply
is the `GlobalSize` of the text block as an `int` (0 when the handle is not returned), two
clipboards with the same text entry get the same reply, and a clipboard without a text
entry gets 0 whatever image or HTML it holds, also when `hasData` answers `true`; when the
clipboard does not open the reply is the success value 0. -/
theorem C28_dataSize_text_only (n : Native) (cb : Clipboard) :
    (n.openClipboard = true →
      (HandleGetDataSize n cb).2 =
        .successInt (match cb.text with
          | some u => if n.getText then wrap32 (n.globalSize u) else 0
          | none => 0)) ∧
    (∀ cb2 : Clipboard, cb2.text = cb.text →
      (HandleGetDataSize n cb2).2 = (HandleGetDataSize n cb).2) ∧
    (cb.text = none → (HandleGetDataSize n cb).2 = .successInt 0) ∧
    (n.openClipboard = true → cb.text = none → cb.dib.isSome = true →
      (HandleGetDataSize n cb).2 = .successInt 0 ∧ (HandleHasData n cb).2 = .successBool true) ∧
    (n.openClipboard = false → (HandleGetDataSize n cb).2 = .successInt 0) := by
  have hclosed : n.openClipboard = false → ∀ c : Clipboard,
      (HandleGetDataSize n c).2 = .successInt 0 := by
    intro ho c
    simp [HandleGetDataSize, ho]
  refine ⟨getDataSize_reply n cb, ?_, ?_, ?_, fun ho => hclosed ho cb⟩
  · intro cb2 h
    cases ho : n.openClipboard
    · rw [hclosed ho cb2, hclosed ho cb]
    · rw [getDataSize_reply n cb2 ho, getDataSize_reply n cb ho, h]
  · intro h
    cases ho : n.openClipboard
    · exact hclosed ho cb
    · rw [getDataSize_reply n cb ho, h]
  · intro ho h hd
    constructor
    · rw [getDataSize_reply n cb ho, h]
    · rw [hasData_reply n cb ho, hd]
      simp

theorem C28_witness :
    (HandleGetDataSize nativeOk handleAndDib).2 = .successInt 0 ∧
    (HandleHasData nativeOk handleAndDib).2 = .successBool true ∧
    (HandleGetDataSize nativeOk textAndHtml).2 = .successInt 6 :=
  ⟨((C28_dataSize_text_only nativeOk handleAndDib).2.2.2.1 rfl rfl rfl).1,
   ((C28_dataSize_text_only nativeOk handleAndDib).2.2.2.1 rfl rfl rfl).2,
   (C28_dataSize_text_only nativeOk textAndHtml).1 rfl⟩

/-! ### A clipboard that does not open (C24) -/

theorem OpenClipboard_failed (n : Native) (cb : Clipboard) (ho : n.openClipboard = false) :
    OpenClipboard n cb = note (.openClipboard false) cb := by
  simp [OpenClipboard, ho]

/-- C24: when `OpenClipboard` fails, each of `copy`, `copyRichText`, `copyMultiple`,
`copyImage` (with a payload that passes the checks made before the open), `paste`,
`pasteRichText`, `pasteImage` (plugin and example runner) and `clear` replies with an
error, and the clipboard it leaves is the one it found with the single failed open added
to the record of calls: no second attempt, no other call, the entries untouched. -/
theorem C24_busy_not_retried (n : Native) (cb : Clipboard)
    (aText aRich aBundle aImage fm : EncodableMap) (t : List Nat) (l : List Elem)
    (ho : n.openClipboard = false)
    (hText : find aText "text" = some (.str t)) (htne : t ≠ [])
    (hRich : stringArg aRich "text" ≠ [] ∨ stringArg aRich "html" ≠ [])
    (hBundle : find aBundle "formats" = some (.map fm)) (hfm : fm ≠ [])
    (hImage : find aImage "imageBytes" = some (.list l)) (hl : toBytes l ≠ []) :
    HandleCopy n (some aText) cb =
      (note (.openClipboard false) cb, .error "COPY_ERROR" "Failed to open clipboard") ∧
    HandleCopyRichText n (some aRich) cb =
      (note (.openClipboard false) cb, .error "COPY_RICH_ERROR" "Failed to open clipboard") ∧
    HandleCopyMultiple n (some aBundle) cb =
      some (note (.openClipboard false) cb,
        .error "COPY_MULTIPLE_ERROR" "Failed to open clipboard") ∧
    HandleCopyImage n (some aImage) cb =
      some (note (.openClipboard false) cb, .error "COPY_IMAGE_ERROR" "Failed to open clipboard") ∧
    HandlePaste n cb =
      (note (.openClipboard false) cb, .error "PASTE_ERROR" "Failed to open clipboard") ∧
    HandlePasteRichText n cb =
      (note (.openClipboard false) cb, .error "PASTE_RICH_ERROR" "Failed to open clipboard") ∧
    HandlePasteImage n cb =
      some (note (.openClipboard false) cb, .error "PASTE_IMAGE_ERROR" "Failed to open clipboard") ∧
    Runner.HandlePasteImage n cb =
      (note (.openClipboard false) cb, .error "PASTE_IMAGE_ERROR" "Failed to open clipboard") ∧
    HandleClear n cb =
      (note (.openClipboard false) cb, .error "CLEAR_ERROR" "Failed to open clipboard") ∧
    sameContents cb (note (.openClipboard false) cb) ∧
    (note (.openClipboard false) cb).calls = cb.calls ++ [.openClipboard false] := by
  have e := OpenClipboard_failed n cb ho
  have hfe : fm.isEmpty = false := by
    cases fm with
    | nil => exact absurd rfl hfm
    | cons a r => rfl
  have hle : l.isEmpty = false := by
    cases l with
    | nil => exact absurd rfl hl
    | cons a r => rfl
  refine ⟨?_, ?_, ?_, ?_, ?_, ?_, ?_, ?_, ?_, ⟨rfl, rfl, rfl, rfl, rfl⟩, rfl⟩
  · simp [HandleCopy, hText, isEmpty_eq_false_of_ne t htne, ho, e]
  · unfold HandleCopyRichText
    have hb : ((stringArg aRich "text").isEmpty && (stringArg aRich "html").isEmpty) = false := by
      rcases hRich with h | h
      · simp [isEmpty_eq_false_of_ne _ h]
      · simp [isEmpty_eq_false_of_ne _ h]
    simp [hb, ho, e]
  · simp [HandleCopyMultiple, hBundle, hfe, ho, e]
  · simp [HandleCopyImage, hImage, hle, isEmpty_eq_false_of_ne _ hl, ho, e]
  · simp [HandlePaste, ho, e]
  · simp [HandlePasteRichText, ho, e]
  · simp [HandlePasteImage, ho, e]
  · simp [Runner.HandlePasteImage, ho, e]
  · simp [HandleClear, ho, e]

theorem C24_witness :
    HandleCopy nativeBusy (copyArgs (ascii "t")) textAndHtml =
      (note (.openClipboard false) textAndHtml,
        .error "COPY_ERROR" "Failed to open clipboard") ∧
    HandleCopyMultiple nativeBusy (bundleArgs fullBundle) textAndHtml =
      some (note (.openClipboard false) textAndHtml,
        .error "COPY_MULTIPLE_ERROR" "Failed to open clipboard") ∧
    HandleClear nativeBusy textAndHtml =
      (note (.openClipboard false) textAndHtml,
        .error "CLEAR_ERROR" "Failed to open clipboard") ∧
    (note (.openClipboard false) textAndHtml).calls = textAndHtml.calls ++ [.openClipboard false] :=
  have h := C24_busy_not_retried nativeBusy textAndHtml
    [(Key.str "text", Val.str (ascii "t"))]
    [(Key.str "text", Val.str (ascii "t")), (Key.str "html", Val.str [])]
    [(Key.str "formats", Val.map fullBundle)]
    [(Key.str "imageBytes", Val.list [.int32 137])] fullBundle (ascii "t") [.int32 137]
    rfl (by simp [find]) (by decide) (Or.inl (by simp [stringArg, find]; decide))
    (by simp [find]) (by simp [fullBundle]) (by simp [find]) (by decide)
  ⟨h.1, h.2.2.1, h.2.2.2.2.2.2.2.2.1, h.2.2.2.2.2.2.2.2.2.2⟩

/-! ### Image bytes of the transport list (C29) -/

theorem toBytes_append (l1 l2 : List Elem) : toBytes (l1 ++ l2) = toBytes l1 ++ toBytes l2 := by
  unfold toBytes
  rw [List.filterMap_append]

theorem toBytes_lt (l : List Elem) : ∀ b ∈ toBytes l, b < 256 := by
  intro b hb
  unfold toBytes at hb
  rw [List.mem_filterMap] at hb
  obtain ⟨e, _, he⟩ := hb
  cases e with
  | int32 v =>
    simp only [Option.some.injEq] at he
    omega
  | int64 v =>
    simp only [Option.some.injEq] at he
    omega
  | other => simp at he

theorem toBytes_nil_of_other (l : List Elem) (h : ∀ e ∈ l, e = Elem.other) : toBytes l = [] := by
  unfold toBytes
  rw [List.filterMap_eq_nil_iff]
  intro e he
  rw [h e he]

/-- C29: the byte vector made from the image list holds, in the order of the list, one
byte for each 32-bit or 64-bit integer element, equal to that integer modulo 256 as a value
in `0 .. 255`; other elements add nothing; a list without an integer element gives no byte,
on which `copyImage` replies `EMPTY_IMAGE` before the clipboard is opened and
`copyMultiple` passes over the image. -/
theorem C29_image_bytes (n : Native) (cb : Clipboard) :
    (∀ l1 l2, toBytes (l1 ++ l2) = toBytes l1 ++ toBytes l2) ∧
    (∀ v, ∃ b : Nat, toBytes [.int32 v] = [b] ∧ b < 256 ∧ (b : Int) = v % 256) ∧
    (∀ v, ∃ b : Nat, toBytes [.int64 v] = [b] ∧ b < 256 ∧ (b : Int) = v % 256) ∧
    toBytes [.other] = [] ∧
    (∀ l, ∀ b ∈ toBytes l, b < 256) ∧
    (∀ l, (∀ e ∈ l, e = Elem.other) →
      toBytes l = [] ∧
      HandleCopyImage n (imageArgs l) cb =
        some (cb, .error "EMPTY_IMAGE" "Image bytes cannot be empty") ∧
      ∀ fm c, find fm "image/png" = some (.list l) → bundleImage n fm c = some c) := by
  refine ⟨toBytes_append, ?_, ?_, rfl, toBytes_lt, ?_⟩
  · intro v
    refine ⟨(v % 256).toNat, rfl, by omega, by omega⟩
  · intro v
    refine ⟨(v % 256).toNat, rfl, by omega, by omega⟩
  · intro l h
    have hb := toBytes_nil_of_other l h
    refine ⟨hb, ?_, ?_⟩
    · unfold HandleCopyImage imageArgs
      simp only [find_imageArgs]
      by_cases he : l.isEmpty = true
      · rw [if_pos he]
      · rw [if_neg he, hb]
        rfl
    · intro fm c hf
      exact bundleImage_skip n fm c (fun l2 h2 => by
        rw [hf] at h2
        simp only [Option.some.injEq, Val.list.injEq] at h2
        rw [← h2]; exact hb)

theorem C29_witness :
    toBytes [.int32 137, .other, .int64 (-1), .int32 256] = [137, 255, 0] ∧
    HandleCopyImage nativeOk (imageArgs [.other, .other]) textAndHtml =
      some (textAndHtml, .error "EMPTY_IMAGE" "Image bytes cannot be empty") :=
  ⟨((C29_image_bytes nativeOk textAndHtml).1 [.int32 137, .other]
      [.int64 (-1), .int32 256]).trans (by decide),
   ((C29_image_bytes nativeOk textAndHtml).2.2.2.2.2 [.other, .other] (by simp)).2.1⟩

/-! ### The 24-bit paste loop (C26) -/

theorem pix3Index (x c : Nat) (h : x * 3 + c < 2147483648) :
    iadd (imul (x : Int) 3) (c : Int) = ((x * 3 + c : Nat) : Int) := by
  have e3 : imul (x : Int) 3 = ((x * 3 : Nat) : Int) := imul_nat x 3 (by omega)
  rw [e3, iadd_nat _ _ h]

theorem pix4Index (x c : Nat) (h : x * 4 + c < 2147483648) :
    iadd (imul (x : Int) 4) (c : Int) = ((x * 4 + c : Nat) : Int) := by
  have e4 : imul (x : Int) 4 = ((x * 4 : Nat) : Int) := imul_nat x 4 (by omega)
  rw [e4, iadd_nat _ _ h]

theorem offIndex (a b : Nat) : (a : Int) + ((b : Nat) : Int) = ((a + b : Nat) : Int) := by
  push_cast; rfl

/-- One pixel of the 24-bit inner loop: three bytes go from the source row to the
destination row, and the fourth destination byte becomes 255. -/
theorem expandPixel_spec (block dst : List Nat) (sOff dOff x : Nat)
    (hs : sOff + (x * 3 + 2) < block.length) (hd : dOff + (x * 4 + 3) < dst.length)
    (hx4 : x * 4 + 3 < 2147483648) :
    ∃ d, expandPixel block (sOff : Int) (dOff : Int) (Int.ofNat x) dst = some d ∧
      d.length = dst.length ∧
      ∀ k : Nat, d[k]? =
        if dOff + x * 4 ≤ k ∧ k < dOff + x * 4 + 4 then
          (if k - (dOff + x * 4) < 3 then block[sOff + x * 3 + (k - (dOff + x * 4))]?
           else some 255)
        else dst[k]? := by
  obtain ⟨vb, hvb⟩ := getElem_some_of_lt block (sOff + (x * 3 + 0)) (by omega)
  obtain ⟨vg, hvg⟩ := getElem_some_of_lt block (sOff + (x * 3 + 1)) (by omega)
  obtain ⟨vr, hvr⟩ := getElem_some_of_lt block (sOff + (x * 3 + 2)) (by omega)
  have s0 := pix3Index x 0 (by omega)
  have s1 := pix3Index x 1 (by omega)
  have s2 := pix3Index x 2 (by omega)
  have b0 := pix4Index x 0 (by omega)
  have b1 := pix4Index x 1 (by omega)
  have b2 := pix4Index x 2 (by omega)
  have b3 := pix4Index x 3 hx4
  have l0 : dOff + (x * 4 + 0) < dst.length := by omega
  have l1 : dOff + (x * 4 + 1) < dst.length := by omega
  have l2 : dOff + (x * 4 + 2) < dst.length := by omega
  simp only [Nat.cast_ofNat, Nat.cast_zero, Nat.cast_one] at s0 s1 s2 b0 b1 b2 b3
  unfold expandPixel
  simp only [Int.ofNat_eq_coe, s0, s1, s2, b0, b1, b2, b3, offIndex, peek_nat, hvb, hvg, hvr,
    Option.bind_eq_bind, Option.some_bind]
  clear s0 s1 s2 b0 b1 b2 b3
  rw [poke_nat _ _ _ l0]
  simp only [Option.some_bind]
  rw [poke_nat _ _ _ (by simp only [List.length_set]; exact l1)]
  simp only [Option.some_bind]
  rw [poke_nat _ _ _ (by simp only [List.length_set]; exact l2)]
  simp only [Option.some_bind]
  rw [poke_nat _ _ _ (by simp only [List.length_set]; exact hd)]
  refine ⟨_, rfl, by simp only [List.length_set], ?_⟩
  intro k
  have e0 : dOff + (x * 4 + 0) = dOff + x * 4 := by omega
  have e1 : dOff + (x * 4 + 1) = dOff + x * 4 + 1 := by omega
  have e2 : dOff + (x * 4 + 2) = dOff + x * 4 + 2 := by omega
  have e3 : dOff + (x * 4 + 3) = dOff + x * 4 + 3 := by omega
  rw [e0, e1, e2, e3]
  have key := getElem_set4 dst (dOff + x * 4) vb vg vr 255 k (by omega)
  rw [key]
  by_cases hin : dOff + x * 4 ≤ k ∧ k < dOff + x * 4 + 4
  · rw [if_pos hin, if_pos hin]
    obtain ⟨j, hj⟩ : ∃ j, k = dOff + x * 4 + j := ⟨k - (dOff + x * 4), by omega⟩
    subst hj
    have hj4 : j < 4 := by omega
    have ej : dOff + x * 4 + j - (dOff + x * 4) = j := by omega
    rw [ej]
    rcases (by omega : j = 0 ∨ j = 1 ∨ j = 2 ∨ j = 3) with h | h | h | h
    · subst h
      rw [if_pos (by decide)]
      show some vb = _
      rw [← hvb]
      exact getElem_congr _ _ _ (by omega)
    · subst h
      rw [if_pos (by decide)]
      show some vg = _
      rw [← hvg]
      exact getElem_congr _ _ _ (by omega)
    · subst h
      rw [if_pos (by decide)]
      show some vr = _
      rw [← hvr]
      exact getElem_congr _ _ _ (by omega)
    · subst h
      rw [if_neg (by decide)]
      rfl
  · rw [if_neg hin, if_neg hin]

/-- One row of the 24-bit inner loop: pixel `x` of the destination row takes bytes `3x`,
`3x + 1`, `3x + 2` of the source row, and its fourth byte is 255. -/
theorem expandRow_spec (block dst : List Nat) (sOff dOff w : Nat)
    (hs : sOff + w * 3 ≤ block.length) (hd : dOff + w * 4 ≤ dst.length)
    (hw4 : w * 4 < 2147483648) :
    ∃ d, forInt (w : Int) (fun x d => expandPixel block (sOff : Int) (dOff : Int) x d) dst
        = some d ∧
      d.length = dst.length ∧
      ∀ k : Nat, d[k]? =
        if dOff ≤ k ∧ k < dOff + w * 4 then
          (if (k - dOff) % 4 < 3 then block[sOff + (k - dOff) / 4 * 3 + (k - dOff) % 4]?
           else some 255)
        else dst[k]? := by
  obtain ⟨d, h1, h2, h3⟩ := forInt_inv
    (fun n d => d.length = dst.length ∧ ∀ k : Nat, d[k]? =
        if dOff ≤ k ∧ k < dOff + n * 4 then
          (if (k - dOff) % 4 < 3 then block[sOff + (k - dOff) / 4 * 3 + (k - dOff) % 4]?
           else some 255)
        else dst[k]?)
    w (fun x d => expandPixel block (sOff : Int) (dOff : Int) x d) dst
    ⟨rfl, fun k => by rw [if_neg (by omega)]⟩
    (by
      intro x b hx ⟨q1, q2⟩
      obtain ⟨d, e1, e2, e3⟩ := expandPixel_spec block b sOff dOff x (by omega) (by omega)
        (by omega)
      refine ⟨d, e1, by rw [e2, q1], ?_⟩
      intro k
      rw [e3]
      by_cases hin : dOff + x * 4 ≤ k ∧ k < dOff + x * 4 + 4
      · have c2 : dOff ≤ k ∧ k < dOff + (x + 1) * 4 := by omega
        rw [if_pos hin, if_pos c2]
        have ej : k - (dOff + x * 4) = (k - dOff) % 4 := by omega
        have ed : (k - dOff) / 4 = x := by omega
        rw [ej, ed]
      · rw [if_neg hin, q2]
        by_cases hin2 : dOff ≤ k ∧ k < dOff + x * 4
        · have c2 : dOff ≤ k ∧ k < dOff + (x + 1) * 4 := by omega
          rw [if_pos hin2, if_pos c2]
        · have c2 : ¬ (dOff ≤ k ∧ k < dOff + (x + 1) * 4) := by omega
          rw [if_neg hin2, if_neg c2])
  exact ⟨d, h1, h2, h3⟩

/-- One 24-bit row of the paste loop: the row is expanded into destination row `y`. -/
theorem pasteRow24_step (bits : List Nat) (w dS y sOff : Nat) (step : Int) (s : RowLoop)
    (hret : s.returned = false) (hsrc : s.pSource = (sOff : Int))
    (hw : w * 4 < 2147483648) (hy : y * dS < 2147483648)
    (hs : sOff + w * 3 ≤ bits.length) (hd : y * dS + w * 4 ≤ s.pDest.length) :
    ∃ d, pasteRow bits 24 (w : Int) (dS : Int) step (Int.ofNat y) s =
        some { pDest := d, pSource := (sOff : Int) + step, returned := false } ∧
      d.length = s.pDest.length ∧
      ∀ k : Nat, d[k]? =
        if y * dS ≤ k ∧ k < y * dS + w * 4 then
          (if (k - y * dS) % 4 < 3 then bits[sOff + (k - y * dS) / 4 * 3 + (k - y * dS) % 4]?
           else some 255)
        else s.pDest[k]? := by
  unfold pasteRow
  have h32 : ((24 : Int) = 32) = False := by decide
  simp only [hret, Bool.false_eq_true, if_false, if_true, Int.ofNat_eq_coe, h32]
  rw [imul_nat y dS hy, hsrc]
  obtain ⟨d, h1, h2, h3⟩ := expandRow_spec bits s.pDest sOff (y * dS) w hs hd hw
  refine ⟨d, ?_, h2, h3⟩
  rw [h1]
  rfl

/-- The 24-bit row loop: destination row `y` receives the expanded stored row `srcRow y`,
stored rows being `R` bytes apart; every other destination byte keeps its value. -/
theorem pasteRows24_spec (bits dst0 : List Nat) (w h dS R : Nat) (start step : Int)
    (srcRow : Nat → Nat)
    (hsrc : ∀ y, y < h → start + (y : Int) * step = ((srcRow y * R : Nat) : Int))
    (hrow : ∀ y, y < h → srcRow y < h)
    (hw4 : w * 4 < 2147483648) (hwd : w * 4 ≤ dS) (hrange : h * dS < 2147483648)
    (hR : w * 3 ≤ R) (hbits : h * R ≤ bits.length) (hdst : h * dS ≤ dst0.length) :
    ∃ s, forInt (h : Int) (pasteRow bits 24 (w : Int) (dS : Int) step)
        { pDest := dst0, pSource := start, returned := false } = some s ∧
      s.returned = false ∧ s.pDest.length = dst0.length ∧
      (∀ y i, y < h → i < w * 4 → s.pDest[y * dS + i]? =
        if i % 4 < 3 then bits[srcRow y * R + i / 4 * 3 + i % 4]? else some 255) ∧
      (∀ k, (∀ y, y < h → ¬ (y * dS ≤ k ∧ k < y * dS + w * 4)) → s.pDest[k]? = dst0[k]?) := by
  obtain ⟨s, h1, h2, h3, h4, h5, h6⟩ := forInt_inv
    (fun n s => s.returned = false ∧ s.pSource = start + (n : Int) * step ∧
      s.pDest.length = dst0.length ∧
      (∀ y i, y < n → i < w * 4 → s.pDest[y * dS + i]? =
        if i % 4 < 3 then bits[srcRow y * R + i / 4 * 3 + i % 4]? else some 255) ∧
      (∀ k, (∀ y, y < n → ¬ (y * dS ≤ k ∧ k < y * dS + w * 4)) → s.pDest[k]? = dst0[k]?))
    h (pasteRow bits 24 (w : Int) (dS : Int) step)
    { pDest := dst0, pSource := start, returned := false }
    ⟨rfl, by simp, rfl, fun y i hy _ => absurd hy (Nat.not_lt_zero y), fun k _ => rfl⟩
    (by
      intro y s hy ⟨q1, q2, q3, q4, q5⟩
      have hyd := mul_succ_le y h dS hy
      have hsr := mul_succ_le (srcRow y) h R (hrow y hy)
      obtain ⟨d, e1, e2, e3⟩ := pasteRow24_step bits w dS y (srcRow y * R) step s q1
        (by rw [q2, hsrc y hy]) hw4 (by omega) (by omega) (by omega)
      refine ⟨_, e1, rfl, ?_, by simpa [e2] using q3, ?_, ?_⟩
      · show ((srcRow y * R : Nat) : Int) + step = start + ((y + 1 : Nat) : Int) * step
        rw [← hsrc y hy]; push_cast; ring
      · intro y' i hy' hi
        show d[y' * dS + i]? = _
        rw [e3]
        by_cases hyy : y' = y
        · subst hyy
          have c : y' * dS ≤ y' * dS + i ∧ y' * dS + i < y' * dS + w * 4 := by omega
          have ei : y' * dS + i - y' * dS = i := by omega
          rw [if_pos c, ei]
        · have hlt : y' < y := by omega
          have := mul_succ_le y' y dS hlt
          have c : ¬ (y * dS ≤ y' * dS + i ∧ y' * dS + i < y * dS + w * 4) := by omega
          rw [if_neg c]
          exact q4 y' i hlt hi
      · intro k hk
        show d[k]? = _
        rw [e3, if_neg (hk y (by omega))]
        exact q5 k (fun y' hy' => hk y' (by omega)))
  exact ⟨s, h1, h2, h4, h5, h6⟩

theorem rowSize_24_nat (w : Nat) (hr : w * 24 + 31 < 2147483648) :
    rowSize (w : Int) 24 = (((w * 24 + 31) / 32 * 4 : Nat) : Int) := by
  rw [rowSize_eq (w : Int) 24 (by omega) (by decide) (by omega)]
  omega

theorem pBitsOffset_24 : pBitsOffset 24 = 0 := by
  unfold pBitsOffset
  rw [if_neg (by decide)]

/-- The paste loop on a 24-bit top-down DIB: destination row `y` is the expanded stored row
`y`, stored rows being `((w * 24 + 31) / 32) * 4` bytes apart. -/
theorem pasteLoop24_topDown (dib : Dib) (dst0 : List Nat) (w h dS : Nat)
    (hdw : dib.biWidth = (w : Int)) (hdh : dib.biHeight = -(h : Int))
    (hdb : dib.biBitCount = 24)
    (h1 : 1 ≤ h) (hh : h < 2147483648) (hr : w * 24 + 31 < 2147483648)
    (hw4 : w * 4 < 2147483648) (hwd : w * 4 ≤ dS) (hrange : h * dS < 2147483648)
    (hbits : h * ((w * 24 + 31) / 32 * 4) ≤ dib.bits.length) (hdst : h * dS ≤ dst0.length) :
    ∃ s, pasteLoop dib (dS : Int) dst0 = some s ∧
      s.returned = false ∧ s.pDest.length = dst0.length ∧
      (∀ y i, y < h → i < w * 4 → s.pDest[y * dS + i]? =
        if i % 4 < 3 then dib.bits[y * ((w * 24 + 31) / 32 * 4) + i / 4 * 3 + i % 4]?
        else some 255) ∧
      (∀ k, (∀ y, y < h → ¬ (y * dS ≤ k ∧ k < y * dS + w * 4)) → s.pDest[k]? = dst0[k]?) := by
  have hneg : decide (-(h : Int) < 0) = true := decide_eq_true (by omega)
  have hR : w * 3 ≤ (w * 24 + 31) / 32 * 4 := by omega
  unfold pasteLoop
  simp only [hdw, hdh, hdb, iabs_neg_nat h hh, rowSize_24_nat w hr, pBitsOffset_24, hneg, if_true]
  have hsrc : ∀ y, y < h →
      (0 : Int) + (y : Int) * (((w * 24 + 31) / 32 * 4 : Nat) : Int) =
        (((fun y => y) y * ((w * 24 + 31) / 32 * 4) : Nat) : Int) := by
    intro y _
    push_cast
    ring
  obtain ⟨s, k1, k2, k3, k4, k5⟩ := pasteRows24_spec dib.bits dst0 w h dS
    ((w * 24 + 31) / 32 * 4) 0 (((w * 24 + 31) / 32 * 4 : Nat) : Int) (fun y => y) hsrc
    (fun y hy => hy) hw4 hwd hrange hR hbits hdst
  exact ⟨s, k1, k2, k3, fun y i hy hi => k4 y i hy hi, k5⟩

/-- The paste loop on a 24-bit bottom-up DIB: destination row `y` is the expanded stored
row `h - 1 - y`. -/
theorem pasteLoop24_bottomUp (dib : Dib) (dst0 : List Nat) (w h dS : Nat)
    (hdw : dib.biWidth = (w : Int)) (hdh : dib.biHeight = (h : Int))
    (hdb : dib.biBitCount = 24)
    (h1 : 1 ≤ h) (hh : h < 2147483648) (hr : w * 24 + 31 < 2147483648)
    (hw4 : w * 4 < 2147483648) (hwd : w * 4 ≤ dS) (hrange : h * dS < 2147483648)
    (hsrange : h * ((w * 24 + 31) / 32 * 4) < 2147483648)
    (hbits : h * ((w * 24 + 31) / 32 * 4) ≤ dib.bits.length) (hdst : h * dS ≤ dst0.length) :
    ∃ s, pasteLoop dib (dS : Int) dst0 = some s ∧
      s.returned = false ∧ s.pDest.length = dst0.length ∧
      (∀ y i, y < h → i < w * 4 → s.pDest[y * dS + i]? =
        if i % 4 < 3 then
          dib.bits[(h - 1 - y) * ((w * 24 + 31) / 32 * 4) + i / 4 * 3 + i % 4]?
        else some 255) ∧
      (∀ k, (∀ y, y < h → ¬ (y * dS ≤ k ∧ k < y * dS + w * 4)) → s.pDest[k]? = dst0[k]?) := by
  generalize hRdef : (w * 24 + 31) / 32 * 4 = R at hsrange hbits ⊢
  have hR : w * 3 ≤ R := by omega
  have hRr : rowSize (w : Int) 24 = (R : Int) := by rw [rowSize_24_nat w hr, hRdef]
  have hlt1 : h - 1 < h := by omega
  have hle : (h - 1) * R + R ≤ h * R := mul_succ_le (h - 1) h R hlt1
  have hlt : R * (h - 1) < 2147483648 := by
    rw [Nat.mul_comm R (h - 1)]
    omega
  have hR31 : R < 2147483648 := by
    have : R ≤ h * R := by
      rw [Nat.mul_comm]
      exact le_mul_of_one_le R h h1
    omega
  have hpos : decide ((h : Int) < 0) = false := decide_eq_false (by omega)
  have hrow : ∀ y, y < h → (fun y => h - 1 - y) y < h := fun y hy => by
    show h - 1 - y < h
    omega
  have hsrc : ∀ y, y < h →
      (((R * (h - 1) : Nat) : Int)) + (y : Int) * (-((R : Nat) : Int)) =
        (((fun y => h - 1 - y) y * R : Nat) : Int) := by
    intro y hy
    have e : ((h - 1 - y : Nat) : Int) = ((h - 1 : Nat) : Int) - (y : Int) := by omega
    simp only [Nat.cast_mul, e]
    ring
  obtain ⟨s, k1, k2, k3, k4, k5⟩ := pasteRows24_spec dib.bits dst0 w h dS R
    ((R * (h - 1) : Nat) : Int) (-((R : Nat) : Int)) (fun y => h - 1 - y)
    hsrc hrow hw4 hwd hrange hR hbits hdst
  refine ⟨s, ?_, k2, k3, fun y i hy hi => k4 y i hy hi, k5⟩
  rw [← k1]
  unfold pasteLoop
  simp only [hdw, hdh, hdb, iabs_nat h hh, hRr, pBitsOffset_24,
    isub_one_nat h h1 hh, imul_nat R (h - 1) hlt, isub_zero_nat R hR31, hpos,
    Bool.false_eq_true, if_false, Int.zero_add]

/-- C26 (amended): for a DIB with 24 bits per pixel, width `w ≥ 1` and height `h ≥ 1`
(header height `-h` for rows stored top to bottom, `+h` for bottom to top) whose offsets
fit the 32-bit `int` of the loop, the pixel loop of `HandlePasteImage` returns, and decoded
pixel `(x, y)` takes its first three bytes from bytes `3x`, `3x + 1`, `3x + 2` of its
stored row and has 255 as fourth byte; stored rows are `((w * 24 + 31) / 32) * 4` bytes
apart, which is at least `3 * w` and a multiple of 4. -/
theorem C26_decode_24 (dib : Dib) (dst0 : List Nat) (w h dS : Nat)
    (hdw : dib.biWidth = (w : Int))
    (hdh : dib.biHeight = -(h : Int) ∨ dib.biHeight = (h : Int))
    (hdb : dib.biBitCount = 24) (hw : 1 ≤ w) (h1 : 1 ≤ h)
    (hr : w * 24 + 31 < 2147483648) (hwd : w * 4 ≤ dS) (hrange : h * dS < 2147483648)
    (hsrange : h * ((w * 24 + 31) / 32 * 4) < 2147483648)
    (hbits : h * ((w * 24 + 31) / 32 * 4) ≤ dib.bits.length) (hdst : h * dS ≤ dst0.length) :
    ∃ out, pasteLoop dib (dS : Int) dst0 = some out ∧ out.returned = false ∧
      (∀ x y, x < w → y < h →
        (∀ c, c < 3 → out.pDest[y * dS + x * 4 + c]? =
          dib.bits[(if dib.biHeight < 0 then y else h - 1 - y) * ((w * 24 + 31) / 32 * 4)
            + x * 3 + c]?) ∧
        out.pDest[y * dS + x * 4 + 3]? = some 255) ∧
      rowSize dib.biWidth 24 = (((w * 24 + 31) / 32 * 4 : Nat) : Int) ∧
      w * 3 ≤ (w * 24 + 31) / 32 * 4 ∧ (w * 24 + 31) / 32 * 4 % 4 = 0 := by
  have hw4 : w * 4 < 2147483648 := by omega
  have hh : h < 2147483648 := by
    have : h ≤ h * dS := le_mul_of_one_le h dS (by omega)
    omega
  have hpix : ∀ (out : RowLoop) (srcRow : Nat → Nat),
      (∀ y i, y < h → i < w * 4 → out.pDest[y * dS + i]? =
        if i % 4 < 3 then dib.bits[srcRow y * ((w * 24 + 31) / 32 * 4) + i / 4 * 3 + i % 4]?
        else some 255) →
      ∀ x y, x < w → y < h →
        (∀ c, c < 3 → out.pDest[y * dS + x * 4 + c]? =
          dib.bits[srcRow y * ((w * 24 + 31) / 32 * 4) + x * 3 + c]?) ∧
        out.pDest[y * dS + x * 4 + 3]? = some 255 := by
    intro out srcRow k4 x y hx hy
    constructor
    · intro c hc
      have e := k4 y (x * 4 + c) hy (by omega)
      have em : (x * 4 + c) % 4 = c := by omega
      have ed : (x * 4 + c) / 4 = x := by omega
      rw [em, ed, if_pos hc] at e
      rw [getElem_congr _ (y * dS + x * 4 + c) (y * dS + (x * 4 + c)) (by omega), e]
    · have e := k4 y (x * 4 + 3) hy (by omega)
      have em : (x * 4 + 3) % 4 = 3 := by omega
      rw [em, if_neg (by decide)] at e
      rw [getElem_congr _ (y * dS + x * 4 + 3) (y * dS + (x * 4 + 3)) (by omega), e]
  refine (?_ : ∃ out, _ ∧ _ ∧ _) |>.elim (fun out ho =>
    ⟨out, ho.1, ho.2.1, ho.2.2, by rw [hdw]; exact rowSize_24_nat w hr, by omega, by omega⟩)
  rcases hdh with hd | hd
  · obtain ⟨s, k1, k2, _, k4, _⟩ := pasteLoop24_topDown dib dst0 w h dS hdw hd hdb h1 hh hr hw4
      hwd hrange hbits hdst
    refine ⟨s, k1, k2, ?_⟩
    have hneg : dib.biHeight < 0 := by rw [hd]; omega
    simp only [hneg, if_true]
    exact hpix s (fun y => y) k4
  · obtain ⟨s, k1, k2, _, k4, _⟩ := pasteLoop24_bottomUp dib dst0 w h dS hdw hd hdb h1 hh hr hw4
      hwd hrange hsrange hbits hdst
    refine ⟨s, k1, k2, ?_⟩
    have hneg : ¬ dib.biHeight < 0 := by rw [hd]; omega
    simp only [hneg, if_false]
    exact hpix s (fun y => h - 1 - y) k4

theorem C26_witness :
    ∃ out, pasteLoop rgbDib ((4 : Nat) : Int) (List.replicate 8 0) = some out ∧
      out.returned = false ∧
      (∀ x y, x < 1 → y < 2 →
        (∀ c, c < 3 → out.pDest[y * 4 + x * 4 + c]? =
          rgbDib.bits[(if rgbDib.biHeight < 0 then y else 2 - 1 - y) * ((1 * 24 + 31) / 32 * 4)
            + x * 3 + c]?) ∧
        out.pDest[y * 4 + x * 4 + 3]? = some 255) ∧
      rowSize rgbDib.biWidth 24 = (((1 * 24 + 31) / 32 * 4 : Nat) : Int) ∧
      1 * 3 ≤ (1 * 24 + 31) / 32 * 4 ∧ (1 * 24 + 31) / 32 * 4 % 4 = 0 :=
  C26_decode_24 rgbDib (List.replicate 8 0) 1 2 4 rfl (Or.inl rfl) rfl (by decide) (by decide)
    (by decide) (by decide) (by decide) (by decide) (by decide) (by decide)

/-- One 24-bit row read from a negative source offset has no result. -/
theorem pasteRow24_none_of_neg (bits : List Nat) (dS step y : Int) (s : RowLoop)
    (hret : s.returned = false) (hneg : s.pSource < 0) :
    pasteRow bits 24 89478485 dS step y s = none := by
  unfold pasteRow
  have h32 : ((24 : Int) = 32) = False := by decide
  simp only [hret, Bool.false_eq_true, if_false, if_true, h32]
  have hf : forInt ((89478485 : Nat) : Int)
      (fun x d => expandPixel bits s.pSource (imul y dS) x d) s.pDest = none := by
    apply forInt_none_of_step 89478485 0 (by decide)
    intro d
    have hz : iadd (imul (Int.ofNat 0) 3) 0 = 0 := by decide
    have hp : peek bits (s.pSource + iadd (imul (Int.ofNat 0) 3) 0) = none := by
      rw [hz]
      unfold peek
      rw [if_pos (by omega)]
    unfold expandPixel
    rw [hp]
    rfl
  have hc : (89478485 : Int) = ((89478485 : Nat) : Int) := rfl
  rw [hc, hf]
  rfl

/-- One 24-bit row either has no result or moves `pSource` by the step. -/
theorem pasteRow24_pSource (bits : List Nat) (w dS step y : Int) (s s1 : RowLoop)
    (hret : s.returned = false) (h : pasteRow bits 24 w dS step y s = some s1) :
    s1.returned = false ∧ s1.pSource = s.pSource + step := by
  unfold pasteRow at h
  have h32 : ((24 : Int) = 32) = False := by decide
  simp only [hret, Bool.false_eq_true, if_false, if_true, h32] at h
  cases hm : forInt w (fun x d => expandPixel bits s.pSource (imul y dS) x d) s.pDest with
  | none => rw [hm] at h; simp at h
  | some d =>
    rw [hm] at h
    simp only [Option.bind_eq_bind, Option.some_bind, Option.some.injEq] at h
    rw [← h]
    exact ⟨rfl, rfl⟩

/-- The paste loop on a 24-bit top-down DIB 89478485 pixels wide and two rows high:
`width * 24 + 31` leaves the `int` range, the row size comes out negative, and the second
row is read before the start of the block. -/
theorem pasteLoop24_wide_none (bits dst0 : List Nat) (dS : Int) :
    pasteLoop { biSize := 40, biWidth := 89478485, biHeight := -2, biPlanes := 1,
                biBitCount := 24, biCompression := 0, bits := bits } dS dst0 = none := by
  have hR : rowSize 89478485 24 = -268435452 := by decide
  unfold pasteLoop
  have h1 : iabs (-2) = 2 := by decide
  have h2 : decide ((-2 : Int) < 0) = true := by decide
  simp only [h1, h2, hR, pBitsOffset_24, if_true]
  rw [forInt_two]
  cases h0 : pasteRow bits 24 89478485 dS (-268435452) 0
      { pDest := dst0, pSource := 0, returned := false } with
  | none => rfl
  | some s1 =>
    obtain ⟨r1, p1⟩ := pasteRow24_pSource bits 89478485 dS (-268435452) 0 _ s1 rfl h0
    show pasteRow bits 24 89478485 dS (-268435452) 1 s1 = none
    have hn : s1.pSource < 0 := by
      rw [p1]
      show (0 : Int) + -268435452 < 0
      decide
    exact pasteRow24_none_of_neg bits dS (-268435452) 1 s1 r1 hn

/-- C26 fails as stated: for a 24-bit DIB 89478485 pixels wide `width * 24 + 31` leaves
the `int` range, the distance between rows comes out as -268435452 instead of 268435456,
and with two rows the pixel loop reads before the start of the block. -/
theorem C26_counterexample :
    rowSize 89478485 24 = -268435452 ∧ (89478485 * 24 + 31) / 32 * 4 = 268435456 ∧
    pasteLoop wideRgbDib 357913940 (List.replicate 715827880 0) = none :=
  ⟨by decide, by decide, pasteLoop24_wide_none _ _ _⟩

/-! ### The DIB built by SetClipboardImage (C25) -/

/-- C25 (amended): for a PNG that decodes to a bitmap of width `w` and height `h` whose
byte offsets fit the 32-bit `int` of the copy loop, every native call succeeding,
`SetClipboardImage` puts on the clipboard a DIB whose header has width `w`, height `-h`,
32 bits per pixel, one plane and no compression, followed by exactly `stride * h` bytes,
where `stride`, the row size the code computes, is `((w * 32 + 31) / 32) * 4`, is at least
`w * 4` and is a multiple of 4; DIB row `y` holds the first `w * 4` bytes of bitmap
row `y`. -/
theorem C25_encoded_dib (n : Native) (png : List Nat) (cb : Clipboard) (bmp : Bitmap)
    (w h : Nat) (hne : png ≠ []) (h1 : n.allocPng = true) (h2 : n.lockPng = true)
    (h3 : n.createStream = true) (h4 : n.allocDib = true) (h5 : n.lockDib = true)
    (h6 : n.lockBits = true) (h7 : n.setDib = true)
    (hdec : n.fromStream png = some bmp) (hwf : bmp.inRange w h) :
    ∃ (cb2 : Clipboard) (bits : List Nat) (sS : Nat),
      SetClipboardImage n png cb = some (cb2, true) ∧
      cb2.dib = some { biSize := 40, biWidth := (w : Int), biHeight := -(h : Int),
                       biPlanes := 1, biBitCount := 32, biCompression := 0, bits := bits } ∧
      (bits.length : Int) = rowSize (w : Int) 32 * (h : Int) ∧
      rowSize (w : Int) 32 = ((w : Int) * 32 + 31) / 32 * 4 ∧
      (w : Int) * 4 ≤ rowSize (w : Int) 32 ∧ rowSize (w : Int) 32 % 4 = 0 ∧
      bmp.stride = (sS : Int) ∧
      ∀ y i, y < h → i < w * 4 → bits[y * (w * 4) + i]? = bmp.scan0[y * sS + i]? := by
  obtain ⟨bits, sS, e3, c2, c3, e⟩ := SetClipboardImage_built n png cb bmp w h
    (isEmpty_eq_false_of_ne png hne) h1 h2 h3 h4 h5 h6 hdec hwf
  have hr : w * 32 + 31 < 2147483648 := by
    obtain ⟨_, _, _, _, _, _, _, _, hr⟩ := hwf
    exact hr
  have hrs : rowSize (w : Int) 32 = ((w * 4 : Nat) : Int) := rowSize_32_nat w hr
  refine ⟨SetClipboardData true
    (.dib { biSize := 40, biWidth := (w : Int), biHeight := -(h : Int), biPlanes := 1,
            biBitCount := 32, biCompression := 0, bits := bits }) cb,
    bits, sS, ?_, ?_, ?_, ?_, ?_, ?_, e3, c3⟩
  · rw [e, h7]
  · simp [SetClipboardData, note]
  · rw [hrs, c2]
    push_cast
    ring
  · exact rowSize_eq (w : Int) 32 (by omega) (by decide) (by omega)
  · rw [hrs]
    push_cast
    omega
  · exact rowSize_mod4 _ _

theorem C25_witness :
    ∃ (cb2 : Clipboard) (bits : List Nat) (sS : Nat),
      SetClipboardImage nativeOk [137, 80, 78, 71] textAndHtml = some (cb2, true) ∧
      cb2.dib = some { biSize := 40, biWidth := ((2 : Nat) : Int), biHeight := -((1 : Nat) : Int),
                       biPlanes := 1, biBitCount := 32, biCompression := 0, bits := bits } ∧
      (bits.length : Int) = rowSize ((2 : Nat) : Int) 32 * ((1 : Nat) : Int) ∧
      rowSize ((2 : Nat) : Int) 32 = (((2 : Nat) : Int) * 32 + 31) / 32 * 4 ∧
      ((2 : Nat) : Int) * 4 ≤ rowSize ((2 : Nat) : Int) 32 ∧
      rowSize ((2 : Nat) : Int) 32 % 4 = 0 ∧
      ({ width := 2, height := 1, stride := 8,
         scan0 := [10, 20, 30, 255, 40, 50, 60, 128] } : Bitmap).stride = (sS : Int) ∧
      ∀ y i, y < 1 → i < 2 * 4 → bits[y * (2 * 4) + i]? =
        ({ width := 2, height := 1, stride := 8,
           scan0 := [10, 20, 30, 255, 40, 50, 60, 128] } : Bitmap).scan0[y * sS + i]? :=
  C25_encoded_dib nativeOk [137, 80, 78, 71] textAndHtml
    { width := 2, height := 1, stride := 8, scan0 := [10, 20, 30, 255, 40, 50, 60, 128] } 2 1
    (by decide) rfl rfl rfl rfl rfl rfl rfl rfl
    ⟨rfl, rfl, by decide, 8, rfl, by decide, by decide, by decide, by decide⟩

theorem SetClipboardImage_wide_none (n : Native) (png : List Nat) (cb : Clipboard)
    (bmp : Bitmap) (hne : png.isEmpty = false) (h1 : n.allocPng = true)
    (h2 : n.lockPng = true) (h3 : n.createStream = true) (h4 : n.allocDib = true)
    (h5 : n.lockDib = true) (h6 : n.lockBits = true) (hdec : n.fromStream png = some bmp)
    (hw : bmp.width = 67108864) (hh : bmp.height = 2) :
    SetClipboardImage n png cb = none := by
  unfold SetClipboardImage
  simp only [hne, h1, h2, h3, h4, h5, h6, hdec, Bool.not_true, Bool.false_eq_true, if_false,
    if_true, hw, hh, copyLoop_wide_none]

/-- C25 fails as stated: for a decoded bitmap 67108864 pixels wide and two rows high
`width * 32` leaves the `int` range, the row size comes out as -268435452 instead of
268435456, the copy loop addresses its second row before the start of the block, and no DIB
is placed on the clipboard. -/
theorem C25_counterexample :
    rowSize 67108864 32 = -268435452 ∧ ((67108864 : Int) * 32 + 31) / 32 * 4 = 268435456 ∧
    SetClipboardImage nativeWide [137, 80, 78, 71] textAndHtml = none :=
  ⟨by decide, by decide,
   SetClipboardImage_wide_none nativeWide [137, 80, 78, 71] textAndHtml
     { width := 67108864, height := 2, stride := 268435456,
       scan0 := List.replicate 536870912 255 } rfl rfl rfl rfl rfl rfl rfl rfl rfl rfl⟩

/-! ### One bracket per operation (C21) -/

theorem txn_append (a b : List Call) (h : Bool) :
    txn h (a ++ b) =
      (txn h a).bind (fun p => (txn p.1 b).map (fun q => (q.1, p.2 + q.2))) := by
  induction a generalizing h with
  | nil => simp [txn]
  | cons c cs ih =>
    cases c with
    | openClipboard ok => cases ok <;> cases h <;> simp [txn, ih]
    | closeClipboard =>
      cases h
      · simp [txn]
      · rw [List.cons_append]
        simp only [txn, if_true]
        rw [ih]
        cases hA : txn false cs with
        | none => simp
        | some p =>
          cases hB : txn p.1 b with
          | none => simp [hB]
          | some q =>
            simp only [Option.some_bind, Option.map_some', hB, Option.some.injEq,
              Prod.mk.injEq, true_and]
            omega
    | emptyClipboard => cases h <;> simp [txn, ih]
    | isClipboardFormatAvailable f => cases h <;> simp [txn, ih]
    | getClipboardData f => cases h <;> simp [txn, ih]
    | setClipboardData f ok => cases h <;> simp [txn, ih]
    | readBlock f => cases h <;> simp [txn, ih]

theorem TSteps_refl (h : Bool) (cb : Clipboard) : TSteps h cb h 0 cb :=
  ⟨[], by simp, rfl⟩

theorem TSteps_trans {h1 h2 h3 : Bool} {k1 k2 : Nat} {c1 c2 c3 : Clipboard}
    (s1 : TSteps h1 c1 h2 k1 c2) (s2 : TSteps h2 c2 h3 k2 c3) :
    TSteps h1 c1 h3 (k1 + k2) c3 := by
  obtain ⟨a, ea, ha⟩ := s1
  obtain ⟨b, eb, hb⟩ := s2
  refine ⟨a ++ b, by rw [eb, ea, List.append_assoc], ?_⟩
  rw [txn_append, ha]
  simp [hb]

theorem TSteps_SetClipboardData (ok : Bool) (d : Data) (cb : Clipboard) :
    TSteps true cb true 0 (SetClipboardData ok d cb) := by
  unfold TSteps SetClipboardData
  cases ok <;> cases d <;> simp [note, txn, Data.fmt]

theorem TSteps_bundleImage (n : Native) (fm : EncodableMap) (cb c : Clipboard)
    (h : bundleImage n fm cb = some c) : TSteps true cb true 0 c := by
  rcases bundleImage_cases n fm cb c h with e | ⟨d, e⟩
  · rw [e]; exact TSteps_refl _ _
  · rw [e]; exact TSteps_SetClipboardData _ _ _

theorem TSteps_bundleText (n : Native) (fm : EncodableMap) (cb : Clipboard) :
    TSteps true cb true 0 (bundleText n fm cb) := by
  rcases bundleText_cases n fm cb with e | ⟨d, e⟩
  · rw [e]; exact TSteps_refl _ _
  · rw [e]; exact TSteps_SetClipboardData _ _ _

theorem TSteps_bundleHtml (n : Native) (fm : EncodableMap) (cb : Clipboard) :
    TSteps true cb true 0 (bundleHtml n fm cb) := by
  rcases bundleHtml_cases n fm cb with e | ⟨d, e⟩
  · rw [e]; exact TSteps_refl _ _
  · rw [e]; exact TSteps_SetClipboardData _ _ _

theorem TSteps_putUnicodeText (n : Native) (text : List Nat) (cb : Clipboard) :
    TSteps true cb true 0 (putUnicodeText n text cb) := by
  unfold TSteps putUnicodeText
  cases ha : n.allocText <;> cases hs : n.setText <;>
    simp [SetClipboardData, note, txn, Data.fmt]

theorem TSteps_putHtmlFormat (n : Native) (html : List Nat) (cb : Clipboard) :
    TSteps true cb true 0 (putHtmlFormat n html cb) := by
  unfold TSteps putHtmlFormat
  by_cases hr : n.registerHtml = 0 <;> cases ha : n.allocHtml <;> cases hs : n.setHtml <;>
    simp [hr, SetClipboardData, note, txn, Data.fmt]

/-- A handler that opens the clipboard, empties it, makes calls inside the bracket and
closes it has made one bracket. -/
theorem Transacted_bracket (n : Native) (cb cb2 : Clipboard) (ho : n.openClipboard = true)
    (s : TSteps true (EmptyClipboard (OpenClipboard n cb)) true 0 cb2) :
    Transacted cb (CloseClipboard cb2) 1 := by
  obtain ⟨cs, e, hh⟩ := s
  refine ⟨[.openClipboard true, .emptyClipboard] ++ cs ++ [.closeClipboard], ?_, ?_⟩
  · simp [CloseClipboard, note, e, EmptyClipboard, OpenClipboard, ho]
  · rw [txn_append, txn_append]
    simp [txn, hh]

theorem Transacted_openFailed (n : Native) (cb : Clipboard) (ho : n.openClipboard = false) :
    Transacted cb (OpenClipboard n cb) 0 := by
  unfold Transacted
  simp [OpenClipboard, ho, note, txn]

theorem Transacted_refl (cb : Clipboard) : Transacted cb cb 0 := ⟨[], by simp, rfl⟩

theorem transacted_paste (n : Native) (cb : Clipboard) :
    ∃ k, Transacted cb (HandlePaste n cb).1 k ∧ k ≤ 1 := by
  unfold Transacted HandlePaste
  cases ho : n.openClipboard <;> cases hg : n.getText <;> cases ht : cb.text <;>
    simp [ho, hg, ht, OpenClipboard, CloseClipboard, IsClipboardFormatAvailable,
      GetClipboardText, present, note, txn]

theorem transacted_getContentType (n : Native) (cb : Clipboard) :
    ∃ k, Transacted cb (HandleGetContentType n cb).1 k ∧ k ≤ 1 := by
  unfold Transacted HandleGetContentType
  cases ho : n.openClipboard <;> by_cases hr : n.registerHtml = 0 <;>
    simp [ho, hr, OpenClipboard, CloseClipboard, IsClipboardFormatAvailable,
      present, note, txn]

theorem transacted_pasteRichText (n : Native) (cb : Clipboard) :
    ∃ k, Transacted cb (HandlePasteRichText n cb).1 k ∧ k ≤ 1 := by
  unfold Transacted HandlePasteRichText
  cases ho : n.openClipboard <;> by_cases hr : n.registerHtml = 0 <;>
    cases hg : n.getText <;> cases ht : cb.text <;>
    cases hg2 : n.getHtml <;> cases ht2 : cb.html <;>
    simp [ho, hr, hg, ht, hg2, ht2, OpenClipboard, CloseClipboard,
      IsClipboardFormatAvailable, GetClipboardText, GetClipboardHtml, present, note, txn]

theorem transacted_hasData (n : Native) (cb : Clipboard) :
    ∃ k, Transacted cb (HandleHasData n cb).1 k ∧ k ≤ 1 := by
  unfold Transacted HandleHasData
  cases ho : n.openClipboard <;> by_cases hr : n.registerHtml = 0 <;>
    cases ht : cb.text <;> cases hd : cb.dib <;>
    simp [ho, hr, ht, hd, OpenClipboard, CloseClipboard,
      IsClipboardFormatAvailable, present, note, txn]

theorem transacted_clear (n : Native) (cb : Clipboard) :
    ∃ k, Transacted cb (HandleClear n cb).1 k ∧ k ≤ 1 := by
  unfold Transacted HandleClear
  cases ho : n.openClipboard <;>
    simp [ho, OpenClipboard, CloseClipboard, EmptyClipboard, note, txn]

theorem transacted_getDataSize (n : Native) (cb : Clipboard) :
    ∃ k, Transacted cb (HandleGetDataSize n cb).1 k ∧ k ≤ 1 := by
  unfold Transacted HandleGetDataSize
  cases ho : n.openClipboard <;> cases hg : n.getText <;> cases ht : cb.text <;>
    simp [ho, hg, ht, OpenClipboard, CloseClipboard, IsClipboardFormatAvailable,
      GetClipboardText, present, note, txn]

theorem transacted_copy (n : Native) (arguments : Option EncodableMap) (cb : Clipboard) :
    ∃ k, Transacted cb (HandleCopy n arguments cb).1 k ∧ k ≤ 1 := by
  unfold HandleCopy
  split
  · exact ⟨0, Transacted_refl cb, by decide⟩
  · split
    · split_ifs with h1 h2
      · exact ⟨0, Transacted_refl cb, by decide⟩
      · exact ⟨1, Transacted_bracket n cb _ h2 (TSteps_putUnicodeText _ _ _), by decide⟩
      · exact ⟨0, Transacted_openFailed n cb (by simpa using h2), by decide⟩
    · exact ⟨0, Transacted_refl cb, by decide⟩

theorem transacted_copyRichText (n : Native) (arguments : Option EncodableMap)
    (cb : Clipboard) : ∃ k, Transacted cb (HandleCopyRichText n arguments cb).1 k ∧ k ≤ 1 := by
  unfold HandleCopyRichText
  split
  · exact ⟨0, Transacted_refl cb, by decide⟩
  · dsimp only
    split_ifs with h1 h2 h3 h4 h4
    all_goals first
      | exact ⟨0, Transacted_refl cb, by decide⟩
      | exact ⟨0, Transacted_openFailed n cb (by simpa using h2), by decide⟩
      | exact ⟨1, Transacted_bracket n cb _ h2 (TSteps_refl _ _), by decide⟩
      | exact ⟨1, Transacted_bracket n cb _ h2 (TSteps_putUnicodeText _ _ _), by decide⟩
      | exact ⟨1, Transacted_bracket n cb _ h2 (TSteps_putHtmlFormat _ _ _), by decide⟩
      | exact ⟨1, Transacted_bracket n cb _ h2
          (TSteps_trans (TSteps_putUnicodeText _ _ _) (TSteps_putHtmlFormat _ _ _)), by decide⟩

theorem transacted_copyMultiple (n : Native) (arguments : Option EncodableMap)
    (cb cb2 : Clipboard) (r : Reply)
    (hrun : HandleCopyMultiple n arguments cb = some (cb2, r)) :
    ∃ k, Transacted cb cb2 k ∧ k ≤ 1 := by
  rcases copyMultiple_cases n arguments cb with ⟨code, msg, e⟩ | ⟨hof, e⟩ | ⟨args, fm, ea, hf, hne, ho⟩
  · rw [e] at hrun
    simp only [Option.some.injEq, Prod.mk.injEq] at hrun
    rw [← hrun.1]
    exact ⟨0, Transacted_refl cb, by decide⟩
  · rw [e] at hrun
    simp only [Option.some.injEq, Prod.mk.injEq] at hrun
    rw [← hrun.1]
    exact ⟨0, Transacted_openFailed n cb hof, by decide⟩
  · subst ea
    rw [copyMultiple_open n args fm cb hf hne ho] at hrun
    simp only [Option.map_eq_some', Prod.mk.injEq] at hrun
    obtain ⟨c, hc, hcb, _⟩ := hrun
    rw [← hcb]
    exact ⟨1, Transacted_bracket n cb _ ho (TSteps_trans (TSteps_trans
      (TSteps_bundleImage n fm _ c hc) (TSteps_bundleText n fm c))
      (TSteps_bundleHtml n fm _)), by decide⟩

theorem transacted_copyImage (n : Native) (arguments : Option EncodableMap)
    (cb cb2 : Clipboard) (r : Reply)
    (hrun : HandleCopyImage n arguments cb = some (cb2, r)) :
    ∃ k, Transacted cb cb2 k ∧ k ≤ 1 := by
  unfold HandleCopyImage at hrun
  split at hrun
  · simp only [Option.some.injEq, Prod.mk.injEq] at hrun
    rw [← hrun.1]; exact ⟨0, Transacted_refl cb, by decide⟩
  · split at hrun
    · dsimp only at hrun
      split_ifs at hrun with h1 h2 h3
      · simp only [Option.some.injEq, Prod.mk.injEq] at hrun
        rw [← hrun.1]; exact ⟨0, Transacted_refl cb, by decide⟩
      · simp only [Option.some.injEq, Prod.mk.injEq] at hrun
        rw [← hrun.1]; exact ⟨0, Transacted_refl cb, by decide⟩
      · split at hrun
        · simp at hrun
        · rename_i cb3 success hset
          have hcb : cb2 = CloseClipboard cb3 := by
            split_ifs at hrun
            all_goals
              simp only [Option.some.injEq, Prod.mk.injEq] at hrun
              exact hrun.1.symm
          rw [hcb]
          refine ⟨1, Transacted_bracket n cb _ h3 ?_, by decide⟩
          rcases SetClipboardImage_cases n _ _ cb3 success hset with ⟨e, _⟩ | ⟨d, e, _⟩
          · rw [e]; exact TSteps_refl _ _
          · rw [e]; exact TSteps_SetClipboardData _ _ _
      · simp only [Option.some.injEq, Prod.mk.injEq] at hrun
        rw [← hrun.1]; exact ⟨0, Transacted_openFailed n cb (by simpa using h3), by decide⟩
    · simp only [Option.some.injEq, Prod.mk.injEq] at hrun
      rw [← hrun.1]; exact ⟨0, Transacted_refl cb, by decide⟩

theorem transacted_pasteImage (n : Native) (cb cb2 : Clipboard) (r : Reply)
    (hrun : HandlePasteImage n cb = some (cb2, r)) :
    ∃ k, Transacted cb cb2 k ∧ k ≤ 1 := by
  unfold HandlePasteImage at hrun
  dsimp only at hrun
  cases ho : n.openClipboard
  all_goals simp only [ho, Bool.not_true, Bool.not_false, if_true, if_false, Bool.false_eq_true] at hrun
  · simp only [Option.some.injEq, Prod.mk.injEq] at hrun
    obtain ⟨rfl, -⟩ := hrun
    exact ⟨0, Transacted_openFailed n cb ho, by decide⟩
  · repeat' split at hrun
    all_goals try (simp at hrun; done)
    all_goals
      simp only [Option.some.injEq, Prod.mk.injEq] at hrun
      obtain ⟨rfl, -⟩ := hrun
      unfold Transacted
      simp [OpenClipboard, CloseClipboard, IsClipboardFormatAvailable, GetClipboardDib, note,
        txn, ho]

theorem TSteps_method1 (n : Native) (cb : Clipboard) :
    TSteps true cb true 0 (Runner.method1 n cb).1 := by
  unfold TSteps Runner.method1
  cases hb : cb.bitmap <;> cases h1 : n.getBitmap <;> cases h2 : n.createCompatibleDC <;>
    cases h3 : n.createCompatibleBitmap <;>
    simp [hb, h1, h2, h3, IsClipboardFormatAvailable, GetClipboardBitmap, present, note, txn]

theorem TSteps_method3 (n : Native) (cb : Clipboard) (opened : Bool) :
    TSteps opened cb (opened || n.reopenClipboard) 0 (Runner.method3 n cb opened).1 ∧
    (Runner.method3 n cb opened).2.2.1 = (opened || n.reopenClipboard) := by
  unfold TSteps Runner.method3
  cases opened <;> cases h4 : n.reopenClipboard <;> cases hh : cb.hdrop <;>
    cases h3 : n.getHdrop <;>
    simp [hh, h3, h4, IsClipboardFormatAvailable, GetClipboardHdrop, present, note,
      txn, openWith]

theorem TSteps_open (n : Native) (cb : Clipboard) (ho : n.openClipboard = true) :
    TSteps false cb true 0 (OpenClipboard n cb) := by
  unfold TSteps
  simp [OpenClipboard, ho, note, txn]

theorem TSteps_close (cb : Clipboard) : TSteps true cb false 1 (CloseClipboard cb) := by
  unfold TSteps
  simp [CloseClipboard, note, txn]

theorem sectionMade_congr (n : Native) (cb cb2 : Clipboard) (h : sameContents cb cb2) :
    sectionMade n cb2 = sectionMade n cb := by
  unfold sectionMade; rw [dibCloses_congr n cb cb2 h]

theorem txn_append_none (a b : List Call) (h : Bool) (ha : txn h a = none) :
    txn h (a ++ b) = none := by
  rw [txn_append, ha]; rfl

theorem txn_append_stale (a b : List Call) (h h2 : Bool) (k : Nat)
    (ha : txn h a = some (h2, k)) (hb : txn h2 b = none) : txn h (a ++ b) = none := by
  rw [txn_append, ha]; simp [hb]

/-- The DIB attempt that does not get as far as a DIB section makes its calls with the
clipboard held and closes one bracket when the header passes the check. -/
theorem TSteps_method2 (n : Native) (cb : Clipboard) (hs : sectionMade n cb = false) :
    TSteps true cb (!dibCloses n cb) (if dibCloses n cb = true then 1 else 0)
      (Runner.method2 n cb).1 := by
  unfold sectionMade at hs
  revert hs
  unfold TSteps Runner.method2 dibCloses validHeader
  cases hd : cb.dib with
  | none => simp [hd, IsClipboardFormatAvailable, present, note, txn]
  | some dib =>
    cases h1 : n.getDib <;> cases h2 : n.lockDib <;> cases h3 : n.createDibDC <;>
      cases h4 : n.createDIBSection <;>
      by_cases hv : 40 ≤ dib.biSize ∧ 0 < dib.biWidth ∧ dib.biHeight ≠ 0 <;>
      simp [hd, h1, h2, h3, h4, hv, IsClipboardFormatAvailable, GetClipboardDib, present, note,
        txn, CloseClipboard]

/-- A read of a clipboard block that follows a sequence of calls which leaves the clipboard
closed is outside every bracket. -/
theorem txn_stale (a b : List Call) (h : Bool) (k : Nat) (f : Fmt)
    (ha : txn h a = some (false, k)) : txn h (a ++ Call.readBlock f :: b) = none :=
  txn_append_stale a _ h false k ha (by simp [txn])

/-- The DIB attempt that gets as far as a DIB section reads the header of the clipboard's
block after it has closed the clipboard. -/
theorem method2_stale (n : Native) (cb : Clipboard) (hs : sectionMade n cb = true) :
    ∃ a b, (Runner.method2 n cb).1.calls = cb.calls ++ a ++ Call.readBlock .dib :: b ∧
      txn true a = some (false, 1) := by
  refine ⟨[.isClipboardFormatAvailable .dib, .getClipboardData .dib, .closeClipboard], ?_⟩
  unfold sectionMade at hs
  revert hs
  unfold Runner.method2 dibCloses validHeader
  cases hd : cb.dib with
  | none => simp
  | some dib =>
    cases h1 : n.getDib <;> cases h2 : n.lockDib <;> cases h3 : n.createDibDC <;>
      cases h4 : n.createDIBSection <;>
      by_cases hv : 40 ≤ dib.biSize ∧ 0 < dib.biWidth ∧ dib.biHeight ≠ 0 <;>
      by_cases hb : dib.biBitCount ≤ 8 <;>
      simp [hd, h1, h2, h3, h4, hv, hb, IsClipboardFormatAvailable, GetClipboardDib, present,
        note, txn, CloseClipboard, Runner.readHeader]

/-- The three methods together, when the DIB attempt does not get as far as a DIB section
or is not reached: they close one bracket exactly when the DIB attempt is reached and closes
the clipboard; the clipboard is then held at the end only when the file list is turned to
and the clipboard opens again. -/
theorem TSteps_acquire (n : Native) (cb : Clipboard)
    (hs : handleCandidate n cb ≠ none ∨ sectionMade n cb = false) :
    ∃ (held : Bool) (k : Nat),
      TSteps true cb held k (Runner.acquire n cb).cb ∧
      (Runner.acquire n cb).clipboardOpened = held ∧
      (k = 0 ∧ held = true ∨
       k = 1 ∧ handleCandidate n cb = none ∧ dibCloses n cb = true ∧
         (held = true → dibCandidate n cb = none ∧ n.reopenClipboard = true)) := by
  unfold Runner.acquire
  obtain ⟨a1, b1, _⟩ := method1_spec n cb
  have s1 := TSteps_method1 n cb
  rcases hm1 : Runner.method1 n cb with ⟨cb1, p1⟩
  rw [hm1] at s1 a1 b1
  cases p1 with
  | some b => exact ⟨true, 0, s1, rfl, Or.inl ⟨rfl, rfl⟩⟩
  | none =>
    have hc : handleCandidate n cb = none := a1.symm
    have hs1 : sectionMade n cb1 = false := by
      rw [sectionMade_congr n cb cb1 b1]
      rcases hs with h | h
      · exact absurd hc h
      · exact h
    dsimp only at s1 b1 ⊢
    obtain ⟨a2, o2, _⟩ := method2_spec n cb1
    have s2 := TSteps_method2 n cb1 hs1
    rcases hm2 : Runner.method2 n cb1 with ⟨cb2, p2, opened⟩
    rw [hm2] at s2 a2 o2
    dsimp only at s2 a2 o2
    rw [dibCandidate_congr n cb cb1 b1] at a2
    rw [dibCloses_congr n cb cb1 b1] at o2 s2
    have s12 := TSteps_trans s1 s2
    rw [Nat.zero_add] at s12
    cases hdc : dibCloses n cb with
    | false =>
      rw [hdc] at s12 o2
      simp only [Bool.not_false, Bool.false_eq_true, if_false] at s12 o2
      cases p2 with
      | some b =>
        dsimp only
        exact ⟨true, 0, s12, o2, Or.inl ⟨rfl, rfl⟩⟩
      | none =>
        dsimp only
        obtain ⟨s3, e3⟩ := TSteps_method3 n cb2 opened
        rcases hm3 : Runner.method3 n cb2 opened with ⟨cb3, p3, o3, dec⟩
        rw [hm3] at s3 e3
        dsimp only at s3 e3 ⊢
        rw [o2] at s3 e3
        simp only [Bool.true_or] at s3 e3
        exact ⟨true, 0, TSteps_trans s12 s3, e3, Or.inl ⟨rfl, rfl⟩⟩
    | true =>
      rw [hdc] at s12 o2
      simp only [Bool.not_true, if_true] at s12 o2
      cases p2 with
      | some b =>
        dsimp only
        exact ⟨false, 1, s12, o2, Or.inr ⟨rfl, hc, rfl, fun h => Bool.noConfusion h⟩⟩
      | none =>
        have hd : dibCandidate n cb = none := a2.symm
        dsimp only
        obtain ⟨s3, e3⟩ := TSteps_method3 n cb2 opened
        rcases hm3 : Runner.method3 n cb2 opened with ⟨cb3, p3, o3, dec⟩
        rw [hm3] at s3 e3
        dsimp only at s3 e3 ⊢
        rw [o2] at s3 e3
        simp only [Bool.false_or] at s3 e3
        refine ⟨n.reopenClipboard, 1, TSteps_trans s12 s3, e3, Or.inr ⟨rfl, hc, rfl, ?_⟩⟩
        intro h
        exact ⟨hd, h⟩

/-- The three methods together, when the handle yields no bitmap and the DIB attempt gets as
far as a DIB section: a read of the DIB block follows the close of the first bracket. -/
theorem acquire_stale (n : Native) (cb : Clipboard) (hc : handleCandidate n cb = none)
    (hs : sectionMade n cb = true) :
    ∃ a b, (Runner.acquire n cb).cb.calls = cb.calls ++ a ++ Call.readBlock .dib :: b ∧
      txn true a = some (false, 1) := by
  unfold Runner.acquire
  obtain ⟨a1, b1, _⟩ := method1_spec n cb
  obtain ⟨c1, e1, t1⟩ := TSteps_method1 n cb
  rcases hm1 : Runner.method1 n cb with ⟨cb1, p1⟩
  rw [hm1] at a1 b1 e1
  dsimp only at a1 b1 e1
  rw [hc] at a1
  subst a1
  dsimp only
  obtain ⟨a2, b2, e2, t2⟩ :=
    method2_stale n cb1 (by rw [sectionMade_congr n cb cb1 b1]; exact hs)
  rcases hm2 : Runner.method2 n cb1 with ⟨cb2, p2, opened⟩
  rw [hm2] at e2
  dsimp only at e2
  have t12 : txn true (c1 ++ a2) = some (false, 1) := by
    rw [txn_append, t1]; simp [t2]
  cases p2 with
  | some b =>
    dsimp only
    exact ⟨c1 ++ a2, b2, by rw [e2, e1]; simp, t12⟩
  | none =>
    dsimp only
    obtain ⟨⟨c3, e3, _⟩, _⟩ := TSteps_method3 n cb2 opened
    rcases hm3 : Runner.method3 n cb2 opened with ⟨cb3, p3, o3, dec⟩
    rw [hm3] at e3
    dsimp only at e3 ⊢
    exact ⟨c1 ++ a2, b2 ++ c3, by rw [e3, e2, e1]; simp, t12⟩

/-- The example runner's `pasteImage`, when the DIB attempt does not get as far as a DIB
section or is not reached, makes its calls inside one bracket, or inside two when the DIB
attempt closed the clipboard without yielding a bitmap and the clipboard opened again for
the file list. -/
theorem transacted_runnerPasteImage (n : Native) (cb : Clipboard)
    (hs : n.openClipboard = false ∨ handleCandidate n cb ≠ none ∨ sectionMade n cb = false) :
    ∃ k, Transacted cb (Runner.HandlePasteImage n cb).1 k ∧ k ≤ 2 ∧
      (k = 2 → handleCandidate n cb = none ∧ dibCandidate n cb = none ∧
        dibCloses n cb = true ∧ n.reopenClipboard = true) := by
  cases ho : n.openClipboard with
  | false =>
    have e : (Runner.HandlePasteImage n cb).1 = OpenClipboard n cb := by
      simp [Runner.HandlePasteImage, ho]
    rw [e]
    exact ⟨0, Transacted_openFailed n cb ho, by decide, fun h => absurd h (by decide)⟩
  | true =>
    rw [runner_clipboard n cb ho]
    have so := sameContents_open n cb
    have hs2 : handleCandidate n (OpenClipboard n cb) ≠ none ∨
        sectionMade n (OpenClipboard n cb) = false := by
      rw [handleCandidate_congr n cb _ so, sectionMade_congr n cb _ so]
      rcases hs with h | h
      · rw [ho] at h; exact Bool.noConfusion h
      · exact h
    obtain ⟨held, k, s, e, d⟩ := TSteps_acquire n (OpenClipboard n cb) hs2
    rw [handleCandidate_congr n cb _ so, dibCandidate_congr n cb _ so,
      dibCloses_congr n cb _ so] at d
    have s0 := TSteps_trans (TSteps_open n cb ho) s
    rw [Nat.zero_add] at s0
    rw [e]
    cases held with
    | false =>
      simp only [Bool.false_eq_true, if_false]
      rcases d with ⟨_, h⟩ | ⟨hk, _⟩
      · exact absurd h (by decide)
      · exact ⟨k, s0, by omega, fun h2 => by omega⟩
    | true =>
      simp only [if_true]
      have s1 := TSteps_trans s0 (TSteps_close _)
      rcases d with ⟨hk, _⟩ | ⟨hk, hc, hdc, hr⟩
      · exact ⟨k + 1, s1, by omega, fun h2 => by omega⟩
      · exact ⟨k + 1, s1, by omega, fun _ => ⟨hc, (hr rfl).1, hdc, (hr rfl).2⟩⟩

/-- The example runner's `pasteImage`, when the clipboard opens, the handle yields no bitmap
and the DIB attempt gets as far as a DIB section: a read of the DIB block follows the close
of the first bracket. -/
theorem runner_stale (n : Native) (cb : Clipboard) (ho : n.openClipboard = true)
    (hc : handleCandidate n cb = none) (hs : sectionMade n cb = true) :
    ∃ a b, (Runner.HandlePasteImage n cb).1.calls =
        cb.calls ++ a ++ Call.readBlock .dib :: b ∧
      txn false a = some (false, 1) := by
  have so := sameContents_open n cb
  obtain ⟨a, b, e, t⟩ := acquire_stale n (OpenClipboard n cb)
    (by rw [handleCandidate_congr n cb _ so]; exact hc)
    (by rw [sectionMade_congr n cb _ so]; exact hs)
  have eo : (OpenClipboard n cb).calls = cb.calls ++ [Call.openClipboard true] := by
    simp [OpenClipboard, ho, note]
  have t0 : txn false ([Call.openClipboard true] ++ a) = some (false, 1) := by
    rw [txn_append]; simp [txn, t]
  rw [runner_clipboard n cb ho]
  split_ifs
  · exact ⟨[Call.openClipboard true] ++ a, b ++ [Call.closeClipboard],
      by simp [CloseClipboard, note, e, eo], t0⟩
  · exact ⟨[Call.openClipboard true] ++ a, b, by simp [e, eo], t0⟩

/-- A record in which a read of a clipboard block follows calls that leave the clipboard
closed is not a sequence of brackets that holds every call and read. -/
theorem not_transacted_of_stale (cb cb2 : Clipboard) (a b : List Call) (f : Fmt) (k1 : Nat)
    (e : cb2.calls = cb.calls ++ a ++ Call.readBlock f :: b)
    (t : txn false a = some (false, k1)) (k : Nat) : ¬ Transacted cb cb2 k := by
  rintro ⟨ds, ed, td⟩
  have h : cb.calls ++ ds = cb.calls ++ (a ++ Call.readBlock f :: b) := by
    rw [← ed, e, List.append_assoc]
  rw [List.append_cancel_left h, txn_stale a b false k1 f t] at td
  exact Option.noConfusion td

/-- C21 (amended): every handler of the plugin makes all its clipboard calls inside at most
one open/close bracket and never opens the clipboard a second time. The example runner's
`pasteImage` keeps its calls inside brackets, at most two, in every run in which the
clipboard does not open, the handle yields a bitmap, or the DIB attempt does not get as far
as a DIB section; the second bracket is the one opened for the file list after the DIB
attempt has closed the clipboard without yielding a bitmap. In every other run it reads the
header of the clipboard's DIB block after the close of its first bracket, so what it does is
not a sequence of brackets that holds every call and read. -/
theorem C21_one_bracket (n : Native) (arguments : Option EncodableMap) (cb : Clipboard) :
    (∃ k, Transacted cb (HandleCopy n arguments cb).1 k ∧ k ≤ 1) ∧
    (∃ k, Transacted cb (HandleCopyRichText n arguments cb).1 k ∧ k ≤ 1) ∧
    (∀ cb2 r, HandleCopyMultiple n arguments cb = some (cb2, r) →
      ∃ k, Transacted cb cb2 k ∧ k ≤ 1) ∧
    (∀ cb2 r, HandleCopyImage n arguments cb = some (cb2, r) →
      ∃ k, Transacted cb cb2 k ∧ k ≤ 1) ∧
    (∃ k, Transacted cb (HandlePaste n cb).1 k ∧ k ≤ 1) ∧
    (∃ k, Transacted cb (HandlePasteRichText n cb).1 k ∧ k ≤ 1) ∧
    (∀ cb2 r, HandlePasteImage n cb = some (cb2, r) → ∃ k, Transacted cb cb2 k ∧ k ≤ 1) ∧
    (∃ k, Transacted cb (HandleGetContentType n cb).1 k ∧ k ≤ 1) ∧
    (∃ k, Transacted cb (HandleHasData n cb).1 k ∧ k ≤ 1) ∧
    (∃ k, Transacted cb (HandleClear n cb).1 k ∧ k ≤ 1) ∧
    (∃ k, Transacted cb (HandleGetDataSize n cb).1 k ∧ k ≤ 1) ∧
    ((n.openClipboard = false ∨ handleCandidate n cb ≠ none ∨ sectionMade n cb = false) →
      ∃ k, Transacted cb (Runner.HandlePasteImage n cb).1 k ∧ k ≤ 2 ∧
        (k = 2 → handleCandidate n cb = none ∧ dibCandidate n cb = none ∧
          dibCloses n cb = true ∧ n.reopenClipboard = true)) ∧
    (n.openClipboard = true → handleCandidate n cb = none → sectionMade n cb = true →
      (∃ a b, (Runner.HandlePasteImage n cb).1.calls =
          cb.calls ++ a ++ Call.readBlock .dib :: b ∧
        txn false a = some (false, 1)) ∧
      ∀ k, ¬ Transacted cb (Runner.HandlePasteImage n cb).1 k) :=
  ⟨transacted_copy n arguments cb, transacted_copyRichText n arguments cb,
   fun cb2 r h => transacted_copyMultiple n arguments cb cb2 r h,
   fun cb2 r h => transacted_copyImage n arguments cb cb2 r h,
   transacted_paste n cb, transacted_pasteRichText n cb,
   fun cb2 r h => transacted_pasteImage n cb cb2 r h,
   transacted_getContentType n cb, transacted_hasData n cb, transacted_clear n cb,
   transacted_getDataSize n cb, transacted_runnerPasteImage n cb,
   fun ho hc hs =>
     have h := runner_stale n cb ho hc hs
     ⟨h, fun k => by
       obtain ⟨a, b, e, t⟩ := h
       exact not_transacted_of_stale cb _ a b .dib 1 e t k⟩⟩

theorem C21_witness :
    (∃ k, Transacted textAndHtml (HandleCopy nativeOk (copyArgs [104, 105]) textAndHtml).1 k ∧
      k ≤ 1) ∧
    (∃ k, Transacted textAndHtml
      (CloseClipboard (IsClipboardFormatAvailable .dib (OpenClipboard nativeOk textAndHtml)).1) k ∧
      k ≤ 1) ∧
    (∃ k, Transacted textAndHtml (Runner.HandlePasteImage nativeOk textAndHtml).1 k ∧ k ≤ 2 ∧
      (k = 2 → handleCandidate nativeOk textAndHtml = none ∧
        dibCandidate nativeOk textAndHtml = none ∧
        dibCloses nativeOk textAndHtml = true ∧ nativeOk.reopenClipboard = true)) ∧
    (nativeOk.openClipboard = true ∧ handleCandidate nativeOk dibAndFile = none ∧
      sectionMade nativeOk dibAndFile = true) ∧
    ∀ k, ¬ Transacted dibAndFile (Runner.HandlePasteImage nativeOk dibAndFile).1 k :=
  have h := C21_one_bracket nativeOk (copyArgs [104, 105]) textAndHtml
  have g := C21_one_bracket nativeOk none dibAndFile
  ⟨h.1, h.2.2.2.2.2.2.1 _ (.successImage none) rfl,
   h.2.2.2.2.2.2.2.2.2.2.2.1 (Or.inr (Or.inr (by decide))),
   ⟨by decide, by decide, by decide⟩,
   (g.2.2.2.2.2.2.2.2.2.2.2.2 (by decide) (by decide) (by decide)).2⟩

/-- The example runner's `pasteImage` on a DIB that passes the header check, next to a file
list. When `CreateCompatibleDC` fails, the clipboard is closed after the DIB is copied and
opened a second time for the file list: two brackets. When the DIB converts, the three reads
of the header through the pointer into the clipboard's block follow the close. -/
theorem C21_counterexample :
    ((Runner.HandlePasteImage nativeNoDC dibAndFile).1.calls =
      [.openClipboard true, .isClipboardFormatAvailable .bitmap,
       .isClipboardFormatAvailable .dib, .getClipboardData .dib, .closeClipboard,
       .openClipboard true, .isClipboardFormatAvailable .hdrop, .getClipboardData .hdrop,
       .closeClipboard] ∧
     txn false (Runner.HandlePasteImage nativeNoDC dibAndFile).1.calls = some (false, 2)) ∧
    ((Runner.HandlePasteImage nativeOk dibAndFile).1.calls =
      [.openClipboard true, .isClipboardFormatAvailable .bitmap,
       .isClipboardFormatAvailable .dib, .getClipboardData .dib, .closeClipboard,
       .readBlock .dib, .readBlock .dib, .readBlock .dib] ∧
     txn false (Runner.HandlePasteImage nativeOk dibAndFile).1.calls = none) := by
  decide

end ClipboardPlugin
